import Mathlib

/-!
Verification of the PostGIS serialized-geometry codec (`liblwgeom/g_serialized.c`,
`liblwgeom/lwutil.c`) against its specification.

The development shallowly embeds the codec over byte lists (`List Nat`, each entry a
byte value).  Machine integers are `Nat`/`Int` with explicit wrap-around where the C
code wraps.  IEEE-754 doubles are carried as 64-bit bit patterns; the bit-pattern
comparison used by `FP_MIN`/`FP_MAX` and the box tie-breaks is embedded exactly
(same-sign IEEE patterns order like integers), while floating-point *arithmetic*
(additions, float rounding, trigonometry) lives in external collaborator functions of
the library and is threaded through an explicit `Env` of collaborators, exactly as the
spec lists them as externally supplied pure functions.
-/

set_option maxHeartbeats 1000000

/-! ## Geometry type tags and SRID constants (from `liblwgeom.h`, quoted by the spec) -/

/-- Type tag of Point; the tag table is fixed by the spec (§3.1). -/
def POINTTYPE : Nat := 1
/-- Type tag of LineString. -/
def LINETYPE : Nat := 2
/-- Type tag of Polygon. -/
def POLYGONTYPE : Nat := 3
/-- Type tag of MultiPoint. -/
def MULTIPOINTTYPE : Nat := 4
/-- Type tag of MultiLineString. -/
def MULTILINETYPE : Nat := 5
/-- Type tag of MultiPolygon. -/
def MULTIPOLYGONTYPE : Nat := 6
/-- Type tag of GeometryCollection. -/
def COLLECTIONTYPE : Nat := 7
/-- Type tag of CircularString. -/
def CIRCSTRINGTYPE : Nat := 8
/-- Type tag of CompoundCurve. -/
def COMPOUNDTYPE : Nat := 9
/-- Type tag of CurvePolygon. -/
def CURVEPOLYTYPE : Nat := 10
/-- Type tag of MultiCurve. -/
def MULTICURVETYPE : Nat := 11
/-- Type tag of MultiSurface. -/
def MULTISURFACETYPE : Nat := 12
/-- Type tag of PolyhedralSurface. -/
def POLYHEDRALSURFACETYPE : Nat := 13
/-- Type tag of Triangle. -/
def TRIANGLETYPE : Nat := 14
/-- Type tag of Tin. -/
def TINTYPE : Nat := 15

/-- The unknown-SRID sentinel; the spec glossary fixes it: "21-bit signed, 0 ⇒ unknown". -/
def SRID_UNKNOWN : Int := 0
/-- Largest legal SRID value (library header constant). -/
def SRID_MAXIMUM : Int := 999999
/-- Upper bound of the user-reserved SRID range (library header constant). -/
def SRID_USER_MAXIMUM : Int := 998999

/-! ## Flag byte accessors

Modelled from the spec §3.2: flag byte bits, LSB first, are
`Z, M, bbox, geodetic, readonly, solid, extended, reserved`, and `ndims = 2 + Z + M`
(the `FLAGS_*` macros of `liblwgeom.h`, which is not part of the sources). -/

/-- Z bit of a flag byte (bit 0). -/
def flagZ (f : Nat) : Nat := f &&& 1
/-- M bit of a flag byte (bit 1). -/
def flagM (f : Nat) : Nat := (f &&& 2) >>> 1
/-- bbox-present bit of a flag byte (bit 2). -/
def flagBBOX (f : Nat) : Nat := (f &&& 4) >>> 2
/-- geodetic bit of a flag byte (bit 3). -/
def flagGeodetic (f : Nat) : Nat := (f &&& 8) >>> 3
/-- readonly bit of a flag byte (bit 4). -/
def flagReadonly (f : Nat) : Nat := (f &&& 16) >>> 4

/-- Boolean view of the Z bit. -/
def hasZ (f : Nat) : Bool := flagZ f != 0
/-- Boolean view of the M bit. -/
def hasM (f : Nat) : Bool := flagM f != 0
/-- Boolean view of the bbox bit. -/
def hasBBOX (f : Nat) : Bool := flagBBOX f != 0
/-- Boolean view of the geodetic bit. -/
def isGeodetic (f : Nat) : Bool := flagGeodetic f != 0

/-- Coordinate dimension count: `2 + Z + M`. -/
def ndims (f : Nat) : Nat := 2 + flagZ f + flagM f

/-- The packed `ZM` value `2*Z + M`, as used by the serializer's dimension checks. -/
def zmOf (f : Nat) : Nat := 2 * flagZ f + flagM f

/-- Overwrite the bbox bit of a flag byte (the `FLAGS_SET_BBOX` macro). -/
def setFlagBBOX (f : Nat) (v : Bool) : Nat :=
  (f &&& 0xFB) ||| ((if v then 1 else 0) <<< 2)

/-- Serialized bounding-box size in bytes: 24 when geodetic, else `2·ndims·4`
(`gserialized1_box_size` in the source, also §3.3 of the spec). -/
def gbox_serialized_size (f : Nat) : Nat :=
  if isGeodetic f then 6 * 4 else 2 * ndims f * 4

/-! ## Byte-list utilities -/

/-- Read one byte of a byte list, zero when out of range. -/
def byteL (l : List Nat) (i : Nat) : Nat := l.getD i 0

/-- Read a little-endian 32-bit word at byte offset `off`. -/
def readU32 (l : List Nat) (off : Nat) : Nat :=
  byteL l off + 2^8 * byteL l (off+1) + 2^16 * byteL l (off+2) + 2^24 * byteL l (off+3)

/-- Read a little-endian 64-bit word (a double bit pattern) at byte offset `off`. -/
def readU64 (l : List Nat) (off : Nat) : Nat :=
  readU32 l off + 2^32 * readU32 l (off + 4)

/-- Little-endian bytes of a 32-bit word (wraps larger values, as a `uint32_t` store does). -/
def bytesOfU32 (n : Nat) : List Nat :=
  [n % 2^8, n / 2^8 % 2^8, n / 2^16 % 2^8, n / 2^24 % 2^8]

/-- Little-endian bytes of a 64-bit word. -/
def bytesOfU64 (n : Nat) : List Nat :=
  bytesOfU32 (n % 2^32) ++ bytesOfU32 (n / 2^32 % 2^32)

/-- Sign of C `memcmp` over the common length of two byte lists. -/
def memcmpSign : List Nat → List Nat → Int
  | [], _ => 0
  | _ :: _, [] => 0
  | a :: as, b :: bs =>
    if a < b then -1 else if b < a then 1 else memcmpSign as bs

/-! ## IEEE-754 bit-pattern comparison

The comparator and the peek code compare doubles (`FP_MIN`, `FP_MAX`, box minima and
maxima).  A comparison of two IEEE-754 doubles is a pure function of their bit
patterns: NaN compares false against everything, `-0 = +0`, and otherwise patterns of
equal sign order like (sign-adjusted) integers.  This is embedded exactly; no
floating-point arithmetic is involved. -/

/-- NaN test on a 64-bit pattern: exponent all ones and non-zero mantissa. -/
def isNan64 (a : Nat) : Bool :=
  ((a >>> 52) &&& 0x7FF) == 0x7FF && (a &&& (2^52 - 1)) != 0

/-- The C `<` on two doubles given as 64-bit patterns. -/
def doubleLt (a b : Nat) : Bool :=
  let a := a % 2^64
  let b := b % 2^64
  if isNan64 a || isNan64 b then false
  else
    let sa := a >>> 63
    let sb := b >>> 63
    let ma := a &&& (2^63 - 1)
    let mb := b &&& (2^63 - 1)
    if sa == 0 && sb == 0 then decide (ma < mb)
    else if sa == 1 && sb == 1 then decide (mb < ma)
    else if sa == 1 && sb == 0 then !(ma == 0 && mb == 0)
    else false

/-- `FP_MIN` of two double bit patterns: `(a < b) ? a : b`. -/
def fpMin (a b : Nat) : Nat := if doubleLt a b then a else b

/-- `FP_MAX` of two double bit patterns: `(a > b) ? a : b`. -/
def fpMax (a b : Nat) : Nat := if doubleLt b a then a else b

/-! ## Morton interleave (`uint32_interleave_2`, portable variant of the source) -/

/-- One 32-bit value spread over the even bits of a 64-bit value; the source's
shift-or-mask loop at shifts 16, 8, 4, 2, 1, unrolled. -/
def spreadBits (x0 : Nat) : Nat :=
  let x := x0 % 2^32
  let x := (x ||| (x <<< 16)) &&& 0x0000FFFF0000FFFF
  let x := (x ||| (x <<< 8)) &&& 0x00FF00FF00FF00FF
  let x := (x ||| (x <<< 4)) &&& 0x0F0F0F0F0F0F0F0F
  let x := (x ||| (x <<< 2)) &&& 0x3333333333333333
  (x ||| (x <<< 1)) &&& 0x5555555555555555

/-- `uint32_interleave_2`: even bits from `u1`, odd bits from `u2`. -/
def uint32_interleave_2 (u1 u2 : Nat) : Nat :=
  spreadBits u1 ||| (spreadBits u2 <<< 1)

/-! ## The serialized record -/

/-- A serialized record.  `size` is the raw outer varlen word (the byte count shifted
left by 2).  The three SRID bytes and the flag byte mirror the C struct.  `data` holds
the bytes after the 8-byte fixed header (optional bbox, then the body).  `beyond`
models the memory that follows the record in the address space: the comparator's point
fast path reads through a `GSERIALIZED*`-typed pointer offset and can touch bytes past
the record, so the behaviour of that read is a function of this surrounding memory. -/
structure GSERIALIZED where
  size : Nat
  srid0 : Nat
  srid1 : Nat
  srid2 : Nat
  flags : Nat
  data : List Nat
  beyond : Nat → Nat

/-- The `SIZE_GET` macro: the stored varlen word shifted right by 2. -/
def SIZE_GET (n : Nat) : Nat := n >>> 2

/-- Total record length in bytes (8-byte header plus data). -/
def recordLen (g : GSERIALIZED) : Nat := 8 + g.data.length

/-- Byte of the record at an absolute offset from the record base; offsets past the
record read the surrounding memory (`beyond`). -/
def recordByteAt (g : GSERIALIZED) (i : Nat) : Nat :=
  if i < 4 then (g.size >>> (8 * i)) &&& 255
  else if i = 4 then g.srid0
  else if i = 5 then g.srid1
  else if i = 6 then g.srid2
  else if i = 7 then g.flags
  else if i - 8 < g.data.length then byteL g.data (i - 8)
  else g.beyond (i - recordLen g)

/-- Little-endian 32-bit read at an absolute record offset. -/
def recordU32At (g : GSERIALIZED) (off : Nat) : Nat :=
  recordByteAt g off + 2^8 * recordByteAt g (off+1) +
    2^16 * recordByteAt g (off+2) + 2^24 * recordByteAt g (off+3)

/-- Little-endian 64-bit read at an absolute record offset. -/
def recordU64At (g : GSERIALIZED) (off : Nat) : Nat :=
  recordU32At g off + 2^32 * recordU32At g (off + 4)

/-- Well-formedness of a record: the size word is consistent with the byte count, all
stored bytes are bytes, and the data covers at least the serialized bbox announced by
the flag byte. -/
def recordWFb (g : GSERIALIZED) : Bool :=
  g.size == (8 + g.data.length) <<< 2 &&
  g.srid0 < 2^8 && g.srid1 < 2^8 && g.srid2 < 2^8 && g.flags < 2^8 &&
  g.data.all (fun b => b < 2^8) &&
  (if hasBBOX g.flags then gbox_serialized_size g.flags else 0) + 8 ≤ g.data.length

/-- Propositional form of record well-formedness. -/
def recordWF (g : GSERIALIZED) : Prop := recordWFb g = true

/-! ## Header accessors (`g_serialized.c`) -/

/-- `gserialized_has_bbox`. -/
def gserialized_has_bbox (g : GSERIALIZED) : Bool := hasBBOX g.flags

/-- `gserialized_header_size`: 8 bytes plus the serialized box when present. -/
def gserialized_header_size (g : GSERIALIZED) : Nat :=
  8 + (if gserialized_has_bbox g then gbox_serialized_size g.flags else 0)

/-- The body bytes: everything after the fixed header and the optional bbox. -/
def bodyBytes (g : GSERIALIZED) : List Nat :=
  g.data.drop (if gserialized_has_bbox g then gbox_serialized_size g.flags else 0)

/-- `gserialized_get_type`: the 32-bit type word at the start of the body (the read
skips the bbox exactly when the bbox flag is set). -/
def gserialized_get_type (g : GSERIALIZED) : Nat :=
  readU32 g.data (if hasBBOX g.flags then gbox_serialized_size g.flags else 0)

/-- `gserialized_cmp_srid`: 0 when the three stored SRID bytes agree, 1 otherwise. -/
def gserialized_cmp_srid (g1 g2 : GSERIALIZED) : Nat :=
  if g1.srid0 = g2.srid0 ∧ g1.srid1 = g2.srid1 ∧ g1.srid2 = g2.srid2 then 0 else 1

/-! ## SRID codec (`gserialized_get_srid`, `gserialized_set_srid`, `clamp_srid`) -/

/-- `gserialized_get_srid`: assemble the three bytes, slide up and back by 11 bits on a
32-bit signed value to sign-extend the 21-bit field, and map 0 to the unknown
sentinel. -/
def gserialized_get_srid (g : GSERIALIZED) : Int :=
  let v : Nat := (g.srid0 <<< 16) ||| (g.srid1 <<< 8) ||| g.srid2
  let w : Nat := (v <<< 11) % 2^32
  let i : Int := if w < 2^31 then (w : Int) else (w : Int) - 2^32
  let srid : Int := Int.fdiv i (2^11)
  if srid = 0 then SRID_UNKNOWN else srid

/-- `clamp_srid` (`lwutil.c`): non-positive values collapse to the unknown sentinel,
values above the maximum are folded into the user range; the boolean records whether a
notice was emitted. -/
def clamp_srid (srid : Int) : Int × Bool :=
  if srid ≤ 0 then
    if srid ≠ SRID_UNKNOWN then (SRID_UNKNOWN, true) else (srid, false)
  else if srid > SRID_MAXIMUM then
    (SRID_USER_MAXIMUM + 1 + srid % (SRID_MAXIMUM - SRID_USER_MAXIMUM - 1), true)
  else (srid, false)

/-- `gserialized_set_srid`: clamp, map the unknown sentinel to a stored zero, and store
the low 21 bits across three bytes. -/
def gserialized_set_srid (g : GSERIALIZED) (srid : Int) : GSERIALIZED :=
  let srid := (clamp_srid srid).1
  let srid := if srid = SRID_UNKNOWN then 0 else srid
  let n : Nat := srid.toNat
  { g with
    srid0 := (n &&& 0x001F0000) >>> 16
    srid1 := (n &&& 0x0000FF00) >>> 8
    srid2 := n &&& 0x000000FF }

/-! ## Bounding boxes -/

/-- A `GBOX`: a flag byte and eight extrema carried as 64-bit double patterns.  Fields
the C code leaves unset stay 0 here; the comparator only reads fields that every
producing path sets. -/
structure GBOX where
  flags : Nat
  xmin : Nat
  xmax : Nat
  ymin : Nat
  ymax : Nat
  zmin : Nat
  zmax : Nat
  mmin : Nat
  mmax : Nat

/-- The all-zero box, standing in for uninitialised C stack memory. -/
def GBOX.zero : GBOX := ⟨0, 0, 0, 0, 0, 0, 0, 0, 0⟩

/-! ## Geometry trees (`LWGEOM`) -/

/-- A point array: its own flag byte, the `npoints` field, and the raw ordinate
bytes. -/
structure PTARRAY where
  flags : Nat
  npoints : Nat
  pdata : List Nat

/-- The in-memory geometry tree.  Leaf kinds share the points shape, polygons carry a
ring list, and every collection kind carries its type tag and children. -/
inductive LWGEOM where
  | lwpoint (flags : Nat) (pt : PTARRAY)
  | lwline (flags : Nat) (pa : PTARRAY)
  | lwtriangle (flags : Nat) (pa : PTARRAY)
  | lwcircstring (flags : Nat) (pa : PTARRAY)
  | lwpoly (flags : Nat) (rings : List PTARRAY)
  | lwcollection (ctype : Nat) (flags : Nat) (geoms : List LWGEOM)

/-- A root geometry: SRID and optional cached bbox live beside the tree (the
serializer only consults the root's). -/
structure LWFULL where
  srid : Int
  bbox : Option GBOX
  geom : LWGEOM

/-- Type tag of a tree node. -/
def lwtypeOf : LWGEOM → Nat
  | .lwpoint _ _ => POINTTYPE
  | .lwline _ _ => LINETYPE
  | .lwtriangle _ _ => TRIANGLETYPE
  | .lwcircstring _ _ => CIRCSTRINGTYPE
  | .lwpoly _ _ => POLYGONTYPE
  | .lwcollection t _ _ => t

/-- Flag byte of a tree node. -/
def geomFlags : LWGEOM → Nat
  | .lwpoint f _ => f
  | .lwline f _ => f
  | .lwtriangle f _ => f
  | .lwcircstring f _ => f
  | .lwpoly f _ => f
  | .lwcollection _ f _ => f

/-- Replace the flag byte of a tree node (the C `lwgeom->flags = ...` store). -/
def setGeomFlags : LWGEOM → Nat → LWGEOM
  | .lwpoint _ pa, f => .lwpoint f pa
  | .lwline _ pa, f => .lwline f pa
  | .lwtriangle _ pa, f => .lwtriangle f pa
  | .lwcircstring _ pa, f => .lwcircstring f pa
  | .lwpoly _ rs, f => .lwpoly f rs
  | .lwcollection t _ gs, f => .lwcollection t f gs

/-- Replace the type tag of a node (the C `lwgeom->type = ...` store; on leaves the
tag is carried by the constructor, so only collections are affected). -/
def setGeomType : LWGEOM → Nat → LWGEOM
  | .lwcollection _ f gs, t => .lwcollection t f gs
  | g, _ => g

/-- Modelled from the spec: `lwtype_is_collection` (`lwgeom.c`, outside the given
sources).  Per §3.1/§3.4, the collection kinds are tags 4-7, 9-13 and 15. -/
def lwtype_is_collection (t : Nat) : Bool :=
  t == MULTIPOINTTYPE || t == MULTILINETYPE || t == MULTIPOLYGONTYPE ||
  t == COLLECTIONTYPE || t == CURVEPOLYTYPE || t == COMPOUNDTYPE ||
  t == MULTICURVETYPE || t == MULTISURFACETYPE || t == POLYHEDRALSURFACETYPE ||
  t == TINTYPE

/-- Modelled from the spec: `lwcollection_allows_subtype` (`lwcollection.c`, outside
the given sources).  §3.1: each collection kind constrains its child kinds;
GeometryCollection is heterogeneous. -/
def lwcollection_allows_subtype (t sub : Nat) : Bool :=
  if t == COLLECTIONTYPE then true
  else if t == MULTIPOINTTYPE then sub == POINTTYPE
  else if t == MULTILINETYPE then sub == LINETYPE
  else if t == MULTIPOLYGONTYPE then sub == POLYGONTYPE
  else if t == COMPOUNDTYPE then sub == LINETYPE || sub == CIRCSTRINGTYPE
  else if t == CURVEPOLYTYPE then
    sub == LINETYPE || sub == CIRCSTRINGTYPE || sub == COMPOUNDTYPE
  else if t == MULTICURVETYPE then
    sub == LINETYPE || sub == CIRCSTRINGTYPE || sub == COMPOUNDTYPE
  else if t == MULTISURFACETYPE then sub == POLYGONTYPE || sub == CURVEPOLYTYPE
  else if t == POLYHEDRALSURFACETYPE then sub == POLYGONTYPE
  else if t == TINTYPE then sub == TRIANGLETYPE
  else false

mutual
/-- Modelled from the spec: `lwgeom_is_empty` (`lwgeom.c`, outside the given
sources): a geometry is empty when it contains no coordinates ("A Point with zero
coordinates is the canonical empty point"). -/
def lwgeom_is_empty : LWGEOM → Bool
  | .lwpoint _ pa => pa.npoints == 0
  | .lwline _ pa => pa.npoints == 0
  | .lwtriangle _ pa => pa.npoints == 0
  | .lwcircstring _ pa => pa.npoints == 0
  | .lwpoly _ rings => rings.all (fun r => r.npoints == 0)
  | .lwcollection _ _ gs => lwgeom_all_empty gs

/-- All geometries of a list are empty. -/
def lwgeom_all_empty : List LWGEOM → Bool
  | [] => true
  | g :: gs => lwgeom_is_empty g && lwgeom_all_empty gs
end

/-! ## The environment of external collaborators

The spec (§1, §6) places the floating-point geometric algebra and policy callbacks
outside the codec: box calculation from coordinates, the bbox-needed policy, and the
float rounding helpers are supplied functions.  The codec's own logic is embedded
concretely; these collaborators are threaded as an explicit record, so every theorem
about the codec holds for every choice of collaborators (or for collaborators
satisfying the stated hypotheses). -/

structure Env where
  /-- Bits of `(float)(2.0 * d)` for a double pattern `d` (comparator fast path). -/
  twice : Nat → Nat
  /-- Bits of `(float)(a + b)` for double patterns (centroid hash, `x.f = xmax + xmin`). -/
  addF : Nat → Nat → Nat
  /-- Float bit patterns of the normalized geodetic centroid's longitude/latitude. -/
  geodXY : GBOX → Nat × Nat
  /-- Double pattern of a stored 32-bit float (the widening read `double = float`). -/
  wfloat : Nat → Nat
  /-- `next_float_down` followed by widening back to a double pattern. -/
  fdown : Nat → Nat
  /-- `next_float_up` followed by widening back to a double pattern. -/
  fup : Nat → Nat
  /-- `next_float_down` as the stored 32-bit float pattern (bbox serializer). -/
  nfd32 : Nat → Nat
  /-- `next_float_up` as the stored 32-bit float pattern (bbox serializer). -/
  nfu32 : Nat → Nat
  /-- `lwgeom_calculate_gbox`: box of a geometry from its coordinates, may fail. -/
  calcGbox : LWGEOM → Option GBOX
  /-- `lwgeom_needs_bbox`: policy for attaching a box on encode. -/
  needsBbox : LWGEOM → Bool

/-- Modelled from the spec: `gbox_float_round` (`gbox.c`, outside the given sources):
widen every live extremum to 32-bit float precision, minima rounded down, maxima
rounded up (§3.3). -/
def gbox_float_round (env : Env) (b : GBOX) : GBOX :=
  { b with
    xmin := env.fdown b.xmin
    xmax := env.fup b.xmax
    ymin := env.fdown b.ymin
    ymax := env.fup b.ymax
    mmin := if hasM b.flags then env.fdown b.mmin else b.mmin
    mmax := if hasM b.flags then env.fup b.mmax else b.mmax
    zmin := if hasZ b.flags then env.fdown b.zmin else b.zmin
    zmax := if hasZ b.flags then env.fup b.zmax else b.zmax }

/-! ## Reading a stored bounding box (`gserialized_read_gbox_p`) -/

/-- `gserialized_read_gbox_p`: succeeds exactly when the bbox flag is set; reads the
stored floats in the §3.3 order and copies the record's flag byte into the box. -/
def gserialized_read_gbox_p (env : Env) (g : GSERIALIZED) : Option GBOX :=
  if hasBBOX g.flags then
    let f : Nat → Nat := fun i => env.wfloat (readU32 g.data (4 * i))
    if isGeodetic g.flags then
      some { flags := g.flags, xmin := f 0, xmax := f 1, ymin := f 2, ymax := f 3,
             zmin := f 4, zmax := f 5, mmin := 0, mmax := 0 }
    else
      some { flags := g.flags, xmin := f 0, xmax := f 1, ymin := f 2, ymax := f 3,
             zmin := if hasZ g.flags then f 4 else 0
             zmax := if hasZ g.flags then f 5 else 0
             mmin := if hasM g.flags then f (4 + 2 * flagZ g.flags) else 0
             mmax := if hasM g.flags then f (5 + 2 * flagZ g.flags) else 0 }
  else none

/-! ## Peeking a bounding box (`gserialized_peek_gbox_p`) -/

/-- `gserialized_peek_gbox_p`: derive a box from the raw bytes for the few simple
shapes; fail for geodetic records, records already carrying a box, and everything
else.  Every successful branch rounds through `gbox_float_round`. -/
def gserialized_peek_gbox_p (env : Env) (g : GSERIALIZED) : Option GBOX :=
  let t := gserialized_get_type g
  if isGeodetic g.flags || hasBBOX g.flags then none
  else if t = POINTTYPE then
    if readU32 g.data 4 = 0 then none
    else
      some (gbox_float_round env
        { flags := g.flags
          xmin := readU64 g.data 8, xmax := readU64 g.data 8
          ymin := readU64 g.data 16, ymax := readU64 g.data 16
          zmin := if hasZ g.flags then readU64 g.data 24 else 0
          zmax := if hasZ g.flags then readU64 g.data 24 else 0
          mmin := if hasM g.flags then readU64 g.data (8 * (3 + flagZ g.flags)) else 0
          mmax := if hasM g.flags then readU64 g.data (8 * (3 + flagZ g.flags)) else 0 })
  else if t = LINETYPE then
    let nd := ndims g.flags
    if readU32 g.data 4 ≠ 2 then none
    else
      let lo : Nat → Nat := fun i => readU64 g.data (8 * i)
      let hi : Nat → Nat := fun i => readU64 g.data (8 * (i + nd))
      some (gbox_float_round env
        { flags := g.flags
          xmin := fpMin (lo 1) (hi 1), xmax := fpMax (lo 1) (hi 1)
          ymin := fpMin (lo 2) (hi 2), ymax := fpMax (lo 2) (hi 2)
          zmin := if hasZ g.flags then fpMin (lo 3) (hi 3) else 0
          zmax := if hasZ g.flags then fpMax (lo 3) (hi 3) else 0
          mmin := if hasM g.flags then fpMin (lo (3 + flagZ g.flags)) (hi (3 + flagZ g.flags)) else 0
          mmax := if hasM g.flags then fpMax (lo (3 + flagZ g.flags)) (hi (3 + flagZ g.flags)) else 0 })
  else if t = MULTIPOINTTYPE then
    if readU32 g.data 4 ≠ 1 then none
    else if readU32 g.data 12 ≠ 1 then none
    else
      some (gbox_float_round env
        { flags := g.flags
          xmin := readU64 g.data 16, xmax := readU64 g.data 16
          ymin := readU64 g.data 24, ymax := readU64 g.data 24
          zmin := if hasZ g.flags then readU64 g.data 32 else 0
          zmax := if hasZ g.flags then readU64 g.data 32 else 0
          mmin := if hasM g.flags then readU64 g.data (8 * (4 + flagZ g.flags)) else 0
          mmax := if hasM g.flags then readU64 g.data (8 * (4 + flagZ g.flags)) else 0 })
  else if t = MULTILINETYPE then
    let nd := ndims g.flags
    if readU32 g.data 4 ≠ 1 then none
    else if readU32 g.data 12 ≠ 2 then none
    else
      let lo : Nat → Nat := fun i => readU64 g.data (8 * i)
      let hi : Nat → Nat := fun i => readU64 g.data (8 * (i + nd))
      some (gbox_float_round env
        { flags := g.flags
          xmin := fpMin (lo 2) (hi 2), xmax := fpMax (lo 2) (hi 2)
          ymin := fpMin (lo 3) (hi 3), ymax := fpMax (lo 3) (hi 3)
          zmin := if hasZ g.flags then fpMin (lo 4) (hi 4) else 0
          zmax := if hasZ g.flags then fpMax (lo 4) (hi 4) else 0
          mmin := if hasM g.flags then fpMin (lo (4 + flagZ g.flags)) (hi (4 + flagZ g.flags)) else 0
          mmax := if hasM g.flags then fpMax (lo (4 + flagZ g.flags)) (hi (4 + flagZ g.flags)) else 0 })
  else none

/-! ## Deserializer (`lwgeom_from_gserialized_buffer` and the per-kind readers)

The readers walk the body bytes exactly as the C code does.  Point arrays built over
the buffer are *views*: their bytes are the corresponding slice of the input.  The C
recursion is bounded only by the bytes themselves; the embedding uses an explicit fuel
parameter, and the round-trip theorems show that any fuel at least the node count of
the underlying tree suffices. -/

/-- Modelled from the spec (§3.5): flag byte of a point array built by
`ptarray_construct_reference_data` (readonly view) or `ptarray_construct`. -/
def ptarray_build_flags (z m ro : Bool) : Nat :=
  (if z then 1 else 0) ||| (if m then 2 else 0) ||| (if ro then 16 else 0)

/-- `lwpoint_from_gserialized_buffer`: read `npoints`, wrap one point as a view (the C
code always passes count 1 to `ptarray_construct_reference_data`), and consume
`8 + npoints · ndims · 8` bytes. -/
def lwpoint_from_buffer (gfl : Nat) (l : List Nat) : LWGEOM × Nat :=
  let npoints := readU32 l 4
  let pa : PTARRAY :=
    if 0 < npoints then
      ⟨ptarray_build_flags (hasZ gfl) (hasM gfl) true, 1, (l.drop 8).take (ndims gfl * 8)⟩
    else ⟨ptarray_build_flags (hasZ gfl) (hasM gfl) false, 0, []⟩
  (.lwpoint gfl pa, 8 + npoints * ndims gfl * 8)

/-- `lwline_from_gserialized_buffer`. -/
def lwline_from_buffer (gfl : Nat) (l : List Nat) : LWGEOM × Nat :=
  let npoints := readU32 l 4
  let pa : PTARRAY :=
    if 0 < npoints then
      ⟨ptarray_build_flags (hasZ gfl) (hasM gfl) true, npoints,
        (l.drop 8).take (npoints * (ndims gfl * 8))⟩
    else ⟨ptarray_build_flags (hasZ gfl) (hasM gfl) false, 0, []⟩
  (.lwline gfl pa, 8 + ndims gfl * npoints * 8)

/-- `lwtriangle_from_gserialized_buffer`. -/
def lwtriangle_from_buffer (gfl : Nat) (l : List Nat) : LWGEOM × Nat :=
  let npoints := readU32 l 4
  let pa : PTARRAY :=
    if 0 < npoints then
      ⟨ptarray_build_flags (hasZ gfl) (hasM gfl) true, npoints,
        (l.drop 8).take (npoints * (ndims gfl * 8))⟩
    else ⟨ptarray_build_flags (hasZ gfl) (hasM gfl) false, 0, []⟩
  (.lwtriangle gfl pa, 8 + ndims gfl * npoints * 8)

/-- `lwcircstring_from_gserialized_buffer`. -/
def lwcircstring_from_buffer (gfl : Nat) (l : List Nat) : LWGEOM × Nat :=
  let npoints := readU32 l 4
  let pa : PTARRAY :=
    if 0 < npoints then
      ⟨ptarray_build_flags (hasZ gfl) (hasM gfl) true, npoints,
        (l.drop 8).take (npoints * (ndims gfl * 8))⟩
    else ⟨ptarray_build_flags (hasZ gfl) (hasM gfl) false, 0, []⟩
  (.lwcircstring gfl pa, 8 + ndims gfl * npoints * 8)

/-- Ring loop of `lwpoly_from_gserialized_buffer`: read each per-ring count from the
table while the ordinate pointer advances through the shared ordinate run; returns the
rings and the final ordinate offset. -/
def readPolyRings (gfl : Nat) (l : List Nat) :
    Nat → Nat → Nat → (List PTARRAY × Nat)
  | 0, _, ordOff => ([], ordOff)
  | n + 1, tblOff, ordOff =>
    let np := readU32 l tblOff
    let ring : PTARRAY :=
      ⟨ptarray_build_flags (hasZ gfl) (hasM gfl) true, np,
        (l.drop ordOff).take (np * (ndims gfl * 8))⟩
    let rest := readPolyRings gfl l n (tblOff + 4) (ordOff + np * (ndims gfl * 8))
    (ring :: rest.1, rest.2)

/-- `lwpoly_from_gserialized_buffer`: read `nrings`, skip the ring-count table and the
alignment word exactly when `nrings` is odd, then cut one view per ring. -/
def lwpoly_from_buffer (gfl : Nat) (l : List Nat) : LWGEOM × Nat :=
  let nrings := readU32 l 4
  let ordStart := if 0 < nrings then 8 + nrings * 4 + (if nrings % 2 = 1 then 4 else 0) else 8
  let rings := readPolyRings gfl l nrings 8 ordStart
  (.lwpoly gfl rings.1, rings.2)

/-- Child loop of the collection reader: check admissibility of each child's type tag
before recursing into it; `rd` is the reader used for the children. -/
def readCollChildren (rd : Nat → List Nat → Option (LWGEOM × Nat)) (t gfl2 : Nat)
    (l : List Nat) : Nat → Nat → Option (List LWGEOM × Nat)
  | 0, off => some ([], off)
  | n + 1, off =>
    let subtype := readU32 l off
    if lwcollection_allows_subtype t subtype then
      match rd gfl2 (l.drop off) with
      | none => none
      | some (child, sz) =>
        match readCollChildren rd t gfl2 l n (off + sz) with
        | none => none
        | some (rest, fin) => some (child :: rest, fin)
    else none

/-- `lwcollection_from_gserialized_buffer`: read type and child count, clear the bbox
bit on the flags passed to the children, and read the children in sequence. -/
def lwcollection_from_buffer (rd : Nat → List Nat → Option (LWGEOM × Nat))
    (gfl : Nat) (l : List Nat) : Option (LWGEOM × Nat) :=
  let t := readU32 l 0
  let ngeoms := readU32 l 4
  let gfl2 := setFlagBBOX gfl false
  match readCollChildren rd t gfl2 l ngeoms 8 with
  | none => none
  | some (gs, off) => some (.lwcollection t gfl gs, off)

/-- `lwgeom_from_gserialized_buffer`: dispatch on the type word; the fuel decreases
on entry into a collection's children. -/
def lwgeom_from_gserialized_buffer :
    Nat → Nat → List Nat → Option (LWGEOM × Nat)
  | 0, _, _ => none
  | fuel + 1, gfl, l =>
    let t := readU32 l 0
    if t = POINTTYPE then some (lwpoint_from_buffer gfl l)
    else if t = LINETYPE then some (lwline_from_buffer gfl l)
    else if t = CIRCSTRINGTYPE then some (lwcircstring_from_buffer gfl l)
    else if t = POLYGONTYPE then some (lwpoly_from_buffer gfl l)
    else if t = TRIANGLETYPE then some (lwtriangle_from_buffer gfl l)
    else if lwtype_is_collection t then
      lwcollection_from_buffer (lwgeom_from_gserialized_buffer fuel) gfl l
    else none

/-- `lwgeom_from_gserialized`: decode header, skip the optional bbox, read the body,
overwrite type and flags from the header, attach a box (stored, or computed when the
policy requires one), and propagate the decoded SRID. -/
def lwgeom_from_gserialized (env : Env) (g : GSERIALIZED) : Option LWFULL :=
  let g_srid := gserialized_get_srid g
  let g_flags := g.flags
  let g_type := gserialized_get_type g
  let body := g.data.drop (if hasBBOX g_flags then gbox_serialized_size g_flags else 0)
  match lwgeom_from_gserialized_buffer (body.length + 1) g_flags body with
  | none => none
  | some (t0, _) =>
    let t1 := setGeomFlags (setGeomType t0 g_type) g_flags
    let bbox : Option GBOX :=
      match gserialized_read_gbox_p env g with
      | some b => some b
      | none => if env.needsBbox t1 then env.calcGbox t1 else none
    some { srid := g_srid, bbox := bbox, geom := t1 }

/-! ## Reading or computing a box (`gserialized_get_gbox_p`) -/

/-- `gserialized_get_gbox_p`: stored box, else peeked box, else decode the record and
ask the external box calculator, rounding the result to float precision. -/
def gserialized_get_gbox_p (env : Env) (g : GSERIALIZED) : Option GBOX :=
  match gserialized_read_gbox_p env g with
  | some box => some box
  | none =>
    match gserialized_peek_gbox_p env g with
    | some box => some box
    | none =>
      match lwgeom_from_gserialized env g with
      | none => none
      | some lw =>
        match env.calcGbox lw.geom with
        | some box => some (gbox_float_round env box)
        | none => none

/-! ## Emptiness of a serialized record (`gserialized_is_empty`) -/

/-- Child loop of `gserialized_is_empty_recurse`; `walk` is the walker used for the
children. -/
def isEmptyChildren (walk : List Nat → Option (Nat × Bool)) (p : List Nat) :
    Nat → Nat → Option (Nat × Bool)
  | 0, lz => some (lz, true)
  | n + 1, lz =>
    match walk (p.drop lz) with
    | none => none
    | some (sz, e) =>
      if e then isEmptyChildren walk p n (lz + sz) else some (lz + sz, false)

/-- `gserialized_is_empty_recurse`: read type and count; collections recurse over
their children, stopping at the first non-empty one; leaves are empty exactly when
their count word is zero.  Returns the bytes walked and the emptiness flag. -/
def isEmptyRecurse : Nat → List Nat → Option (Nat × Bool)
  | 0, _ => none
  | fuel + 1, p =>
    let t := readU32 p 0
    let num := readU32 p 4
    if lwtype_is_collection t then isEmptyChildren (isEmptyRecurse fuel) p num 8
    else some (8, num == 0)

/-- `gserialized_is_empty`: skip the header and the optional box, then walk the
body. -/
def gserialized_is_empty (g : GSERIALIZED) : Bool :=
  let p := g.data.drop (if hasBBOX g.flags then gbox_serialized_size g.flags else 0)
  match isEmptyRecurse (p.length + 1) p with
  | some r => r.2
  | none => false

/-! ## The sortable hash and the comparator (`gbox_get_sortable_hash`,
`gserialized_cmp`) -/

/-- `gbox_get_sortable_hash`: interleave the float bit patterns of the box centroid;
geodetic boxes go through normalisation and spherical conversion (external), cartesian
boxes interleave `(float)(xmax+xmin)` with `(float)(ymax+ymin)`. -/
def gbox_get_sortable_hash (env : Env) (b : GBOX) : Nat :=
  if isGeodetic b.flags then
    uint32_interleave_2 (env.geodXY b).1 (env.geodXY b).2
  else
    uint32_interleave_2 (env.addF b.xmax b.xmin) (env.addF b.ymax b.ymin)

/-- `sizeof(GSERIALIZED)` under the C struct layout: a 4-byte size word, three SRID
bytes, the flag byte, and the one-byte flexible data member, padded to 4-byte
alignment. -/
def sizeofGSERIALIZED : Nat := 12

/-- The fast-path type read `*(uint32_t*)(g1+8)`: pointer arithmetic on a
`GSERIALIZED*` advances by whole structs, so the read lands at byte offset
`8 * sizeof(GSERIALIZED)` from the record base — not at the type word. -/
def fastPathTypeProbe (g : GSERIALIZED) : Nat :=
  recordU32At g (8 * sizeofGSERIALIZED)

/-- Final steps of the slow path: the shorter of two bodies that compare equal as a
common run comes first, otherwise the memcmp sign decides. -/
def tailCmp (bsz1 bsz2 : Nat) (c : Int) : Int :=
  if bsz1 ≠ bsz2 ∧ c = 0 then (if bsz1 < bsz2 then -1 else 1)
  else if c > 0 then 1 else -1

/-- The non-empty tie-break ladder of the slow path: centroid hash, then box minima,
then box maxima; falls through to `tail`. -/
def boxLadder (env : Env) (box1 box2 : GBOX) (tail : Int) : Int :=
  let hash1 := gbox_get_sortable_hash env box1
  let hash2 := gbox_get_sortable_hash env box2
  if hash1 > hash2 then 1
  else if hash1 < hash2 then -1
  else if doubleLt box1.xmin box2.xmin then -1
  else if doubleLt box2.xmin box1.xmin then 1
  else if doubleLt box1.ymin box2.ymin then -1
  else if doubleLt box2.ymin box1.ymin then 1
  else if doubleLt box1.xmax box2.xmax then -1
  else if doubleLt box2.xmax box1.xmax then 1
  else if doubleLt box1.ymax box2.ymax then -1
  else if doubleLt box2.ymax box1.ymax then 1
  else tail

/-- Slow path of `gserialized_cmp`: emptiness ordering, perfect-equality test, then
the tie-break ladder for non-empty operands and the final length/memcmp rules. -/
def gserialized_cmp_slow (env : Env) (g1 g2 : GSERIALIZED) : Int :=
  let sz1 := SIZE_GET g1.size
  let sz2 := SIZE_GET g2.size
  let hsz1 := gserialized_header_size g1
  let hsz2 := gserialized_header_size g2
  let b1 := bodyBytes g1
  let b2 := bodyBytes g2
  let bsz1 := sz1 - hsz1
  let bsz2 := sz2 - hsz2
  let bsz := min bsz1 bsz2
  let cmp_srid := gserialized_cmp_srid g1 g2
  let ob1 := gserialized_get_gbox_p env g1
  let ob2 := gserialized_get_gbox_p env g2
  let e1 := ob1.isNone
  let e2 := ob2.isNone
  if e1 ∧ ¬e2 then -1
  else if ¬e1 ∧ e2 then 1
  else
    let c := memcmpSign (b1.take bsz) (b2.take bsz)
    if bsz1 = bsz2 ∧ cmp_srid = 0 ∧ c = 0 then 0
    else if ¬e1 ∧ ¬e2 then
      boxLadder env (ob1.getD GBOX.zero) (ob2.getD GBOX.zero) (tailCmp bsz1 bsz2 c)
    else tailCmp bsz1 bsz2 c

/-- One operand's half of the fast-path guard: more than 16 bytes, no serialized box,
and the (out-of-header) type probe reads `POINTTYPE`. -/
def fastPathGuard1 (g : GSERIALIZED) : Bool :=
  16 < SIZE_GET g.size && !hasBBOX g.flags && fastPathTypeProbe g == POINTTYPE

/-- The fast-path guard of `gserialized_cmp` over both operands. -/
def fastPathGuard (g1 g2 : GSERIALIZED) : Bool :=
  fastPathGuard1 g1 && fastPathGuard1 g2

/-- The fast-path hash of one operand: the Morton interleave of the float patterns of
`2·x` and `2·y`, where `x`, `y` are the doubles at `g->data + 8` (record offsets 16
and 24 — past the end of short records). -/
def fastPathHash (env : Env) (g : GSERIALIZED) : Nat :=
  uint32_interleave_2 (env.twice (recordU64At g 16)) (env.twice (recordU64At g 24))

/-- `gserialized_cmp`: the point fast path (guarded by the sizes, the bbox flags and
the out-of-header type probes), falling through to the slow path when the SRIDs differ
or the fast hashes tie. -/
def gserialized_cmp (env : Env) (g1 g2 : GSERIALIZED) : Int :=
  if fastPathGuard g1 g2 then
    let hash1 := fastPathHash env g1
    let hash2 := fastPathHash env g2
    if gserialized_cmp_srid g1 g2 = 0 then
      if hash1 > hash2 then 1
      else if hash1 < hash2 then -1
      else gserialized_cmp_slow env g1 g2
    else gserialized_cmp_slow env g1 g2
  else gserialized_cmp_slow env g1 g2

/-- The condition under which `gserialized_cmp` returns from inside the fast path:
the guard holds, the SRID bytes agree, and the two fast hashes differ. -/
def fastPathEarly (env : Env) (g1 g2 : GSERIALIZED) : Bool :=
  fastPathGuard g1 g2 && gserialized_cmp_srid g1 g2 == 0 &&
  fastPathHash env g1 != fastPathHash env g2

/-- The emptiness notion the comparator uses: a record is empty exactly when
`gserialized_get_gbox_p` fails on it. -/
def cmpConsidersEmpty (env : Env) (g : GSERIALIZED) : Bool :=
  (gserialized_get_gbox_p env g).isNone

/-- Out-of-record memory reads as zero. -/
def beyondZero (g : GSERIALIZED) : Prop := ∀ i, g.beyond i = 0

/-! ## Serialized sizes (`gserialized_from_*_size`) -/

/-- `ptarray_point_size`: bytes of one point, from the point array's own flags. -/
def ptarray_point_size (pa : PTARRAY) : Nat := ndims pa.flags * 8

/-- Ring term of `gserialized_from_lwpoly_size`: 4 bytes of count plus the ring's
ordinates, measured with the polygon's flags. -/
def polyRingsSize (f : Nat) : List PTARRAY → Nat
  | [] => 0
  | r :: rs => 4 + r.npoints * ndims f * 8 + polyRingsSize f rs

mutual
/-- `gserialized_from_any_size`: exact body size of a geometry by recursive descent. -/
def gserialized_from_any_size : LWGEOM → Nat
  | .lwpoint f pa => 4 + 4 + pa.npoints * ndims f * 8
  | .lwline f pa => 4 + 4 + pa.npoints * ndims f * 8
  | .lwtriangle f pa => 4 + 4 + pa.npoints * ndims f * 8
  | .lwcircstring f pa => 4 + 4 + pa.npoints * ndims f * 8
  | .lwpoly f rings =>
    4 + 4 + (if rings.length % 2 = 1 then 4 else 0) + polyRingsSize f rings
  | .lwcollection t _ gs =>
    if lwtype_is_collection t then 4 + 4 + collectionBodySize gs else 0

/-- `gserialized_from_lwcollection_size`'s child sum. -/
def collectionBodySize : List LWGEOM → Nat
  | [] => 0
  | g :: gs => gserialized_from_any_size g + collectionBodySize gs
end

/-- `gserialized_from_lwgeom_size`: 8 bytes of header, the box when one is attached
(measured with the geometry's flags), and the body. -/
def gserialized_from_lwgeom_size (G : LWFULL) : Nat :=
  8 + (if G.bbox.isSome then gbox_serialized_size (geomFlags G.geom) else 0) +
    gserialized_from_any_size G.geom

/-! ## Serializer (`gserialized_from_*`) -/

/-- `gserialized_from_lwpoint`: dimension check, type word, `npoints` word, then one
point's bytes when non-empty. -/
def gserialized_from_lwpoint (f : Nat) (pa : PTARRAY) : Option (List Nat) :=
  if zmOf f ≠ zmOf pa.flags then none
  else some (bytesOfU32 POINTTYPE ++ bytesOfU32 pa.npoints ++
    (if 0 < pa.npoints then pa.pdata.take (ptarray_point_size pa) else []))

/-- `gserialized_from_lwline`: the source checks only the Z flag here. -/
def gserialized_from_lwline (f : Nat) (pa : PTARRAY) : Option (List Nat) :=
  if flagZ f ≠ flagZ pa.flags then none
  else some (bytesOfU32 LINETYPE ++ bytesOfU32 pa.npoints ++
    (if 0 < pa.npoints then pa.pdata.take (pa.npoints * ptarray_point_size pa) else []))

/-- `gserialized_from_lwtriangle`. -/
def gserialized_from_lwtriangle (f : Nat) (pa : PTARRAY) : Option (List Nat) :=
  if zmOf f ≠ zmOf pa.flags then none
  else some (bytesOfU32 TRIANGLETYPE ++ bytesOfU32 pa.npoints ++
    (if 0 < pa.npoints then pa.pdata.take (pa.npoints * ptarray_point_size pa) else []))

/-- `gserialized_from_lwcircstring`. -/
def gserialized_from_lwcircstring (f : Nat) (pa : PTARRAY) : Option (List Nat) :=
  if zmOf f ≠ zmOf pa.flags then none
  else some (bytesOfU32 CIRCSTRINGTYPE ++ bytesOfU32 pa.npoints ++
    (if 0 < pa.npoints then pa.pdata.take (pa.npoints * ptarray_point_size pa) else []))

/-- The per-ring count table of a serialized polygon. -/
def polyRingTable : List PTARRAY → List Nat
  | [] => []
  | r :: rs => bytesOfU32 r.npoints ++ polyRingTable rs

/-- The concatenated ring ordinates of a serialized polygon; `ptsize` is the polygon's
point size. -/
def polyRingData (ptsize : Nat) : List PTARRAY → List Nat
  | [] => []
  | r :: rs => r.pdata.take (r.npoints * ptsize) ++ polyRingData ptsize rs

/-- Per-ring dimension check of `gserialized_from_lwpoly` (failure aborts). -/
def polyRingsZMOk (f : Nat) (rings : List PTARRAY) : Bool :=
  rings.all (fun r => zmOf f == zmOf r.flags)

/-- `gserialized_from_lwpoly`: type word, `nrings` word, the ring-count table, one
4-byte padding word exactly when `nrings` is odd, then the ordinates. -/
def gserialized_from_lwpoly (f : Nat) (rings : List PTARRAY) : Option (List Nat) :=
  if polyRingsZMOk f rings then
    some (bytesOfU32 POLYGONTYPE ++ bytesOfU32 rings.length ++ polyRingTable rings ++
      (if rings.length % 2 = 1 then bytesOfU32 0 else []) ++
      polyRingData (8 * ndims f) rings)
  else none

mutual
/-- `gserialized_from_lwgeom_any`: dispatch on the geometry kind; the collection
default case (an unknown tag) is a fatal error. -/
def gserialized_from_lwgeom_any : LWGEOM → Option (List Nat)
  | .lwpoint f pa => gserialized_from_lwpoint f pa
  | .lwline f pa => gserialized_from_lwline f pa
  | .lwtriangle f pa => gserialized_from_lwtriangle f pa
  | .lwcircstring f pa => gserialized_from_lwcircstring f pa
  | .lwpoly f rings => gserialized_from_lwpoly f rings
  | .lwcollection t f gs =>
    if lwtype_is_collection t then
      match writeCollChildren f gs with
      | none => none
      | some bodies => some (bytesOfU32 t ++ bytesOfU32 gs.length ++ bodies)
    else none

/-- Child loop of `gserialized_from_lwcollection`: dimension check per child, then
recurse. -/
def writeCollChildren : Nat → List LWGEOM → Option (List Nat)
  | _, [] => some []
  | f, g :: gs =>
    if zmOf f ≠ zmOf (geomFlags g) then none
    else
      match gserialized_from_lwgeom_any g with
      | none => none
      | some b =>
        match writeCollChildren f gs with
        | none => none
        | some bs => some (b ++ bs)
end

/-- `gserialized_from_gbox`: write the extrema as directionally rounded 32-bit floats,
in the §3.3 order dictated by the box's flags. -/
def gserialized_from_gbox (env : Env) (b : GBOX) : List Nat :=
  bytesOfU32 (env.nfd32 b.xmin) ++ bytesOfU32 (env.nfu32 b.xmax) ++
  bytesOfU32 (env.nfd32 b.ymin) ++ bytesOfU32 (env.nfu32 b.ymax) ++
  (if isGeodetic b.flags then
    bytesOfU32 (env.nfd32 b.zmin) ++ bytesOfU32 (env.nfu32 b.zmax)
  else
    (if hasZ b.flags then bytesOfU32 (env.nfd32 b.zmin) ++ bytesOfU32 (env.nfu32 b.zmax) else []) ++
    (if hasM b.flags then bytesOfU32 (env.nfd32 b.mmin) ++ bytesOfU32 (env.nfu32 b.mmax) else []))

/-- Modelled from the spec: `lwgeom_add_bbox` (`lwgeom.c`, outside the given sources):
attach a box computed by the external calculator when none is present. -/
def lwgeom_add_bbox (env : Env) (G : LWFULL) : LWFULL :=
  if G.bbox.isSome then G else { G with bbox := env.calcGbox G.geom }

/-- `gserialized_from_lwgeom`: attach a box when the policy wants one and the geometry
is not empty, harmonize the bbox flag, write header, box and body, and require the
written byte count to equal `gserialized_from_lwgeom_size` (a mismatch is fatal).  The
outer size word stores the byte count shifted left by 2, and the SRID is clamped on
the way in. -/
def gserialized_from_lwgeom (env : Env) (G0 : LWFULL) : Option GSERIALIZED :=
  let G1 :=
    if G0.bbox.isNone && env.needsBbox G0.geom && !(lwgeom_is_empty G0.geom) then
      lwgeom_add_bbox env G0
    else G0
  let rootflags := setFlagBBOX (geomFlags G1.geom) G1.bbox.isSome
  let G : LWFULL := { G1 with geom := setGeomFlags G1.geom rootflags }
  let expected := gserialized_from_lwgeom_size G
  match gserialized_from_lwgeom_any G.geom with
  | none => none
  | some body =>
    let boxb := match G.bbox with
      | some b => gserialized_from_gbox env b
      | none => []
    let written := 8 + boxb.length + body.length
    if written ≠ expected then none
    else
      let r0 : GSERIALIZED :=
        { size := written <<< 2, srid0 := 0, srid1 := 0, srid2 := 0,
          flags := rootflags, data := boxb ++ body, beyond := fun _ => 0 }
      some (gserialized_set_srid r0 G.srid)

/-! ## Validity of geometry trees

A geometry is serializable when its dimension flags are consistent, its point arrays
carry exactly the announced bytes, point counts fit a 32-bit signed int, every point
has at most one coordinate, and every collection carries a collection tag with
admissible children. -/

/-- Validity of a point array against the owning node's flag byte. -/
def validPAB (f : Nat) (pa : PTARRAY) : Bool :=
  zmOf pa.flags == zmOf f && pa.npoints < 2^31 &&
  pa.pdata.length == pa.npoints * (ndims pa.flags * 8) &&
  pa.pdata.all (fun b => b < 2^8)

mutual
/-- Validity of a geometry tree; `rf` is the root flag byte every node must agree
with on Z and M. -/
def validGeomB (rf : Nat) : LWGEOM → Bool
  | .lwpoint f pa =>
    f < 2^8 && zmOf f == zmOf rf && validPAB f pa && pa.npoints ≤ 1
  | .lwline f pa => f < 2^8 && zmOf f == zmOf rf && validPAB f pa
  | .lwtriangle f pa => f < 2^8 && zmOf f == zmOf rf && validPAB f pa
  | .lwcircstring f pa => f < 2^8 && zmOf f == zmOf rf && validPAB f pa
  | .lwpoly f rings =>
    f < 2^8 && zmOf f == zmOf rf && rings.length < 2^31 &&
    rings.all (validPAB f)
  | .lwcollection t f gs =>
    f < 2^8 && zmOf f == zmOf rf && lwtype_is_collection t &&
    gs.length < 2^31 && validChildrenB rf t gs

/-- Validity of collection children: admissible type tags, and valid recursively. -/
def validChildrenB (rf t : Nat) : List LWGEOM → Bool
  | [] => true
  | g :: gs =>
    lwcollection_allows_subtype t (lwtypeOf g) && validGeomB rf g &&
    validChildrenB rf t gs
end

/-- Validity of a root geometry: valid tree (referenced to its own root flags), an
`int32` SRID, and, when a box is attached, box flags that agree with the root on the
Z, M and geodetic bits (otherwise the encoder's size check fails by design). -/
def validFullB (G : LWFULL) : Bool :=
  validGeomB (geomFlags G.geom) G.geom &&
  -(2^31) ≤ G.srid && G.srid < 2^31 &&
  (match G.bbox with
   | some b =>
     flagZ b.flags == flagZ (geomFlags G.geom) &&
     flagM b.flags == flagM (geomFlags G.geom) &&
     flagGeodetic b.flags == flagGeodetic (geomFlags G.geom)
   | none => true)

/-! ## Observations used by the round-trip statement -/

/-- The coordinate skeleton of a geometry: point counts and raw ordinate bytes, with
the tree structure. -/
inductive CoordShape where
  | leaf (npoints : Nat) (bytes : List Nat)
  | poly (rings : List (Nat × List Nat))
  | coll (children : List CoordShape)

mutual
/-- Coordinate skeleton of a tree node. -/
def coordShape : LWGEOM → CoordShape
  | .lwpoint _ pa => .leaf pa.npoints pa.pdata
  | .lwline _ pa => .leaf pa.npoints pa.pdata
  | .lwtriangle _ pa => .leaf pa.npoints pa.pdata
  | .lwcircstring _ pa => .leaf pa.npoints pa.pdata
  | .lwpoly _ rings => .poly (rings.map (fun r => (r.npoints, r.pdata)))
  | .lwcollection _ _ gs => .coll (coordShapeList gs)

/-- Coordinate skeletons of a node list. -/
def coordShapeList : List LWGEOM → List CoordShape
  | [] => []
  | g :: gs => coordShape g :: coordShapeList gs
end

mutual
/-- Number of nodes of a tree (used to bound the reader's fuel). -/
def nodeCount : LWGEOM → Nat
  | .lwcollection _ _ gs => 1 + nodeCountList gs
  | _ => 1

/-- Number of nodes of a node list. -/
def nodeCountList : List LWGEOM → Nat
  | [] => 0
  | g :: gs => nodeCount g + nodeCountList gs
end

mutual
/-- Emptiness by count words, the notion `gserialized_is_empty` computes: a leaf is
empty when its count word (`npoints`, or `nrings` for polygons) is zero, a collection
when all its children are. -/
def treeEmptyByCount : LWGEOM → Bool
  | .lwpoint _ pa => pa.npoints == 0
  | .lwline _ pa => pa.npoints == 0
  | .lwtriangle _ pa => pa.npoints == 0
  | .lwcircstring _ pa => pa.npoints == 0
  | .lwpoly _ rings => rings.length == 0
  | .lwcollection _ _ gs => treeEmptyByCountList gs

/-- Emptiness by count words over a node list. -/
def treeEmptyByCountList : List LWGEOM → Bool
  | [] => true
  | g :: gs => treeEmptyByCount g && treeEmptyByCountList gs
end

/-- Ordinate bytes of a polygon's rings. -/
def polyRingsOrdBytes (f : Nat) : List PTARRAY → Nat
  | [] => 0
  | r :: rs => r.npoints * ndims f * 8 + polyRingsOrdBytes f rs

mutual
/-- Total number of ordinate bytes a serialized tree carries (its "coordinates"). -/
def coordByteCount : LWGEOM → Nat
  | .lwpoint f pa => pa.npoints * ndims f * 8
  | .lwline f pa => pa.npoints * ndims f * 8
  | .lwtriangle f pa => pa.npoints * ndims f * 8
  | .lwcircstring f pa => pa.npoints * ndims f * 8
  | .lwpoly f rings => polyRingsOrdBytes f rings
  | .lwcollection _ _ gs => coordByteCountList gs

/-- Ordinate bytes over a node list. -/
def coordByteCountList : List LWGEOM → Nat
  | [] => 0
  | g :: gs => coordByteCount g + coordByteCountList gs
end


/-! ## Shapes the peek operation accepts (for the statement of its contract) -/

/-- The shapes on which `gserialized_peek_gbox_p` can succeed: a non-empty Point, a
2-point LineString, a MultiPoint holding exactly one non-empty Point, or a
MultiLineString holding exactly one 2-point LineString. -/
def peekableShape : LWGEOM → Bool
  | .lwpoint _ pa => pa.npoints != 0
  | .lwline _ pa => pa.npoints == 2
  | .lwcollection t _ [.lwpoint _ pa] => t == MULTIPOINTTYPE && pa.npoints == 1
  | .lwcollection t _ [.lwline _ pa] => t == MULTILINETYPE && pa.npoints == 2
  | _ => false

/-! ## Concrete instances used by the witnesses and counterexamples -/

/-- A collaborator environment whose functions are everywhere trivial; where a
concrete evaluation below touches one of its values, the chosen value agrees with the
real IEEE-754 collaborator at the touched input (e.g. `(float)(2·0.0)` has bit
pattern 0). -/
def env0 : Env :=
  { twice := fun _ => 0
    addF := fun _ _ => 0
    geodXY := fun _ => (0, 0)
    wfloat := fun u => u
    fdown := fun u => u
    fup := fun u => u
    nfd32 := fun _ => 0
    nfu32 := fun _ => 0
    calcGbox := fun _ => none
    needsBbox := fun _ => false }

/-- Like `env0`, but `twice` maps the pattern of `1.0` to the pattern of the float
`2.0` — the value IEEE-754 arithmetic produces — and every pattern below `16`
(a subnormal below `8·2^-1074`) to `0`, again as IEEE-754 arithmetic does. -/
def envC4 : Env :=
  { env0 with twice := fun b => if b == 0x3FF0000000000000 then 0x40000000 else 0 }

/-- Body of a 2D point at `(0.0, 0.0)`: type word, `npoints = 1`, 16 zero ordinate
bytes. -/
def ptZeroBody : List Nat := bytesOfU32 1 ++ bytesOfU32 1 ++ List.replicate 16 0

/-- A 32-byte 2D point record at `(0.0, 0.0)` with SRID bytes `(0,0,1)`. -/
def exPointSrid1 : GSERIALIZED :=
  { size := 32 <<< 2, srid0 := 0, srid1 := 0, srid2 := 1, flags := 0,
    data := ptZeroBody, beyond := fun _ => 0 }

/-- The same point record with SRID bytes `(0,0,2)`. -/
def exPointSrid2 : GSERIALIZED :=
  { size := 32 <<< 2, srid0 := 0, srid1 := 0, srid2 := 2, flags := 0,
    data := ptZeroBody, beyond := fun _ => 0 }

/-- Body of an empty polygon: type word and `nrings = 0`. -/
def emptyPolyBody : List Nat := bytesOfU32 3 ++ bytesOfU32 0

/-- An empty-polygon record that carries a serialized (2D) bbox: flag byte `0x04`,
16 zero box bytes before the body. -/
def exPolyWithBox : GSERIALIZED :=
  { size := 32 <<< 2, srid0 := 0, srid1 := 0, srid2 := 0, flags := 4,
    data := List.replicate 16 0 ++ emptyPolyBody, beyond := fun _ => 0 }

/-- The same empty polygon without a bbox. -/
def exPolyNoBox : GSERIALIZED :=
  { size := 16 <<< 2, srid0 := 0, srid1 := 0, srid2 := 0, flags := 0,
    data := emptyPolyBody, beyond := fun _ => 0 }

/-- Body of a MultiPoint holding one empty Point. -/
def mpEmptyBody : List Nat :=
  bytesOfU32 4 ++ bytesOfU32 1 ++ bytesOfU32 1 ++ bytesOfU32 0

/-- The empty MultiPoint record over zeroed surrounding memory. -/
def exMpEmpty : GSERIALIZED :=
  { size := 24 <<< 2, srid0 := 0, srid1 := 0, srid2 := 0, flags := 0,
    data := mpEmptyBody, beyond := fun _ => 0 }

/-- The tree the body `mpEmptyBody` serializes. -/
def tMpEmpty : LWGEOM := .lwcollection MULTIPOINTTYPE 0 [.lwpoint 0 ⟨0, 0, []⟩]

/-- A 2D point record at `(0.0, 0.0)` with SRID 0 over zeroed surrounding memory. -/
def exPointZero : GSERIALIZED :=
  { size := 32 <<< 2, srid0 := 0, srid1 := 0, srid2 := 0, flags := 0,
    data := ptZeroBody, beyond := fun _ => 0 }

/-- Surrounding memory for the empty MultiPoint (record length 24): the eight bytes
right after the record hold the pattern of the double `1.0`, and bytes 72..75 after it
(record offsets 96..99, where the fast-path probe reads) hold the word `POINTTYPE`. -/
def beyondC4A : Nat → Nat := fun j =>
  if j < 8 then byteL (bytesOfU64 0x3FF0000000000000) j
  else if 72 ≤ j ∧ j < 76 then byteL (bytesOfU32 1) (j - 72)
  else 0

/-- Surrounding memory for the 32-byte point record: bytes 64..67 after it (record
offsets 96..99) hold the word `POINTTYPE`. -/
def beyondC4B : Nat → Nat := fun j =>
  if 64 ≤ j ∧ j < 68 then byteL (bytesOfU32 1) (j - 64) else 0

/-- The empty MultiPoint sitting in front of adversarial memory. -/
def exC4A : GSERIALIZED := { exMpEmpty with beyond := beyondC4A }

/-- The zero point sitting in front of memory whose probe word reads `POINTTYPE`. -/
def exC4B : GSERIALIZED := { exPointZero with beyond := beyondC4B }

/-- The zero point in front of memory that makes the fast-path probe read
`POINTTYPE`. -/
def exPointProbed : GSERIALIZED := { exPointZero with beyond := beyondC4B }

/-- Body of a degenerate polygon: one ring of zero points (`nrings = 1`, a zero ring
count, and the odd-`nrings` padding word); it contains no ordinate bytes. -/
def polyDegBody : List Nat :=
  bytesOfU32 3 ++ bytesOfU32 1 ++ bytesOfU32 0 ++ bytesOfU32 0

/-- The degenerate-polygon record. -/
def exPolyDeg : GSERIALIZED :=
  { size := 24 <<< 2, srid0 := 0, srid1 := 0, srid2 := 0, flags := 0,
    data := polyDegBody, beyond := fun _ => 0 }

/-- The tree `polyDegBody` serializes: a polygon with one empty ring. -/
def tPolyDeg : LWGEOM := .lwpoly 0 [⟨0, 0, []⟩]

/-- An empty 2D point with SRID 4326 and no box. -/
def tEmptyPoint4326 : LWFULL := { srid := 4326, bbox := none, geom := .lwpoint 0 ⟨0, 0, []⟩ }

/-- Ordinate bytes of the 2D point `(1.0, 2.0)`. -/
def ordinates12 : List Nat :=
  bytesOfU64 0x3FF0000000000000 ++ bytesOfU64 0x4000000000000000

/-- A MultiPoint holding the single 2D point `(1.0, 2.0)`, SRID 4326, no box. -/
def tMpOnePoint : LWFULL :=
  { srid := 4326, bbox := none,
    geom := .lwcollection MULTIPOINTTYPE 0 [.lwpoint 0 ⟨0, 1, ordinates12⟩] }

/-- A 2D LineString with the two points `(1.0, 2.0)` and `(1.0, 2.0)`. -/
def tLineTwoPoints : LWGEOM := .lwline 0 ⟨0, 2, ordinates12 ++ ordinates12⟩

/-- A record holding the serialized two-point line (body length 40, record 48). -/
def exLineTwoPoints : GSERIALIZED :=
  { size := 48 <<< 2, srid0 := 0, srid1 := 0, srid2 := 0, flags := 0,
    data := bytesOfU32 2 ++ bytesOfU32 2 ++ ordinates12 ++ ordinates12,
    beyond := fun _ => 0 }

/-- A ring of four 2D points (64 zero ordinate bytes). -/
def ring4 : PTARRAY := ⟨0, 4, List.replicate 64 0⟩

/-- A 2D polygon with three rings of four points each. -/
def tPoly3Rings : LWGEOM := .lwpoly 0 [ring4, ring4, ring4]

/-! # Theorems -/

/-! ### Bit and byte helper lemmas -/

theorem sizeGet_shiftLeft (n : Nat) : SIZE_GET (n <<< 2) = n := by
  simp [SIZE_GET]

theorem lor_eq_add_of_lt {i a b : Nat} (h : b < 2^i) : (2^i * a) ||| b = 2^i * a + b :=
  (Nat.mul_add_lt_is_or h a).symm

theorem and_mask_shiftRight (n m j : Nat) :
    (n &&& ((2^m - 1) <<< j)) >>> j = (n >>> j) % 2^m := by
  apply Nat.eq_of_testBit_eq
  intro i
  simp only [Nat.testBit_shiftRight, Nat.testBit_and, Nat.testBit_shiftLeft,
    Nat.testBit_mod_two_pow, Nat.testBit_two_pow_sub_one, ge_iff_le,
    Nat.add_sub_cancel_left]
  have hj : decide (j ≤ j + i) = true := by simp
  rw [hj]
  cases n.testBit (j + i) <;> simp

theorem srid_bytes_assemble (b0 b1 b2 : Nat) (h1 : b1 < 2^8) (h2 : b2 < 2^8) :
    (b0 <<< 16) ||| (b1 <<< 8) ||| b2 = b0 * 2^16 + b1 * 2^8 + b2 := by
  rw [Nat.shiftLeft_eq, Nat.shiftLeft_eq, Nat.mul_comm b0, Nat.mul_comm b1]
  rw [lor_eq_add_of_lt (show 2^8 * b1 < 2^16 by omega)]
  rw [show 2^16 * b0 + 2^8 * b1 = 2^8 * (2^8 * b0 + b1) by ring]
  rw [lor_eq_add_of_lt (show b2 < 2^8 from h2)]

/-! ### SRID codec lemmas -/

theorem clamp_srid_bounds (s : Int) :
    0 ≤ (clamp_srid s).1 ∧ (clamp_srid s).1 < 2^20 := by
  unfold clamp_srid SRID_UNKNOWN SRID_MAXIMUM SRID_USER_MAXIMUM
  have hm := Int.emod_nonneg s (show (999999:Int) - 998999 - 1 ≠ 0 by norm_num)
  have hl := Int.emod_lt_of_pos s (show (0:Int) < 999999 - 998999 - 1 by norm_num)
  split_ifs with h1 h2 h3 <;> constructor <;> dsimp only <;> omega

theorem get_set_srid (g : GSERIALIZED) (s : Int) :
    gserialized_get_srid (gserialized_set_srid g s) = (clamp_srid s).1 := by
  obtain ⟨hc0, hc1⟩ := clamp_srid_bounds s
  set c := (clamp_srid s).1 with hc
  have hsent : (if c = SRID_UNKNOWN then (0 : Int) else c) = c := by
    simp only [SRID_UNKNOWN]
    split_ifs with h
    · omega
    · rfl
  have hn : c.toNat < 2^20 := by omega
  show gserialized_get_srid _ = c
  unfold gserialized_set_srid
  dsimp only
  rw [← hc, hsent]
  unfold gserialized_get_srid
  dsimp only
  set n := c.toNat with hdefn
  have hb0 : (n &&& 0x001F0000) >>> 16 = n / 2^16 := by
    rw [show (0x001F0000 : Nat) = (2^5 - 1) <<< 16 by decide, and_mask_shiftRight,
      Nat.shiftRight_eq_div_pow]
    exact Nat.mod_eq_of_lt (by omega)
  have hb1 : (n &&& 0x0000FF00) >>> 8 = n / 2^8 % 2^8 := by
    rw [show (0x0000FF00 : Nat) = (2^8 - 1) <<< 8 by decide, and_mask_shiftRight,
      Nat.shiftRight_eq_div_pow]
  have hb2 : n &&& 0x000000FF = n % 2^8 := by
    rw [show (0x000000FF : Nat) = 2^8 - 1 by decide, Nat.and_pow_two_sub_one_eq_mod]
  rw [hb0, hb1, hb2, srid_bytes_assemble _ _ _ (by omega) (by omega)]
  have hv : n / 2^16 * 2^16 + n / 2^8 % 2^8 * 2^8 + n % 2^8 = n := by omega
  rw [hv]
  have hw : (n <<< 11) % 2^32 = n * 2^11 := by
    rw [Nat.shiftLeft_eq]
    exact Nat.mod_eq_of_lt (by omega)
  rw [hw]
  have hlt : n * 2^11 < 2^31 := by omega
  rw [if_pos hlt]
  have hfd : ((n * 2^11 : Nat) : Int).fdiv (2^11) = (n : Int) := by
    push_cast
    exact Int.mul_fdiv_cancel _ (by norm_num)
  rw [hfd]
  have hcn : ((n : Nat) : Int) = c := by
    rw [hdefn]
    exact Int.toNat_of_nonneg hc0
  rw [hcn]
  simp only [SRID_UNKNOWN]
  split_ifs with h
  · omega
  · rfl

theorem get_srid_signExtend (g : GSERIALIZED)
    (h0 : g.srid0 < 2^8) (h1 : g.srid1 < 2^8) (h2 : g.srid2 < 2^8) :
    gserialized_get_srid g =
      (let v := g.srid0 * 2^16 + g.srid1 * 2^8 + g.srid2
       let s : Int :=
         if v % 2^21 < 2^20 then ((v % 2^21 : Nat) : Int)
         else ((v % 2^21 : Nat) : Int) - 2^21
       if s = 0 then SRID_UNKNOWN else s) := by
  unfold gserialized_get_srid
  dsimp only
  rw [srid_bytes_assemble _ _ _ h1 h2]
  set v := g.srid0 * 2^16 + g.srid1 * 2^8 + g.srid2 with hv
  have hw : (v <<< 11) % 2^32 = v % 2^21 * 2^11 := by
    rw [Nat.shiftLeft_eq]
    omega
  rw [hw]
  by_cases hcase : v % 2^21 < 2^20
  · have hsmall : v % 2^21 * 2^11 < 2^31 := by omega
    rw [if_pos hsmall, if_pos hcase]
    have hfd : ((v % 2^21 * 2^11 : Nat) : Int).fdiv (2^11) = ((v % 2^21 : Nat) : Int) := by
      push_cast
      exact Int.mul_fdiv_cancel _ (by norm_num)
    rw [hfd]
  · have hbig : ¬ (v % 2^21 * 2^11 < 2^31) := by omega
    rw [if_neg hbig, if_neg hcase]
    have hlt : v % 2^21 < 2^21 := Nat.mod_lt _ (by norm_num)
    have hfd : (((v % 2^21 * 2^11 : Nat) : Int) - 2^32).fdiv (2^11) =
        ((v % 2^21 : Nat) : Int) - 2^21 := by
      have he : (((v % 2^21 * 2^11 : Nat) : Int) - 2^32) =
          (((v % 2^21 : Nat) : Int) - 2^21) * 2^11 := by
        push_cast
        ring
      rw [he]
      exact Int.mul_fdiv_cancel _ (by norm_num)
    rw [hfd]

/-- C6: storing any 32-bit SRID and reading it back yields `clamp_srid` of the value:
values in `[1, SRID_MAXIMUM]` survive unchanged, non-positive values come back as the
unknown sentinel, values above the maximum are folded into
`SRID_USER_MAXIMUM + 1 + srid % (SRID_MAXIMUM - SRID_USER_MAXIMUM - 1)` with a notice,
and the raw three-byte decode is the arithmetic sign extension of the 21-bit stored
value (the `(((b0<<16)|(b1<<8)|b2)<<11)>>11` computation). -/
theorem c6_srid_codec (g : GSERIALIZED) (srid : Int)
    (hlo : -(2^31) ≤ srid) (hhi : srid < 2^31) :
    gserialized_get_srid (gserialized_set_srid g srid) = (clamp_srid srid).1 ∧
    (1 ≤ srid ∧ srid ≤ SRID_MAXIMUM → (clamp_srid srid).1 = srid) ∧
    (srid ≤ 0 → (clamp_srid srid).1 = SRID_UNKNOWN) ∧
    (SRID_MAXIMUM < srid →
      (clamp_srid srid).1 =
        SRID_USER_MAXIMUM + 1 + srid % (SRID_MAXIMUM - SRID_USER_MAXIMUM - 1) ∧
      (clamp_srid srid).2 = true) ∧
    (∀ g' : GSERIALIZED, g'.srid0 < 2^8 → g'.srid1 < 2^8 → g'.srid2 < 2^8 →
      gserialized_get_srid g' =
        (let v := g'.srid0 * 2^16 + g'.srid1 * 2^8 + g'.srid2
         let s : Int :=
           if v % 2^21 < 2^20 then ((v % 2^21 : Nat) : Int)
           else ((v % 2^21 : Nat) : Int) - 2^21
         if s = 0 then SRID_UNKNOWN else s)) := by
  refine ⟨get_set_srid g srid, ?_, ?_, ?_, ?_⟩
  · intro ⟨ha, hb⟩
    unfold clamp_srid SRID_MAXIMUM at *
    split_ifs <;> first | rfl | omega
  · intro ha
    unfold clamp_srid SRID_UNKNOWN at *
    split_ifs <;> first | rfl | omega
  · intro ha
    unfold clamp_srid SRID_MAXIMUM SRID_UNKNOWN at *
    split_ifs <;> first | exact ⟨rfl, rfl⟩ | omega
  · intro g' a b c
    exact get_srid_signExtend g' a b c

/-- Witness for C6 at a fold-range input: SRID 1000005 clamps to 999006. -/
theorem c6_srid_codec_witness :
    -(2^31) ≤ (1000005 : Int) ∧ (1000005 : Int) < 2^31 ∧
    gserialized_get_srid (gserialized_set_srid exPointZero 1000005) =
      (clamp_srid 1000005).1 ∧
    (clamp_srid (1000005 : Int)).1 = 999006 := by
  refine ⟨by norm_num, by norm_num, (c6_srid_codec exPointZero 1000005 (by norm_num) (by norm_num)).1, by decide⟩

/-! ### Comparator helper lemmas -/

theorem memcmpSign_swap (x : List Nat) : ∀ y, memcmpSign y x = - memcmpSign x y := by
  induction x with
  | nil => intro y; cases y <;> simp [memcmpSign]
  | cons a as ih =>
    intro y
    cases y with
    | nil => simp [memcmpSign]
    | cons b bs =>
      simp only [memcmpSign]
      rcases Nat.lt_trichotomy a b with h | h | h
      · rw [if_neg (by omega), if_pos h, if_pos h]
        norm_num
      · rw [if_neg (by omega), if_neg (by omega), if_neg (by omega), if_neg (by omega)]
        exact ih bs
      · rw [if_pos h, if_neg (by omega), if_pos h]

theorem memcmpSign_self (x : List Nat) : memcmpSign x x = 0 := by
  induction x with
  | nil => rfl
  | cons a as ih => simp [memcmpSign, ih]

theorem memcmpSign_eq_zero_iff (x : List Nat) :
    ∀ y, x.length = y.length → (memcmpSign x y = 0 ↔ x = y) := by
  induction x with
  | nil =>
    intro y h
    cases y with
    | nil => simp [memcmpSign]
    | cons b bs => simp at h
  | cons a as ih =>
    intro y h
    cases y with
    | nil => simp at h
    | cons b bs =>
      simp only [memcmpSign]
      by_cases h1 : a < b
      · rw [if_pos h1]
        constructor
        · intro habs; omega
        · intro he; injection he with h2 h3; omega
      · by_cases h2 : b < a
        · rw [if_neg h1, if_pos h2]
          constructor
          · intro habs; omega
          · intro he; injection he with h3 h4; omega
        · rw [if_neg h1, if_neg h2]
          have hab : a = b := by omega
          rw [ih bs (by simpa using h)]
          subst hab
          constructor
          · intro he; rw [he]
          · intro he; injection he

theorem tailCmp_ne_zero (bsz1 bsz2 : Nat) (c : Int) : tailCmp bsz1 bsz2 c ≠ 0 := by
  unfold tailCmp
  split_ifs <;> norm_num

theorem tailCmp_antisym (bsz1 bsz2 : Nat) (c : Int) :
    tailCmp bsz1 bsz2 c = - tailCmp bsz2 bsz1 (-c) ∨
    (c = 0 ∧ bsz1 = bsz2 ∧ tailCmp bsz1 bsz2 c = -1 ∧ tailCmp bsz2 bsz1 (-c) = -1) := by
  unfold tailCmp
  split_ifs <;> omega

theorem doubleLt_asymm (a b : Nat) (h : doubleLt a b = true) : doubleLt b a = false := by
  unfold doubleLt at h ⊢
  dsimp only at h ⊢
  by_cases hnan : (isNan64 (a % 2^64) || isNan64 (b % 2^64)) = true
  · rw [if_pos hnan] at h
    exact absurd h (by simp)
  · have hnan2 : ¬ (isNan64 (b % 2^64) || isNan64 (a % 2^64)) = true := by
      rw [Bool.or_comm]; exact hnan
    rw [if_neg hnan] at h
    rw [if_neg hnan2]
    have ha : (a % 2^64) >>> 63 = a % 2^64 / 2^63 := Nat.shiftRight_eq_div_pow _ _
    have hb' : (b % 2^64) >>> 63 = b % 2^64 / 2^63 := Nat.shiftRight_eq_div_pow _ _
    have ha2 : (a % 2^64) &&& (2^63 - 1) = a % 2^64 % 2^63 :=
      Nat.and_pow_two_sub_one_eq_mod _ _
    have hb2 : (b % 2^64) &&& (2^63 - 1) = b % 2^64 % 2^63 :=
      Nat.and_pow_two_sub_one_eq_mod _ _
    rw [ha, hb', ha2, hb2] at h ⊢
    have hsa : a % 2^64 / 2^63 = 0 ∨ a % 2^64 / 2^63 = 1 := by omega
    have hsb : b % 2^64 / 2^63 = 0 ∨ b % 2^64 / 2^63 = 1 := by omega
    rcases hsa with hsa | hsa <;> rcases hsb with hsb | hsb <;>
      rw [hsa, hsb] at h ⊢ <;> try simp_all <;> try omega

theorem fastPathGuard_symm (g1 g2 : GSERIALIZED) :
    fastPathGuard g1 g2 = fastPathGuard g2 g1 := by
  unfold fastPathGuard
  exact Bool.and_comm _ _

theorem cmp_srid_symm (g1 g2 : GSERIALIZED) :
    gserialized_cmp_srid g1 g2 = gserialized_cmp_srid g2 g1 := by
  unfold gserialized_cmp_srid
  by_cases h : g1.srid0 = g2.srid0 ∧ g1.srid1 = g2.srid1 ∧ g1.srid2 = g2.srid2
  · rw [if_pos h, if_pos ⟨h.1.symm, h.2.1.symm, h.2.2.symm⟩]
  · rw [if_neg h, if_neg (fun h' => h ⟨h'.1.symm, h'.2.1.symm, h'.2.2.symm⟩)]

theorem bne_symm_nat (x y : Nat) : (x != y) = (y != x) := by
  by_cases h : x = y
  · subst h; rfl
  · have h1 : (x == y) = false := by simpa using h
    have h2 : (y == x) = false := by simpa using (fun e => h e.symm : ¬ y = x)
    simp [bne, h1, h2]

theorem fastPathEarly_symm (env : Env) (g1 g2 : GSERIALIZED) :
    fastPathEarly env g1 g2 = fastPathEarly env g2 g1 := by
  unfold fastPathEarly
  rw [fastPathGuard_symm, cmp_srid_symm, bne_symm_nat]

theorem boxLadder_antisym (env : Env) (b1 b2 : GBOX) (t1 t2 : Int) :
    (boxLadder env b1 b2 t1 = t1 ∧ boxLadder env b2 b1 t2 = t2) ∨
    boxLadder env b1 b2 t1 = - boxLadder env b2 b1 t2 := by
  unfold boxLadder
  dsimp only
  rcases Nat.lt_trichotomy (gbox_get_sortable_hash env b1) (gbox_get_sortable_hash env b2)
    with hh | hh | hh
  · right
    have n1 : ¬ gbox_get_sortable_hash env b1 > gbox_get_sortable_hash env b2 := by omega
    have p2 : gbox_get_sortable_hash env b2 > gbox_get_sortable_hash env b1 := hh
    simp [n1, p2, hh]
  · have n1 : ¬ gbox_get_sortable_hash env b1 > gbox_get_sortable_hash env b2 := by omega
    have n2 : ¬ gbox_get_sortable_hash env b1 < gbox_get_sortable_hash env b2 := by omega
    have n3 : ¬ gbox_get_sortable_hash env b2 > gbox_get_sortable_hash env b1 := by omega
    have n4 : ¬ gbox_get_sortable_hash env b2 < gbox_get_sortable_hash env b1 := by omega
    by_cases x1 : doubleLt b1.xmin b2.xmin = true
    · right
      simp [n1, n2, n3, n4, x1, doubleLt_asymm _ _ x1]
    · by_cases x2 : doubleLt b2.xmin b1.xmin = true
      · right
        simp [n1, n2, n3, n4, x1, x2, doubleLt_asymm _ _ x2]
      · by_cases y1 : doubleLt b1.ymin b2.ymin = true
        · right
          simp [n1, n2, n3, n4, x1, x2, y1, doubleLt_asymm _ _ y1]
        · by_cases y2 : doubleLt b2.ymin b1.ymin = true
          · right
            simp [n1, n2, n3, n4, x1, x2, y1, y2, doubleLt_asymm _ _ y2]
          · by_cases z1 : doubleLt b1.xmax b2.xmax = true
            · right
              simp [n1, n2, n3, n4, x1, x2, y1, y2, z1, doubleLt_asymm _ _ z1]
            · by_cases z2 : doubleLt b2.xmax b1.xmax = true
              · right
                simp [n1, n2, n3, n4, x1, x2, y1, y2, z1, z2, doubleLt_asymm _ _ z2]
              · by_cases w1 : doubleLt b1.ymax b2.ymax = true
                · right
                  simp [n1, n2, n3, n4, x1, x2, y1, y2, z1, z2, w1, doubleLt_asymm _ _ w1]
                · by_cases w2 : doubleLt b2.ymax b1.ymax = true
                  · right
                    simp [n1, n2, n3, n4, x1, x2, y1, y2, z1, z2, w1, w2,
                      doubleLt_asymm _ _ w2]
                  · left
                    constructor <;> simp [n1, n2, n3, n4, x1, x2, y1, y2, z1, z2, w1, w2]
  · right
    have p1 : gbox_get_sortable_hash env b1 > gbox_get_sortable_hash env b2 := hh
    have n3 : ¬ gbox_get_sortable_hash env b2 > gbox_get_sortable_hash env b1 := by omega
    simp [p1, n3, hh]

theorem recordWF_unfold (g : GSERIALIZED) (h : recordWF g) :
    g.size = (8 + g.data.length) <<< 2 ∧ g.srid0 < 2^8 ∧ g.srid1 < 2^8 ∧
    g.srid2 < 2^8 ∧ g.flags < 2^8 ∧ (∀ b ∈ g.data, b < 2^8) ∧
    (if hasBBOX g.flags then gbox_serialized_size g.flags else 0) + 8 ≤ g.data.length := by
  unfold recordWF recordWFb at h
  simp only [Bool.and_eq_true, beq_iff_eq, decide_eq_true_eq, List.all_eq_true] at h
  obtain ⟨⟨⟨⟨⟨⟨h1, h2⟩, h3⟩, h4⟩, h5⟩, h6⟩, h7⟩ := h
  exact ⟨h1, h2, h3, h4, h5, h6, h7⟩

theorem bodyBytes_bsz (g : GSERIALIZED) (h : recordWF g) :
    SIZE_GET g.size - gserialized_header_size g = (bodyBytes g).length ∧
    gserialized_header_size g ≤ SIZE_GET g.size := by
  obtain ⟨h1, _, _, _, _, _, h7⟩ := recordWF_unfold g h
  rw [h1, sizeGet_shiftLeft]
  unfold gserialized_header_size bodyBytes gserialized_has_bbox
  rw [List.length_drop]
  constructor <;> omega

theorem slow_antisym (env : Env) (g1 g2 : GSERIALIZED)
    (h1 : recordWF g1) (h2 : recordWF g2) :
    gserialized_cmp_slow env g1 g2 = - gserialized_cmp_slow env g2 g1 ∨
    (gserialized_cmp_slow env g1 g2 = -1 ∧ gserialized_cmp_slow env g2 g1 = -1 ∧
      gserialized_cmp_srid g1 g2 = 1 ∧ bodyBytes g1 = bodyBytes g2) := by
  obtain ⟨hl1, hle1⟩ := bodyBytes_bsz g1 h1
  obtain ⟨hl2, hle2⟩ := bodyBytes_bsz g2 h2
  unfold gserialized_cmp_slow
  dsimp only
  rw [cmp_srid_symm g2 g1]
  set bsz1 := SIZE_GET g1.size - gserialized_header_size g1 with hbsz1
  set bsz2 := SIZE_GET g2.size - gserialized_header_size g2 with hbsz2
  rw [Nat.min_comm bsz2 bsz1]
  set bsz := min bsz1 bsz2 with hbszdef
  set c := memcmpSign ((bodyBytes g1).take bsz) ((bodyBytes g2).take bsz) with hcdef
  have hcswap : memcmpSign ((bodyBytes g2).take bsz) ((bodyBytes g1).take bsz) = -c :=
    memcmpSign_swap _ _
  rw [hcswap]
  have hsrid01 : gserialized_cmp_srid g1 g2 = 0 ∨ gserialized_cmp_srid g1 g2 = 1 := by
    unfold gserialized_cmp_srid
    split_ifs <;> simp
  have htrap : c = 0 → bsz1 = bsz2 → bodyBytes g1 = bodyBytes g2 := by
    intro hc0 hbeq
    have hlen : (bodyBytes g1).length = (bodyBytes g2).length := by omega
    have htake1 : (bodyBytes g1).take bsz = bodyBytes g1 :=
      List.take_of_length_le (by omega)
    have htake2 : (bodyBytes g2).take bsz = bodyBytes g2 :=
      List.take_of_length_le (by omega)
    rw [hcdef, htake1, htake2] at hc0
    exact (memcmpSign_eq_zero_iff _ _ hlen).mp hc0
  by_cases he1 : (gserialized_get_gbox_p env g1).isNone = true
  · by_cases he2 : (gserialized_get_gbox_p env g2).isNone = true
    · -- both considered empty
      have k1 : ¬((gserialized_get_gbox_p env g1).isNone = true ∧
          ¬(gserialized_get_gbox_p env g2).isNone = true) := fun h => h.2 he2
      have k2 : ¬(¬(gserialized_get_gbox_p env g1).isNone = true ∧
          (gserialized_get_gbox_p env g2).isNone = true) := fun h => h.1 he1
      have k3 : ¬((gserialized_get_gbox_p env g2).isNone = true ∧
          ¬(gserialized_get_gbox_p env g1).isNone = true) := fun h => h.2 he1
      have k4 : ¬(¬(gserialized_get_gbox_p env g2).isNone = true ∧
          (gserialized_get_gbox_p env g1).isNone = true) := fun h => h.1 he2
      have k5 : ¬(¬(gserialized_get_gbox_p env g1).isNone = true ∧
          ¬(gserialized_get_gbox_p env g2).isNone = true) := fun h => h.1 he1
      have k6 : ¬(¬(gserialized_get_gbox_p env g2).isNone = true ∧
          ¬(gserialized_get_gbox_p env g1).isNone = true) := fun h => h.1 he2
      rw [if_neg k1, if_neg k2, if_neg k3, if_neg k4]
      by_cases hp : bsz1 = bsz2 ∧ gserialized_cmp_srid g1 g2 = 0 ∧ c = 0
      · have hp' : bsz2 = bsz1 ∧ gserialized_cmp_srid g1 g2 = 0 ∧ -c = 0 :=
          ⟨hp.1.symm, hp.2.1, by omega⟩
        rw [if_pos hp, if_pos hp']
        left
        decide
      · have hp' : ¬(bsz2 = bsz1 ∧ gserialized_cmp_srid g1 g2 = 0 ∧ -c = 0) := by
          intro hq
          exact hp ⟨hq.1.symm, hq.2.1, by omega⟩
        rw [if_neg hp, if_neg hp', if_neg k5, if_neg k6]
        rcases tailCmp_antisym bsz1 bsz2 c with h | ⟨hc0, hbeq, ha, hb⟩
        · left; exact h
        · right
          refine ⟨ha, hb, ?_, htrap hc0 hbeq⟩
          rcases hsrid01 with hs | hs
          · exact absurd ⟨hbeq, hs, hc0⟩ hp
          · exact hs
    · -- g1 empty, g2 not
      have k1 : (gserialized_get_gbox_p env g1).isNone = true ∧
          ¬(gserialized_get_gbox_p env g2).isNone = true := ⟨he1, he2⟩
      have k3 : ¬((gserialized_get_gbox_p env g2).isNone = true ∧
          ¬(gserialized_get_gbox_p env g1).isNone = true) := fun h => he2 h.1
      have k4 : ¬(gserialized_get_gbox_p env g2).isNone = true ∧
          (gserialized_get_gbox_p env g1).isNone = true := ⟨he2, he1⟩
      rw [if_pos k1, if_neg k3, if_pos k4]
      left
      norm_num
  · by_cases he2 : (gserialized_get_gbox_p env g2).isNone = true
    · -- g2 empty, g1 not
      have k1 : ¬((gserialized_get_gbox_p env g1).isNone = true ∧
          ¬(gserialized_get_gbox_p env g2).isNone = true) := fun h => he1 h.1
      have k2 : ¬(gserialized_get_gbox_p env g1).isNone = true ∧
          (gserialized_get_gbox_p env g2).isNone = true := ⟨he1, he2⟩
      have k3 : (gserialized_get_gbox_p env g2).isNone = true ∧
          ¬(gserialized_get_gbox_p env g1).isNone = true := ⟨he2, he1⟩
      rw [if_neg k1, if_pos k2, if_pos k3]
      left
      norm_num
    · -- both non-empty
      have k1 : ¬((gserialized_get_gbox_p env g1).isNone = true ∧
          ¬(gserialized_get_gbox_p env g2).isNone = true) := by tauto
      have k2 : ¬(¬(gserialized_get_gbox_p env g1).isNone = true ∧
          (gserialized_get_gbox_p env g2).isNone = true) := by tauto
      have k3 : ¬((gserialized_get_gbox_p env g2).isNone = true ∧
          ¬(gserialized_get_gbox_p env g1).isNone = true) := by tauto
      have k4 : ¬(¬(gserialized_get_gbox_p env g2).isNone = true ∧
          (gserialized_get_gbox_p env g1).isNone = true) := by tauto
      have k5 : ¬(gserialized_get_gbox_p env g1).isNone = true ∧
          ¬(gserialized_get_gbox_p env g2).isNone = true := ⟨he1, he2⟩
      have k6 : ¬(gserialized_get_gbox_p env g2).isNone = true ∧
          ¬(gserialized_get_gbox_p env g1).isNone = true := ⟨he2, he1⟩
      rw [if_neg k1, if_neg k2, if_neg k3, if_neg k4]
      by_cases hp : bsz1 = bsz2 ∧ gserialized_cmp_srid g1 g2 = 0 ∧ c = 0
      · have hp' : bsz2 = bsz1 ∧ gserialized_cmp_srid g1 g2 = 0 ∧ -c = 0 :=
          ⟨hp.1.symm, hp.2.1, by omega⟩
        rw [if_pos hp, if_pos hp']
        left
        decide
      · have hp' : ¬(bsz2 = bsz1 ∧ gserialized_cmp_srid g1 g2 = 0 ∧ -c = 0) := by
          intro hq
          exact hp ⟨hq.1.symm, hq.2.1, by omega⟩
        rw [if_neg hp, if_neg hp', if_pos k5, if_pos k6]
        rcases boxLadder_antisym env ((gserialized_get_gbox_p env g1).getD GBOX.zero)
            ((gserialized_get_gbox_p env g2).getD GBOX.zero)
            (tailCmp bsz1 bsz2 c) (tailCmp bsz2 bsz1 (-c)) with ⟨hf1, hf2⟩ | hflip
        · rw [hf1, hf2]
          rcases tailCmp_antisym bsz1 bsz2 c with h | ⟨hc0, hbeq, ha, hb⟩
          · left; exact h
          · right
            refine ⟨ha, hb, ?_, htrap hc0 hbeq⟩
            rcases hsrid01 with hs | hs
            · exact absurd ⟨hbeq, hs, hc0⟩ hp
            · exact hs
        · left; exact hflip

/-- C1 (amended): on well-formed records, swapping the comparator's arguments flips
the sign of the result — except when the two bodies are byte-identical (of equal
length) while the SRID bytes differ; in that residual case both orders return `-1`,
so the claimed flip (and the claimed behaviour on the two equal-body points with
different SRIDs) fails exactly there. -/
theorem c1_cmp_antisymmetry (env : Env) (g1 g2 : GSERIALIZED)
    (h1 : recordWF g1) (h2 : recordWF g2) :
    gserialized_cmp env g1 g2 = - gserialized_cmp env g2 g1 ∨
    (gserialized_cmp env g1 g2 = -1 ∧ gserialized_cmp env g2 g1 = -1 ∧
      gserialized_cmp_srid g1 g2 = 1 ∧ bodyBytes g1 = bodyBytes g2) := by
  unfold gserialized_cmp
  dsimp only
  rw [fastPathGuard_symm g2 g1, cmp_srid_symm g2 g1]
  by_cases hg : fastPathGuard g1 g2 = true
  · rw [if_pos hg, if_pos hg]
    by_cases hs : gserialized_cmp_srid g1 g2 = 0
    · rw [if_pos hs, if_pos hs]
      rcases Nat.lt_trichotomy (fastPathHash env g1) (fastPathHash env g2)
        with hh | hh | hh
      · left
        rw [if_neg (show ¬ fastPathHash env g1 > fastPathHash env g2 by omega),
          if_pos (show fastPathHash env g1 < fastPathHash env g2 from hh),
          if_pos (show fastPathHash env g2 > fastPathHash env g1 from hh)]
      · have n1 : ¬ fastPathHash env g1 > fastPathHash env g2 := by omega
        have n2 : ¬ fastPathHash env g1 < fastPathHash env g2 := by omega
        have n3 : ¬ fastPathHash env g2 > fastPathHash env g1 := by omega
        have n4 : ¬ fastPathHash env g2 < fastPathHash env g1 := by omega
        rw [if_neg n1, if_neg n2, if_neg n3, if_neg n4]
        exact slow_antisym env g1 g2 h1 h2
      · left
        rw [if_pos (show fastPathHash env g1 > fastPathHash env g2 from hh),
          if_neg (show ¬ fastPathHash env g2 > fastPathHash env g1 by omega),
          if_pos (show fastPathHash env g2 < fastPathHash env g1 from hh)]
        decide
    · rw [if_neg hs, if_neg hs]
      exact slow_antisym env g1 g2 h1 h2
  · rw [if_neg hg, if_neg hg]
    exact slow_antisym env g1 g2 h1 h2

/-- C1 counterexample: two 2D point records with byte-identical bodies (both points
at the origin) and different SRIDs; the comparator returns `-1` for both argument
orders, so the sign is non-zero and deterministic but does not flip. -/
theorem c1_counterexample :
    gserialized_cmp env0 exPointSrid1 exPointSrid2 = -1 ∧
    gserialized_cmp env0 exPointSrid2 exPointSrid1 = -1 := by
  constructor <;> decide

/-- Witness for C1 at the two concrete point records. -/
theorem c1_cmp_antisymmetry_witness :
    recordWF exPointSrid1 ∧ recordWF exPointSrid2 ∧
    (gserialized_cmp env0 exPointSrid1 exPointSrid2 =
        - gserialized_cmp env0 exPointSrid2 exPointSrid1 ∨
      (gserialized_cmp env0 exPointSrid1 exPointSrid2 = -1 ∧
        gserialized_cmp env0 exPointSrid2 exPointSrid1 = -1 ∧
        gserialized_cmp_srid exPointSrid1 exPointSrid2 = 1 ∧
        bodyBytes exPointSrid1 = bodyBytes exPointSrid2)) :=
  ⟨by show recordWFb exPointSrid1 = true; decide,
    by show recordWFb exPointSrid2 = true; decide,
    c1_cmp_antisymmetry env0 exPointSrid1 exPointSrid2
      (by show recordWFb exPointSrid1 = true; decide)
      (by show recordWFb exPointSrid2 = true; decide)⟩

/-- C2: the fast-path guard's type read `*(uint32_t*)(g1+8)` advances a
`GSERIALIZED*` by eight whole structs, i.e. reads at byte offset
`8·sizeof(GSERIALIZED) = 96` — outside a 32-byte point record — while
`gserialized_get_type`'s header-skip rule reads the type word at offset 8.  Two
records with identical stored bytes but different surrounding memory give the probe
different values, so the guard is not the claimed header-skip read and is not even a
function of the record. -/
theorem c2_fast_path_probe_out_of_bounds :
    8 * sizeofGSERIALIZED = 96 ∧
    recordLen exPointZero = 32 ∧
    gserialized_get_type exPointZero = POINTTYPE ∧
    fastPathTypeProbe exPointZero = 0 ∧
    fastPathTypeProbe exPointProbed = POINTTYPE ∧
    exPointZero.size = exPointProbed.size ∧
    exPointZero.srid0 = exPointProbed.srid0 ∧
    exPointZero.srid1 = exPointProbed.srid1 ∧
    exPointZero.srid2 = exPointProbed.srid2 ∧
    exPointZero.flags = exPointProbed.flags ∧
    exPointZero.data = exPointProbed.data := by
  refine ⟨rfl, rfl, by decide, by decide, by decide, rfl, rfl, rfl, rfl, rfl, rfl⟩

theorem cmp_eq_slow_of_not_early (env : Env) (g1 g2 : GSERIALIZED)
    (h : fastPathEarly env g1 g2 = false) :
    gserialized_cmp env g1 g2 = gserialized_cmp_slow env g1 g2 := by
  unfold fastPathEarly at h
  unfold gserialized_cmp
  dsimp only
  by_cases hg : fastPathGuard g1 g2 = true
  · rw [if_pos hg]
    by_cases hs : gserialized_cmp_srid g1 g2 = 0
    · rw [if_pos hs]
      have hs' : (gserialized_cmp_srid g1 g2 == 0) = true := by simp [hs]
      rw [hg, hs'] at h
      simp only [Bool.true_and, bne_eq_false_iff_eq] at h
      have n1 : ¬ fastPathHash env g1 > fastPathHash env g2 := by omega
      have n2 : ¬ fastPathHash env g1 < fastPathHash env g2 := by omega
      rw [if_neg n1, if_neg n2]
    · rw [if_neg hs]
  · rw [if_neg hg]

/-- C4 (amended): the comparator's emptiness notion is failure of
`gserialized_get_gbox_p` (the definition of `cmpConsidersEmpty`), and an empty record
compares `-1` against a non-empty one (and `1` the other way) *provided the point
fast path does not return early*.  The proviso is forced: the fast-path guard reads
its type probes out of record bounds (see the C2 theorem), and with adversarial
surrounding memory the fast path can fire on an empty record and return the hash
sign instead — the counterexample exhibits exactly that. -/
theorem c4_empty_before_nonempty (env : Env) (g1 g2 : GSERIALIZED)
    (hne : fastPathEarly env g1 g2 = false)
    (he1 : cmpConsidersEmpty env g1 = true)
    (he2 : cmpConsidersEmpty env g2 = false) :
    gserialized_cmp env g1 g2 = -1 ∧ gserialized_cmp env g2 g1 = 1 := by
  have hne' : fastPathEarly env g2 g1 = false := by
    rw [fastPathEarly_symm]
    exact hne
  rw [cmp_eq_slow_of_not_early env g1 g2 hne, cmp_eq_slow_of_not_early env g2 g1 hne']
  unfold cmpConsidersEmpty at he1 he2
  unfold gserialized_cmp_slow
  dsimp only
  have hne2 : ¬ (gserialized_get_gbox_p env g2).isNone = true := by simp [he2]
  constructor
  · rw [if_pos ⟨he1, hne2⟩]
  · rw [if_neg (show ¬((gserialized_get_gbox_p env g2).isNone = true ∧
        ¬(gserialized_get_gbox_p env g1).isNone = true) from fun hq => hne2 hq.1),
      if_pos ⟨hne2, he1⟩]

/-- C4 counterexample: an empty MultiPoint (24-byte record) in front of adversarial
memory whose probe word reads `POINTTYPE` and whose following bytes read as the
double `1.0`, compared against a non-empty point with the same SRID: the fast path
fires on out-of-record bytes and returns `1`, not the claimed `-1`. -/
theorem c4_counterexample :
    gserialized_cmp_srid exC4A exC4B = 0 ∧
    cmpConsidersEmpty envC4 exC4A = true ∧
    cmpConsidersEmpty envC4 exC4B = false ∧
    gserialized_cmp envC4 exC4A exC4B = 1 := by
  refine ⟨by decide, by decide, by decide, by decide⟩

/-- Witness for C4 over zeroed surrounding memory: empty MultiPoint vs non-empty
point with equal SRIDs compares `-1` / `1`. -/
theorem c4_empty_before_nonempty_witness :
    fastPathEarly env0 exMpEmpty exPointZero = false ∧
    cmpConsidersEmpty env0 exMpEmpty = true ∧
    cmpConsidersEmpty env0 exPointZero = false ∧
    (gserialized_cmp env0 exMpEmpty exPointZero = -1 ∧
      gserialized_cmp env0 exPointZero exMpEmpty = 1) :=
  ⟨by decide, by decide, by decide,
    c4_empty_before_nonempty env0 exMpEmpty exPointZero (by decide) (by decide) (by decide)⟩

theorem boxLadder_ne_zero (env : Env) (b1 b2 : GBOX) (tail : Int) (h : tail ≠ 0) :
    boxLadder env b1 b2 tail ≠ 0 := by
  unfold boxLadder
  dsimp only
  split_ifs <;> omega

theorem cmp_zero_imp_slow (env : Env) (g1 g2 : GSERIALIZED)
    (h : gserialized_cmp env g1 g2 = 0) :
    gserialized_cmp_slow env g1 g2 = 0 := by
  unfold gserialized_cmp at h
  dsimp only at h
  split_ifs at h <;> omega

theorem slow_zero_iff (env : Env) (g1 g2 : GSERIALIZED)
    (hW1 : recordWF g1) (hW2 : recordWF g2)
    (hemp : cmpConsidersEmpty env g1 = cmpConsidersEmpty env g2) :
    gserialized_cmp_slow env g1 g2 = 0 ↔
      (g1.srid0 = g2.srid0 ∧ g1.srid1 = g2.srid1 ∧ g1.srid2 = g2.srid2) ∧
      bodyBytes g1 = bodyBytes g2 := by
  have hlen1 := bodyBytes_bsz g1 hW1
  have hlen2 := bodyBytes_bsz g2 hW2
  unfold cmpConsidersEmpty at hemp
  unfold gserialized_cmp_slow
  dsimp only
  constructor
  · intro h
    by_cases c1 : ((gserialized_get_gbox_p env g1).isNone = true ∧
        ¬ (gserialized_get_gbox_p env g2).isNone = true)
    · rw [if_pos c1] at h
      exact absurd h (by norm_num)
    rw [if_neg c1] at h
    by_cases c2 : (¬ (gserialized_get_gbox_p env g1).isNone = true ∧
        (gserialized_get_gbox_p env g2).isNone = true)
    · rw [if_pos c2] at h
      exact absurd h (by norm_num)
    rw [if_neg c2] at h
    by_cases c3 : (SIZE_GET g1.size - gserialized_header_size g1 =
          SIZE_GET g2.size - gserialized_header_size g2 ∧
        gserialized_cmp_srid g1 g2 = 0 ∧
        memcmpSign
          ((bodyBytes g1).take (min (SIZE_GET g1.size - gserialized_header_size g1)
            (SIZE_GET g2.size - gserialized_header_size g2)))
          ((bodyBytes g2).take (min (SIZE_GET g1.size - gserialized_header_size g1)
            (SIZE_GET g2.size - gserialized_header_size g2))) = 0)
    swap
    · rw [if_neg c3] at h
      by_cases c4 : (¬ (gserialized_get_gbox_p env g1).isNone = true ∧
          ¬ (gserialized_get_gbox_p env g2).isNone = true)
      · rw [if_pos c4] at h
        exact absurd h (boxLadder_ne_zero env _ _ _ (tailCmp_ne_zero _ _ _))
      · rw [if_neg c4] at h
        exact absurd h (tailCmp_ne_zero _ _ _)
    · obtain ⟨e_sz, e_srid, e_mem⟩ := c3
      have hsr : g1.srid0 = g2.srid0 ∧ g1.srid1 = g2.srid1 ∧ g1.srid2 = g2.srid2 := by
        unfold gserialized_cmp_srid at e_srid
        by_cases hc : g1.srid0 = g2.srid0 ∧ g1.srid1 = g2.srid1 ∧ g1.srid2 = g2.srid2
        · exact hc
        · rw [if_neg hc] at e_srid
          exact absurd e_srid (by norm_num)
      refine ⟨hsr, ?_⟩
      have L1 : (bodyBytes g1).length = SIZE_GET g1.size - gserialized_header_size g1 :=
        hlen1.1.symm
      have L2 : (bodyBytes g2).length = SIZE_GET g2.size - gserialized_header_size g2 :=
        hlen2.1.symm
      have t1 : (bodyBytes g1).take
          (min (SIZE_GET g1.size - gserialized_header_size g1)
            (SIZE_GET g2.size - gserialized_header_size g2)) = bodyBytes g1 :=
        List.take_of_length_le (by rw [L1]; omega)
      have t2 : (bodyBytes g2).take
          (min (SIZE_GET g1.size - gserialized_header_size g1)
            (SIZE_GET g2.size - gserialized_header_size g2)) = bodyBytes g2 :=
        List.take_of_length_le (by rw [L2]; omega)
      rw [t1, t2] at e_mem
      exact (memcmpSign_eq_zero_iff (bodyBytes g1) (bodyBytes g2)
        (by rw [L1, L2]; exact e_sz)).mp e_mem
  · rintro ⟨hsr, hbody⟩
    have k1 : ¬ ((gserialized_get_gbox_p env g1).isNone = true ∧
        ¬ (gserialized_get_gbox_p env g2).isNone = true) := fun hq => hq.2 (hemp ▸ hq.1)
    have k2 : ¬ (¬ (gserialized_get_gbox_p env g1).isNone = true ∧
        (gserialized_get_gbox_p env g2).isNone = true) := fun hq => hq.1 (hemp.symm ▸ hq.2)
    have e_sz : SIZE_GET g1.size - gserialized_header_size g1 =
        SIZE_GET g2.size - gserialized_header_size g2 := by
      rw [hlen1.1, hlen2.1, hbody]
    have k3s : gserialized_cmp_srid g1 g2 = 0 := by
      unfold gserialized_cmp_srid
      rw [if_pos hsr]
    have k3m : memcmpSign
        ((bodyBytes g1).take (min (SIZE_GET g1.size - gserialized_header_size g1)
          (SIZE_GET g2.size - gserialized_header_size g2)))
        ((bodyBytes g2).take (min (SIZE_GET g1.size - gserialized_header_size g1)
          (SIZE_GET g2.size - gserialized_header_size g2))) = 0 := by
      rw [hbody]
      exact memcmpSign_self _
    rw [if_neg k1, if_neg k2, if_pos ⟨e_sz, k3s, k3m⟩]

theorem recordByteAt_ge8_congr (g1 g2 : GSERIALIZED) (hd : g1.data = g2.data)
    (hb1 : beyondZero g1) (hb2 : beyondZero g2) (i : Nat) (hi : 8 ≤ i) :
    recordByteAt g1 i = recordByteAt g2 i := by
  unfold recordByteAt recordLen
  have n1 : ¬ i < 4 := by omega
  have n2 : i ≠ 4 := by omega
  have n3 : i ≠ 5 := by omega
  have n4 : i ≠ 6 := by omega
  have n5 : i ≠ 7 := by omega
  simp only [if_neg n1, if_neg n2, if_neg n3, if_neg n4, if_neg n5]
  rw [hd]
  by_cases hlt : i - 8 < g2.data.length
  · rw [if_pos hlt, if_pos hlt]
  · rw [if_neg hlt, if_neg hlt, hb1, hb2]

theorem recordU64At_ge8_congr (g1 g2 : GSERIALIZED) (hd : g1.data = g2.data)
    (hb1 : beyondZero g1) (hb2 : beyondZero g2) (off : Nat) (hoff : 8 ≤ off) :
    recordU64At g1 off = recordU64At g2 off := by
  unfold recordU64At recordU32At
  rw [recordByteAt_ge8_congr g1 g2 hd hb1 hb2 off hoff,
    recordByteAt_ge8_congr g1 g2 hd hb1 hb2 (off + 1) (by omega),
    recordByteAt_ge8_congr g1 g2 hd hb1 hb2 (off + 2) (by omega),
    recordByteAt_ge8_congr g1 g2 hd hb1 hb2 (off + 3) (by omega),
    recordByteAt_ge8_congr g1 g2 hd hb1 hb2 (off + 4) (by omega),
    recordByteAt_ge8_congr g1 g2 hd hb1 hb2 (off + 4 + 1) (by omega),
    recordByteAt_ge8_congr g1 g2 hd hb1 hb2 (off + 4 + 2) (by omega),
    recordByteAt_ge8_congr g1 g2 hd hb1 hb2 (off + 4 + 3) (by omega)]

theorem fastPathEarly_false_of_byteeq (env : Env) (g1 g2 : GSERIALIZED)
    (hb1 : beyondZero g1) (hb2 : beyondZero g2)
    (hbody : bodyBytes g1 = bodyBytes g2) :
    fastPathEarly env g1 g2 = false := by
  unfold fastPathEarly
  by_cases hg : fastPathGuard g1 g2 = true
  · have hgl := hg
    simp only [fastPathGuard, fastPathGuard1, Bool.and_eq_true, Bool.not_eq_true',
      beq_iff_eq, decide_eq_true_eq] at hgl
    have hnb1 : hasBBOX g1.flags = false := hgl.1.1.2
    have hnb2 : hasBBOX g2.flags = false := hgl.2.1.2
    have e1 : bodyBytes g1 = g1.data := by
      unfold bodyBytes gserialized_has_bbox
      rw [hnb1]
      simp
    have e2 : bodyBytes g2 = g2.data := by
      unfold bodyBytes gserialized_has_bbox
      rw [hnb2]
      simp
    have hd : g1.data = g2.data := by rw [← e1, ← e2, hbody]
    have hh : fastPathHash env g1 = fastPathHash env g2 := by
      unfold fastPathHash
      rw [recordU64At_ge8_congr g1 g2 hd hb1 hb2 16 (by omega),
        recordU64At_ge8_congr g1 g2 hd hb1 hb2 24 (by omega)]
    rw [hg, hh]
    simp
  · have hg' : fastPathGuard g1 g2 = false := by
      cases h : fastPathGuard g1 g2
      · rfl
      · exact absurd h hg
    rw [hg']
    simp

theorem slow_refl (env : Env) (g : GSERIALIZED) :
    gserialized_cmp_slow env g g = 0 := by
  unfold gserialized_cmp_slow
  dsimp only
  have k1 : ¬ ((gserialized_get_gbox_p env g).isNone = true ∧
      ¬ (gserialized_get_gbox_p env g).isNone = true) := fun hq => hq.2 hq.1
  have k2 : ¬ (¬ (gserialized_get_gbox_p env g).isNone = true ∧
      (gserialized_get_gbox_p env g).isNone = true) := fun hq => hq.1 hq.2
  have k3 : gserialized_cmp_srid g g = 0 := by
    unfold gserialized_cmp_srid
    rw [if_pos ⟨rfl, rfl, rfl⟩]
  rw [if_neg k1, if_neg k2, if_pos ⟨rfl, k3, memcmpSign_self _⟩]

theorem cmp_refl (env : Env) (g : GSERIALIZED) : gserialized_cmp env g g = 0 := by
  have hne : fastPathEarly env g g = false := by
    unfold fastPathEarly
    simp
  rw [cmp_eq_slow_of_not_early env g g hne]
  exact slow_refl env g

/-- C3 (amended): over well-formed records with zeroed surrounding memory whose
emptiness statuses — in the comparator's sense, i.e. whether
`gserialized_get_gbox_p` fails — agree, `gserialized_cmp` returns 0 exactly when
the three SRID bytes agree and the bodies (the bytes after the fixed header plus
any serialized bbox) are byte-identical; and the comparator is reflexive.  The
emptiness proviso is necessary: a record storing a bbox over an empty body is
treated as non-empty while its boxless twin is empty, so two records with equal
SRIDs and byte-identical bodies can compare nonzero (see the counterexample). -/
theorem c3_cmp_zero_iff_byte_equal (env : Env) (g1 g2 : GSERIALIZED)
    (hW1 : recordWF g1) (hW2 : recordWF g2)
    (hb1 : beyondZero g1) (hb2 : beyondZero g2)
    (hemp : cmpConsidersEmpty env g1 = cmpConsidersEmpty env g2) :
    (gserialized_cmp env g1 g2 = 0 ↔
      (g1.srid0 = g2.srid0 ∧ g1.srid1 = g2.srid1 ∧ g1.srid2 = g2.srid2) ∧
      bodyBytes g1 = bodyBytes g2) ∧
    gserialized_cmp env g1 g1 = 0 := by
  refine ⟨⟨fun h => ?_, fun h => ?_⟩, cmp_refl env g1⟩
  · exact (slow_zero_iff env g1 g2 hW1 hW2 hemp).mp (cmp_zero_imp_slow env g1 g2 h)
  · have hne := fastPathEarly_false_of_byteeq env g1 g2 hb1 hb2 h.2
    rw [cmp_eq_slow_of_not_early env g1 g2 hne]
    exact (slow_zero_iff env g1 g2 hW1 hW2 hemp).mpr h

/-- C3 counterexample: an empty-polygon record carrying a serialized bbox against the
same polygon without one — equal SRID bytes and byte-identical bodies, yet the
comparator returns 1, because the boxed record is treated as non-empty (its stored
box is read back) while the boxless one is empty (box computation fails on an empty
polygon). -/
theorem c3_counterexample :
    recordWFb exPolyWithBox = true ∧ recordWFb exPolyNoBox = true ∧
    exPolyWithBox.srid0 = exPolyNoBox.srid0 ∧
    exPolyWithBox.srid1 = exPolyNoBox.srid1 ∧
    exPolyWithBox.srid2 = exPolyNoBox.srid2 ∧
    bodyBytes exPolyWithBox = bodyBytes exPolyNoBox ∧
    gserialized_cmp env0 exPolyWithBox exPolyNoBox = 1 := by
  refine ⟨by decide, by decide, rfl, rfl, rfl, by decide, by decide⟩

/-- Witness for C3 at a concrete non-empty point record compared with itself. -/
theorem c3_cmp_zero_iff_byte_equal_witness :
    recordWF exPointZero ∧
    cmpConsidersEmpty env0 exPointZero = cmpConsidersEmpty env0 exPointZero ∧
    ((gserialized_cmp env0 exPointZero exPointZero = 0 ↔
      (exPointZero.srid0 = exPointZero.srid0 ∧ exPointZero.srid1 = exPointZero.srid1 ∧
        exPointZero.srid2 = exPointZero.srid2) ∧
      bodyBytes exPointZero = bodyBytes exPointZero) ∧
    gserialized_cmp env0 exPointZero exPointZero = 0) :=
  ⟨by show recordWFb exPointZero = true; decide, rfl,
    c3_cmp_zero_iff_byte_equal env0 exPointZero exPointZero
      (by show recordWFb exPointZero = true; decide)
      (by show recordWFb exPointZero = true; decide)
      (fun i => rfl) (fun i => rfl) rfl⟩

theorem byteL_append_right (l1 l2 : List Nat) (i : Nat) :
    byteL (l1 ++ l2) (l1.length + i) = byteL l2 i := by
  unfold byteL
  rw [List.getD_append_right _ _ _ _ (by omega)]
  congr 1
  omega

theorem readU32_append_right (l1 l2 : List Nat) (off : Nat) :
    readU32 (l1 ++ l2) (l1.length + off) = readU32 l2 off := by
  unfold readU32
  rw [show l1.length + off + 1 = l1.length + (off + 1) from by omega,
    show l1.length + off + 2 = l1.length + (off + 2) from by omega,
    show l1.length + off + 3 = l1.length + (off + 3) from by omega,
    byteL_append_right, byteL_append_right, byteL_append_right, byteL_append_right]

theorem length_bytesOfU32 (n : Nat) : (bytesOfU32 n).length = 4 := rfl

theorem readU32_after4 (a : Nat) (l : List Nat) (off : Nat) :
    readU32 (bytesOfU32 a ++ l) (4 + off) = readU32 l off := by
  have h := readU32_append_right (bytesOfU32 a) l off
  rw [length_bytesOfU32] at h
  exact h

theorem readU32_bytesOfU32 (a : Nat) (l : List Nat) :
    readU32 (bytesOfU32 a ++ l) 0 = a % 2^32 := by
  unfold readU32 bytesOfU32 byteL
  simp only [List.cons_append, List.nil_append, List.getD_cons_zero, List.getD_cons_succ]
  omega

theorem flagZ_le_one (f : Nat) : flagZ f ≤ 1 := Nat.and_le_right

theorem flagM_le_one (f : Nat) : flagM f ≤ 1 := by
  unfold flagM
  have h : f &&& 2 ≤ 2 := Nat.and_le_right
  rw [Nat.shiftRight_eq_div_pow]
  omega

theorem ndims_eq_of_zmOf (a b : Nat) (h : zmOf a = zmOf b) : ndims a = ndims b := by
  have za := flagZ_le_one a
  have zb := flagZ_le_one b
  have ma := flagM_le_one a
  have mb := flagM_le_one b
  unfold zmOf at h
  unfold ndims
  omega

theorem flagZ_eq_of_zmOf (a b : Nat) (h : zmOf a = zmOf b) : flagZ a = flagZ b := by
  have ha := flagZ_le_one a
  have hb := flagZ_le_one b
  have ma := flagM_le_one a
  have mb := flagM_le_one b
  unfold zmOf at h
  omega

theorem lwtype_is_collection_lt (t : Nat) (h : lwtype_is_collection t = true) :
    t < 2^32 := by
  simp only [lwtype_is_collection, MULTIPOINTTYPE, MULTILINETYPE, MULTIPOLYGONTYPE,
    COLLECTIONTYPE, CURVEPOLYTYPE, COMPOUNDTYPE, MULTICURVETYPE, MULTISURFACETYPE,
    POLYHEDRALSURFACETYPE, TINTYPE, Bool.or_eq_true, beq_iff_eq] at h
  omega

theorem validGeomB_zm (rf : Nat) (g : LWGEOM) (h : validGeomB rf g = true) :
    zmOf (geomFlags g) = zmOf rf := by
  cases g <;>
    simp only [validGeomB, geomFlags, Bool.and_eq_true, beq_iff_eq,
      decide_eq_true_eq] at h ⊢ <;>
    omega

theorem polyRingTable_length (rings : List PTARRAY) :
    (polyRingTable rings).length = 4 * rings.length := by
  induction rings with
  | nil => rfl
  | cons r rs ih =>
    simp only [polyRingTable, List.length_append, length_bytesOfU32, List.length_cons, ih]
    omega

theorem polyRingData_length (f : Nat) (rings : List PTARRAY)
    (hv : rings.all (validPAB f) = true) :
    (polyRingData (8 * ndims f) rings).length + 4 * rings.length = polyRingsSize f rings := by
  induction rings with
  | nil => rfl
  | cons r rs ih =>
    simp only [List.all_cons, Bool.and_eq_true] at hv
    have hr := hv.1
    have ih' := ih hv.2
    simp only [validPAB, Bool.and_eq_true, beq_iff_eq, decide_eq_true_eq] at hr
    have hnd : ndims r.flags = ndims f := ndims_eq_of_zmOf _ _ hr.1.1.1
    have hlen : r.pdata.length = r.npoints * (ndims r.flags * 8) := hr.1.2
    simp only [polyRingData, polyRingsSize, List.length_append, List.length_take,
      List.length_cons]
    rw [hlen, hnd,
      show r.npoints * (8 * ndims f) = r.npoints * (ndims f * 8) from by ring,
      Nat.min_self,
      show r.npoints * (ndims f * 8) = r.npoints * ndims f * 8 from by ring]
    omega

theorem lineLikeLen (f : Nat) (pa : PTARRAY) (T : Nat) (hpa : validPAB f pa = true) :
    (bytesOfU32 T ++ bytesOfU32 pa.npoints ++
      (if 0 < pa.npoints then pa.pdata.take (pa.npoints * ptarray_point_size pa)
       else [])).length = 4 + 4 + pa.npoints * ndims f * 8 := by
  simp only [validPAB, Bool.and_eq_true, beq_iff_eq, decide_eq_true_eq] at hpa
  have hnd : ndims pa.flags = ndims f := ndims_eq_of_zmOf _ _ hpa.1.1.1
  have hlen : pa.pdata.length = pa.npoints * (ndims pa.flags * 8) := hpa.1.2
  simp only [List.length_append, length_bytesOfU32]
  by_cases hn : 0 < pa.npoints
  · rw [if_pos hn]
    simp only [List.length_take]
    unfold ptarray_point_size
    rw [hlen, hnd, Nat.min_self,
      show pa.npoints * (ndims f * 8) = pa.npoints * ndims f * 8 from by ring]
  · rw [if_neg hn]
    have h0 : pa.npoints = 0 := by omega
    rw [h0]
    simp

mutual
theorem encodedLen (rf : Nat) :
    ∀ (t : LWGEOM) (body : List Nat), validGeomB rf t = true →
      gserialized_from_lwgeom_any t = some body →
      body.length = gserialized_from_any_size t
  | .lwpoint f pa, body, hv, hb => by
    simp only [validGeomB, Bool.and_eq_true, beq_iff_eq, decide_eq_true_eq] at hv
    have hpa := hv.1.2
    simp only [gserialized_from_lwgeom_any, gserialized_from_lwpoint] at hb
    have hpa' := hpa
    simp only [validPAB, Bool.and_eq_true, beq_iff_eq, decide_eq_true_eq] at hpa'
    have hzm : zmOf pa.flags = zmOf f := hpa'.1.1.1
    rw [if_neg (show ¬ zmOf f ≠ zmOf pa.flags from fun hk => hk hzm.symm)] at hb
    have hbody := Option.some.inj hb
    rw [← hbody]
    have hnd : ndims pa.flags = ndims f := ndims_eq_of_zmOf _ _ hzm
    simp only [gserialized_from_any_size, List.length_append, length_bytesOfU32]
    by_cases hn : 0 < pa.npoints
    · rw [if_pos hn]
      simp only [List.length_take]
      have h1 : pa.npoints = 1 := by omega
      unfold ptarray_point_size
      rw [hpa'.1.2, hnd, h1,
        show 1 * (ndims f * 8) = ndims f * 8 from by ring, Nat.min_self,
        show 1 * ndims f * 8 = ndims f * 8 from by ring]
    · rw [if_neg hn]
      have h0 : pa.npoints = 0 := by omega
      rw [h0]
      simp
  | .lwline f pa, body, hv, hb => by
    simp only [validGeomB, Bool.and_eq_true, beq_iff_eq, decide_eq_true_eq] at hv
    have hpa := hv.2
    have hpa' := hpa
    simp only [validPAB, Bool.and_eq_true, beq_iff_eq, decide_eq_true_eq] at hpa'
    have hzm : zmOf pa.flags = zmOf f := hpa'.1.1.1
    simp only [gserialized_from_lwgeom_any, gserialized_from_lwline] at hb
    rw [if_neg (show ¬ flagZ f ≠ flagZ pa.flags from
      fun hk => hk (flagZ_eq_of_zmOf _ _ hzm.symm))] at hb
    have hbody := Option.some.inj hb
    rw [← hbody]
    simp only [gserialized_from_any_size]
    exact lineLikeLen f pa LINETYPE hpa
  | .lwtriangle f pa, body, hv, hb => by
    simp only [validGeomB, Bool.and_eq_true, beq_iff_eq, decide_eq_true_eq] at hv
    have hpa := hv.2
    have hpa' := hpa
    simp only [validPAB, Bool.and_eq_true, beq_iff_eq, decide_eq_true_eq] at hpa'
    have hzm : zmOf pa.flags = zmOf f := hpa'.1.1.1
    simp only [gserialized_from_lwgeom_any, gserialized_from_lwtriangle] at hb
    rw [if_neg (show ¬ zmOf f ≠ zmOf pa.flags from fun hk => hk hzm.symm)] at hb
    have hbody := Option.some.inj hb
    rw [← hbody]
    simp only [gserialized_from_any_size]
    exact lineLikeLen f pa TRIANGLETYPE hpa
  | .lwcircstring f pa, body, hv, hb => by
    simp only [validGeomB, Bool.and_eq_true, beq_iff_eq, decide_eq_true_eq] at hv
    have hpa := hv.2
    have hpa' := hpa
    simp only [validPAB, Bool.and_eq_true, beq_iff_eq, decide_eq_true_eq] at hpa'
    have hzm : zmOf pa.flags = zmOf f := hpa'.1.1.1
    simp only [gserialized_from_lwgeom_any, gserialized_from_lwcircstring] at hb
    rw [if_neg (show ¬ zmOf f ≠ zmOf pa.flags from fun hk => hk hzm.symm)] at hb
    have hbody := Option.some.inj hb
    rw [← hbody]
    simp only [gserialized_from_any_size]
    exact lineLikeLen f pa CIRCSTRINGTYPE hpa
  | .lwpoly f rings, body, hv, hb => by
    simp only [validGeomB, Bool.and_eq_true, beq_iff_eq, decide_eq_true_eq] at hv
    have hall : rings.all (validPAB f) = true := hv.2
    have hok : polyRingsZMOk f rings = true := by
      unfold polyRingsZMOk
      rw [List.all_eq_true]
      intro r hr
      have hrr := List.all_eq_true.mp hall r hr
      simp only [validPAB, Bool.and_eq_true, beq_iff_eq, decide_eq_true_eq] at hrr
      simp only [beq_iff_eq]
      exact hrr.1.1.1.symm
    simp only [gserialized_from_lwgeom_any, gserialized_from_lwpoly] at hb
    rw [if_pos hok] at hb
    have hbody := Option.some.inj hb
    rw [← hbody]
    have hdl := polyRingData_length f rings hall
    simp only [gserialized_from_any_size, List.length_append, length_bytesOfU32,
      polyRingTable_length]
    by_cases hodd : rings.length % 2 = 1
    · rw [if_pos hodd, if_pos hodd]
      simp only [length_bytesOfU32]
      omega
    · rw [if_neg hodd, if_neg hodd]
      simp only [List.length_nil]
      omega
  | .lwcollection t f gs, body, hv, hb => by
    simp only [validGeomB, Bool.and_eq_true, beq_iff_eq, decide_eq_true_eq] at hv
    have hcoll : lwtype_is_collection t = true := hv.1.1.2
    have hch : validChildrenB rf t gs = true := hv.2
    simp only [gserialized_from_lwgeom_any] at hb
    rw [if_pos hcoll] at hb
    cases hw : writeCollChildren f gs with
    | none => rw [hw] at hb; simp at hb
    | some bodies =>
      rw [hw] at hb
      have hbody := Option.some.inj hb
      rw [← hbody]
      have hc := encodedLenChildren rf t f hv.1.1.1.2 gs bodies hch hw
      simp only [gserialized_from_any_size]
      rw [if_pos hcoll]
      simp only [List.length_append, length_bytesOfU32]
      omega

theorem encodedLenChildren (rf t0 f : Nat) (hzm : zmOf f = zmOf rf) :
    ∀ (gs : List LWGEOM) (bodies : List Nat), validChildrenB rf t0 gs = true →
      writeCollChildren f gs = some bodies →
      bodies.length = collectionBodySize gs
  | [], bodies, _hv, hb => by
    simp only [writeCollChildren] at hb
    have hbody := Option.some.inj hb
    rw [← hbody]
    rfl
  | g :: gs, bodies, hv, hb => by
    simp only [validChildrenB, Bool.and_eq_true] at hv
    have hvg : validGeomB rf g = true := hv.1.2
    simp only [writeCollChildren] at hb
    rw [if_neg (show ¬ zmOf f ≠ zmOf (geomFlags g) from
      fun hk => hk (hzm.trans (validGeomB_zm rf g hvg).symm))] at hb
    cases hwg : gserialized_from_lwgeom_any g with
    | none => rw [hwg] at hb; simp at hb
    | some b =>
      rw [hwg] at hb
      cases hwgs : writeCollChildren f gs with
      | none => rw [hwgs] at hb; simp at hb
      | some bs =>
        rw [hwgs] at hb
        have hbody := Option.some.inj hb
        rw [← hbody]
        have h1 := encodedLen rf g b hvg hwg
        have h2 := encodedLenChildren rf t0 f hzm gs bs hv.2 hwgs
        simp only [collectionBodySize, List.length_append]
        omega
end

mutual
theorem sizeLB (rf : Nat) :
    ∀ (t : LWGEOM), validGeomB rf t = true → 8 * nodeCount t ≤ gserialized_from_any_size t
  | .lwpoint f pa, _hv => by
    show 8 * 1 ≤ 4 + 4 + pa.npoints * ndims f * 8
    omega
  | .lwline f pa, _hv => by
    show 8 * 1 ≤ 4 + 4 + pa.npoints * ndims f * 8
    omega
  | .lwtriangle f pa, _hv => by
    show 8 * 1 ≤ 4 + 4 + pa.npoints * ndims f * 8
    omega
  | .lwcircstring f pa, _hv => by
    show 8 * 1 ≤ 4 + 4 + pa.npoints * ndims f * 8
    omega
  | .lwpoly f rings, _hv => by
    show 8 * 1 ≤ 4 + 4 + (if rings.length % 2 = 1 then 4 else 0) + polyRingsSize f rings
    omega
  | .lwcollection t f gs, hv => by
    simp only [validGeomB, Bool.and_eq_true, beq_iff_eq, decide_eq_true_eq] at hv
    have hc := sizeLBChildren rf t gs hv.2
    simp only [nodeCount, gserialized_from_any_size]
    rw [if_pos hv.1.1.2]
    omega

theorem sizeLBChildren (rf t0 : Nat) :
    ∀ (gs : List LWGEOM), validChildrenB rf t0 gs = true →
      8 * nodeCountList gs ≤ collectionBodySize gs
  | [], _hv => by simp [nodeCountList, collectionBodySize]
  | g :: gs, hv => by
    simp only [validChildrenB, Bool.and_eq_true] at hv
    have h1 := sizeLB rf g hv.1.2
    have h2 := sizeLBChildren rf t0 gs hv.2
    simp only [nodeCountList, collectionBodySize]
    omega
end

theorem readU32_at4 (a : Nat) (l : List Nat) :
    readU32 (bytesOfU32 a ++ l) 4 = readU32 l 0 := by
  have h := readU32_after4 a l 0
  norm_num at h
  exact h

theorem drop_append_cancel {p b x : List Nat} {lz : Nat} (h : p.drop lz = b ++ x) :
    p.drop (lz + b.length) = x := by
  rw [← List.drop_drop, h, List.drop_left]

theorem isEmptyRecurse_leaf (T npts fuel : Nat) (X : List Nat)
    (hT : lwtype_is_collection T = false) (hT32 : T < 2^32) (hn : npts < 2^32) :
    isEmptyRecurse (fuel + 1) (bytesOfU32 T ++ (bytesOfU32 npts ++ X)) =
      some (8, npts == 0) := by
  simp only [isEmptyRecurse]
  rw [readU32_bytesOfU32, readU32_at4, readU32_bytesOfU32,
    Nat.mod_eq_of_lt hT32, Nat.mod_eq_of_lt hn, hT]
  simp

theorem isEmptyChildren_zero (walk : List Nat → Option (Nat × Bool)) (p : List Nat)
    (lz : Nat) : isEmptyChildren walk p 0 lz = some (lz, true) := rfl

theorem isEmptyChildren_cons (walk : List Nat → Option (Nat × Bool)) (p : List Nat)
    (n lz sz : Nat) (e : Bool) (h : walk (p.drop lz) = some (sz, e)) :
    isEmptyChildren walk p (n + 1) lz =
      if e then isEmptyChildren walk p n (lz + sz) else some (lz + sz, false) := by
  simp only [isEmptyChildren]
  rw [h]

mutual
theorem isEmptyWalk (rf : Nat) :
    ∀ (t : LWGEOM) (body : List Nat), validGeomB rf t = true →
      gserialized_from_lwgeom_any t = some body →
      ∀ fuel, nodeCount t ≤ fuel → ∀ rest,
      (treeEmptyByCount t = true →
        isEmptyRecurse fuel (body ++ rest) = some (body.length, true)) ∧
      (treeEmptyByCount t = false →
        ∃ sz, isEmptyRecurse fuel (body ++ rest) = some (sz, false))
  | .lwpoint f pa, body, hv, hb => by
    intro fuel hf rest
    have hf' : 1 ≤ fuel := hf
    obtain ⟨fu, rfl⟩ : ∃ fu, fuel = fu + 1 := ⟨fuel - 1, by omega⟩
    simp only [validGeomB, Bool.and_eq_true, beq_iff_eq, decide_eq_true_eq] at hv
    have hpa := hv.1.2
    simp only [validPAB, Bool.and_eq_true, beq_iff_eq, decide_eq_true_eq] at hpa
    simp only [gserialized_from_lwgeom_any, gserialized_from_lwpoint] at hb
    rw [if_neg (show ¬ zmOf f ≠ zmOf pa.flags from fun hk => hk hpa.1.1.1.symm)] at hb
    have hbody := Option.some.inj hb
    rw [← hbody]
    have hsh : (bytesOfU32 POINTTYPE ++ bytesOfU32 pa.npoints ++
        (if 0 < pa.npoints then pa.pdata.take (ptarray_point_size pa) else [])) ++ rest =
        bytesOfU32 POINTTYPE ++ (bytesOfU32 pa.npoints ++
        ((if 0 < pa.npoints then pa.pdata.take (ptarray_point_size pa) else []) ++ rest)) := by
      simp [List.append_assoc]
    rw [hsh, isEmptyRecurse_leaf POINTTYPE pa.npoints fu _ (by decide) (by decide)
      (by have := hpa.1.1.2; omega)]
    constructor
    · intro he
      simp only [treeEmptyByCount, beq_iff_eq] at he
      rw [he]
      simp [length_bytesOfU32]
    · intro he
      simp only [treeEmptyByCount] at he
      exact ⟨8, by rw [he]⟩
  | .lwline f pa, body, hv, hb => by
    intro fuel hf rest
    have hf' : 1 ≤ fuel := hf
    obtain ⟨fu, rfl⟩ : ∃ fu, fuel = fu + 1 := ⟨fuel - 1, by omega⟩
    simp only [validGeomB, Bool.and_eq_true, beq_iff_eq, decide_eq_true_eq] at hv
    have hpa := hv.2
    simp only [validPAB, Bool.and_eq_true, beq_iff_eq, decide_eq_true_eq] at hpa
    simp only [gserialized_from_lwgeom_any, gserialized_from_lwline] at hb
    rw [if_neg (show ¬ flagZ f ≠ flagZ pa.flags from
      fun hk => hk (flagZ_eq_of_zmOf _ _ hpa.1.1.1.symm))] at hb
    have hbody := Option.some.inj hb
    rw [← hbody]
    have hsh : (bytesOfU32 LINETYPE ++ bytesOfU32 pa.npoints ++
        (if 0 < pa.npoints then pa.pdata.take (pa.npoints * ptarray_point_size pa) else [])) ++ rest =
        bytesOfU32 LINETYPE ++ (bytesOfU32 pa.npoints ++
        ((if 0 < pa.npoints then pa.pdata.take (pa.npoints * ptarray_point_size pa) else []) ++ rest)) := by
      simp [List.append_assoc]
    rw [hsh, isEmptyRecurse_leaf LINETYPE pa.npoints fu _ (by decide) (by decide)
      (by have := hpa.1.1.2; omega)]
    constructor
    · intro he
      simp only [treeEmptyByCount, beq_iff_eq] at he
      rw [he]
      simp [length_bytesOfU32]
    · intro he
      simp only [treeEmptyByCount] at he
      exact ⟨8, by rw [he]⟩
  | .lwtriangle f pa, body, hv, hb => by
    intro fuel hf rest
    have hf' : 1 ≤ fuel := hf
    obtain ⟨fu, rfl⟩ : ∃ fu, fuel = fu + 1 := ⟨fuel - 1, by omega⟩
    simp only [validGeomB, Bool.and_eq_true, beq_iff_eq, decide_eq_true_eq] at hv
    have hpa := hv.2
    simp only [validPAB, Bool.and_eq_true, beq_iff_eq, decide_eq_true_eq] at hpa
    simp only [gserialized_from_lwgeom_any, gserialized_from_lwtriangle] at hb
    rw [if_neg (show ¬ zmOf f ≠ zmOf pa.flags from fun hk => hk hpa.1.1.1.symm)] at hb
    have hbody := Option.some.inj hb
    rw [← hbody]
    have hsh : (bytesOfU32 TRIANGLETYPE ++ bytesOfU32 pa.npoints ++
        (if 0 < pa.npoints then pa.pdata.take (pa.npoints * ptarray_point_size pa) else [])) ++ rest =
        bytesOfU32 TRIANGLETYPE ++ (bytesOfU32 pa.npoints ++
        ((if 0 < pa.npoints then pa.pdata.take (pa.npoints * ptarray_point_size pa) else []) ++ rest)) := by
      simp [List.append_assoc]
    rw [hsh, isEmptyRecurse_leaf TRIANGLETYPE pa.npoints fu _ (by decide) (by decide)
      (by have := hpa.1.1.2; omega)]
    constructor
    · intro he
      simp only [treeEmptyByCount, beq_iff_eq] at he
      rw [he]
      simp [length_bytesOfU32]
    · intro he
      simp only [treeEmptyByCount] at he
      exact ⟨8, by rw [he]⟩
  | .lwcircstring f pa, body, hv, hb => by
    intro fuel hf rest
    have hf' : 1 ≤ fuel := hf
    obtain ⟨fu, rfl⟩ : ∃ fu, fuel = fu + 1 := ⟨fuel - 1, by omega⟩
    simp only [validGeomB, Bool.and_eq_true, beq_iff_eq, decide_eq_true_eq] at hv
    have hpa := hv.2
    simp only [validPAB, Bool.and_eq_true, beq_iff_eq, decide_eq_true_eq] at hpa
    simp only [gserialized_from_lwgeom_any, gserialized_from_lwcircstring] at hb
    rw [if_neg (show ¬ zmOf f ≠ zmOf pa.flags from fun hk => hk hpa.1.1.1.symm)] at hb
    have hbody := Option.some.inj hb
    rw [← hbody]
    have hsh : (bytesOfU32 CIRCSTRINGTYPE ++ bytesOfU32 pa.npoints ++
        (if 0 < pa.npoints then pa.pdata.take (pa.npoints * ptarray_point_size pa) else [])) ++ rest =
        bytesOfU32 CIRCSTRINGTYPE ++ (bytesOfU32 pa.npoints ++
        ((if 0 < pa.npoints then pa.pdata.take (pa.npoints * ptarray_point_size pa) else []) ++ rest)) := by
      simp [List.append_assoc]
    rw [hsh, isEmptyRecurse_leaf CIRCSTRINGTYPE pa.npoints fu _ (by decide) (by decide)
      (by have := hpa.1.1.2; omega)]
    constructor
    · intro he
      simp only [treeEmptyByCount, beq_iff_eq] at he
      rw [he]
      simp [length_bytesOfU32]
    · intro he
      simp only [treeEmptyByCount] at he
      exact ⟨8, by rw [he]⟩
  | .lwpoly f rings, body, hv, hb => by
    intro fuel hf rest
    have hf' : 1 ≤ fuel := hf
    obtain ⟨fu, rfl⟩ : ∃ fu, fuel = fu + 1 := ⟨fuel - 1, by omega⟩
    simp only [validGeomB, Bool.and_eq_true, beq_iff_eq, decide_eq_true_eq] at hv
    have hok : polyRingsZMOk f rings = true := by
      unfold polyRingsZMOk
      rw [List.all_eq_true]
      intro r hr
      have hrr := List.all_eq_true.mp hv.2 r hr
      simp only [validPAB, Bool.and_eq_true, beq_iff_eq, decide_eq_true_eq] at hrr
      simp only [beq_iff_eq]
      exact hrr.1.1.1.symm
    simp only [gserialized_from_lwgeom_any, gserialized_from_lwpoly] at hb
    rw [if_pos hok] at hb
    have hbody := Option.some.inj hb
    rw [← hbody]
    have hsh : (bytesOfU32 POLYGONTYPE ++ bytesOfU32 rings.length ++ polyRingTable rings ++
        (if rings.length % 2 = 1 then bytesOfU32 0 else []) ++
        polyRingData (8 * ndims f) rings) ++ rest =
        bytesOfU32 POLYGONTYPE ++ (bytesOfU32 rings.length ++
        (polyRingTable rings ++ ((if rings.length % 2 = 1 then bytesOfU32 0 else []) ++
        (polyRingData (8 * ndims f) rings ++ rest)))) := by
      simp [List.append_assoc]
    rw [hsh, isEmptyRecurse_leaf POLYGONTYPE rings.length fu _ (by decide) (by decide)
      (by have := hv.1.2; omega)]
    constructor
    · intro he
      simp only [treeEmptyByCount, beq_iff_eq] at he
      have he' : rings = [] := List.length_eq_zero.mp he
      subst he'
      simp [polyRingTable, polyRingData, length_bytesOfU32]
    · intro he
      simp only [treeEmptyByCount] at he
      exact ⟨8, by rw [he]⟩
  | .lwcollection t f gs, body, hv, hb => by
    intro fuel hf rest
    have hf' : 1 + nodeCountList gs ≤ fuel := hf
    obtain ⟨fu, rfl⟩ : ∃ fu, fuel = fu + 1 := ⟨fuel - 1, by omega⟩
    simp only [validGeomB, Bool.and_eq_true, beq_iff_eq, decide_eq_true_eq] at hv
    have hcoll : lwtype_is_collection t = true := hv.1.1.2
    simp only [gserialized_from_lwgeom_any] at hb
    rw [if_pos hcoll] at hb
    cases hw : writeCollChildren f gs with
    | none => rw [hw] at hb; simp at hb
    | some bodies =>
      rw [hw] at hb
      have hbody := Option.some.inj hb
      rw [← hbody]
      have hsh : (bytesOfU32 t ++ bytesOfU32 gs.length ++ bodies) ++ rest =
          bytesOfU32 t ++ (bytesOfU32 gs.length ++ (bodies ++ rest)) := by
        simp [List.append_assoc]
      rw [hsh]
      simp only [isEmptyRecurse]
      rw [readU32_bytesOfU32, readU32_at4, readU32_bytesOfU32,
        Nat.mod_eq_of_lt (lwtype_is_collection_lt t hcoll),
        Nat.mod_eq_of_lt (show gs.length < 2^32 from by have := hv.1.2; omega), hcoll,
        if_pos rfl]
      have hcw := isEmptyWalkChildren rf t f hv.1.1.1.2 gs bodies hv.2 hw fu
        (by omega) (bytesOfU32 t ++ (bytesOfU32 gs.length ++ (bodies ++ rest))) 8 rest rfl
      constructor
      · intro he
        simp only [treeEmptyByCount] at he
        rw [hcw.1 he]
        simp only [List.length_append, length_bytesOfU32, Option.some.injEq,
          Prod.mk.injEq, and_true]
      · intro he
        simp only [treeEmptyByCount] at he
        obtain ⟨sz, hsz⟩ := hcw.2 he
        exact ⟨sz, hsz⟩

theorem isEmptyWalkChildren (rf t0 f : Nat) (hzm : zmOf f = zmOf rf) :
    ∀ (gs : List LWGEOM) (bodies : List Nat), validChildrenB rf t0 gs = true →
      writeCollChildren f gs = some bodies →
      ∀ fuel, nodeCountList gs ≤ fuel → ∀ (p : List Nat) (lz : Nat) (rest : List Nat),
        p.drop lz = bodies ++ rest →
        (treeEmptyByCountList gs = true →
          isEmptyChildren (isEmptyRecurse fuel) p gs.length lz =
            some (lz + bodies.length, true)) ∧
        (treeEmptyByCountList gs = false →
          ∃ sz, isEmptyChildren (isEmptyRecurse fuel) p gs.length lz = some (sz, false))
  | [], bodies, _hv, hb => by
    intro fuel _hf p lz rest _hp
    simp only [writeCollChildren] at hb
    have hbody := Option.some.inj hb
    constructor
    · intro _
      rw [← hbody]
      simp [isEmptyChildren_zero]
    · intro he
      simp [treeEmptyByCountList] at he
  | g :: gs, bodies, hv, hb => by
    intro fuel hf p lz rest hp
    simp only [validChildrenB, Bool.and_eq_true] at hv
    have hvg : validGeomB rf g = true := hv.1.2
    simp only [writeCollChildren] at hb
    rw [if_neg (show ¬ zmOf f ≠ zmOf (geomFlags g) from
      fun hk => hk (hzm.trans (validGeomB_zm rf g hvg).symm))] at hb
    cases hwg : gserialized_from_lwgeom_any g with
    | none => rw [hwg] at hb; simp at hb
    | some b =>
      rw [hwg] at hb
      cases hwgs : writeCollChildren f gs with
      | none => rw [hwgs] at hb; simp at hb
      | some bs =>
        rw [hwgs] at hb
        have hbody := Option.some.inj hb
        have hf1 : nodeCountList (g :: gs) ≤ fuel := hf
        have hncc : nodeCount g + nodeCountList gs ≤ fuel := hf1
        have hp' : p.drop lz = b ++ (bs ++ rest) := by
          rw [hp, ← hbody]
          simp [List.append_assoc]
        have hwalk := isEmptyWalk rf g b hvg hwg fuel (by omega) (bs ++ rest)
        have hIH := isEmptyWalkChildren rf t0 f hzm gs bs hv.2 hwgs fuel (by omega)
          p (lz + b.length) rest (drop_append_cancel hp')
        constructor
        · intro he
          simp only [treeEmptyByCountList, Bool.and_eq_true] at he
          have h1 := hwalk.1 he.1
          simp only [List.length_cons]
          rw [isEmptyChildren_cons (isEmptyRecurse fuel) p gs.length lz b.length true
            (by rw [hp']; exact h1), if_pos rfl, hIH.1 he.2, ← hbody]
          simp only [List.length_append, Option.some.injEq, Prod.mk.injEq, and_true]
          omega
        · intro he
          cases heg : treeEmptyByCount g with
          | false =>
            obtain ⟨sz, hsz⟩ := hwalk.2 heg
            refine ⟨lz + sz, ?_⟩
            simp only [List.length_cons]
            rw [isEmptyChildren_cons (isEmptyRecurse fuel) p gs.length lz sz false
              (by rw [hp']; exact hsz)]
            simp
          | true =>
            have heg' : treeEmptyByCountList gs = false := by
              simp only [treeEmptyByCountList, heg, Bool.true_and] at he
              exact he
            have h1 := hwalk.1 heg
            obtain ⟨sz, hsz⟩ := hIH.2 heg'
            refine ⟨sz, ?_⟩
            simp only [List.length_cons]
            rw [isEmptyChildren_cons (isEmptyRecurse fuel) p gs.length lz b.length true
              (by rw [hp']; exact h1), if_pos rfl]
            exact hsz
end

/-- C10 (amended): for a well-formed serialized body (one the serializer produces
from a valid geometry tree), `gserialized_is_empty` computes emptiness *by count
words*: a leaf is empty exactly when its count word (`npoints`, or `nrings` for
polygons) is zero and a collection exactly when all its children are recursively
empty, i.e. the result equals `treeEmptyByCount` of the tree.  This is *not* the
same as "contains no coordinates": a polygon with one zero-point ring has no
coordinates at all yet a nonzero `nrings` word, so `gserialized_is_empty` returns
false on it (see the counterexample). -/
theorem c10_is_empty_eq_count_empty (rf : Nat) (t : LWGEOM) (body : List Nat)
    (g : GSERIALIZED) (hv : validGeomB rf t = true)
    (hb : gserialized_from_lwgeom_any t = some body)
    (hdata : g.data.drop (if hasBBOX g.flags then gbox_serialized_size g.flags else 0)
      = body) :
    gserialized_is_empty g = treeEmptyByCount t := by
  unfold gserialized_is_empty
  dsimp only
  rw [hdata]
  have hfuel : nodeCount t ≤ body.length + 1 := by
    have h1 := encodedLen rf t body hv hb
    have h2 := sizeLB rf t hv
    omega
  have hw := isEmptyWalk rf t body hv hb (body.length + 1) hfuel []
  rw [List.append_nil] at hw
  cases he : treeEmptyByCount t with
  | true => rw [hw.1 he]
  | false =>
    obtain ⟨sz, hsz⟩ := hw.2 he
    rw [hsz]

/-- C10 counterexample: a polygon record with one zero-point ring carries no
coordinates at all (`coordByteCount` of its tree is 0, and the tree is empty in the
`lwgeom_is_empty` sense), yet `gserialized_is_empty` answers false because the
`nrings` count word is 1. -/
theorem c10_counterexample :
    validGeomB 0 tPolyDeg = true ∧
    gserialized_from_lwgeom_any tPolyDeg = some polyDegBody ∧
    exPolyDeg.data = polyDegBody ∧
    hasBBOX exPolyDeg.flags = false ∧
    coordByteCount tPolyDeg = 0 ∧
    lwgeom_is_empty tPolyDeg = true ∧
    gserialized_is_empty exPolyDeg = false := by
  refine ⟨by decide, by decide, by decide, by decide, by decide, by decide, by decide⟩

/-- Witness for C10 at the empty MultiPoint record. -/
theorem c10_is_empty_eq_count_empty_witness :
    validGeomB 0 tMpEmpty = true ∧
    gserialized_from_lwgeom_any tMpEmpty = some mpEmptyBody ∧
    exMpEmpty.data.drop
      (if hasBBOX exMpEmpty.flags then gbox_serialized_size exMpEmpty.flags else 0)
      = mpEmptyBody ∧
    gserialized_is_empty exMpEmpty = treeEmptyByCount tMpEmpty :=
  ⟨by decide, by decide, by decide,
    c10_is_empty_eq_count_empty 0 tMpEmpty mpEmptyBody exMpEmpty
      (by decide) (by decide) (by decide)⟩

theorem geomFlags_set (t : LWGEOM) (nf : Nat) : geomFlags (setGeomFlags t nf) = nf := by
  cases t <;> rfl

set_option maxRecDepth 4096 in
theorem setFlagBBOX_bits :
    ∀ f, f < 2^8 → ∀ v : Bool,
      flagZ (setFlagBBOX f v) = flagZ f ∧ flagM (setFlagBBOX f v) = flagM f ∧
      flagGeodetic (setFlagBBOX f v) = flagGeodetic f ∧
      hasBBOX (setFlagBBOX f v) = v ∧ setFlagBBOX f v < 2^8 := by
  decide

theorem setFlagBBOX_zm (f : Nat) (hf : f < 2^8) (v : Bool) :
    zmOf (setFlagBBOX f v) = zmOf f := by
  have h := setFlagBBOX_bits f hf v
  unfold zmOf
  rw [h.1, h.2.1]

theorem validGeomB_flagLt (rf : Nat) (g : LWGEOM) (h : validGeomB rf g = true) :
    geomFlags g < 2^8 := by
  cases g <;>
    simp only [validGeomB, geomFlags, Bool.and_eq_true, beq_iff_eq,
      decide_eq_true_eq] at h ⊢ <;>
    omega

theorem validPAB_congr (f f' : Nat) (pa : PTARRAY) (hzm : zmOf f' = zmOf f)
    (h : validPAB f pa = true) : validPAB f' pa = true := by
  simp only [validPAB, Bool.and_eq_true, beq_iff_eq, decide_eq_true_eq] at h ⊢
  exact ⟨⟨⟨h.1.1.1.trans hzm.symm, h.1.1.2⟩, h.1.2⟩, h.2⟩

mutual
theorem validGeomB_refCongr (rf rf' : Nat) (h : zmOf rf = zmOf rf') :
    ∀ t, validGeomB rf t = validGeomB rf' t
  | .lwpoint f pa => by simp only [validGeomB, h]
  | .lwline f pa => by simp only [validGeomB, h]
  | .lwtriangle f pa => by simp only [validGeomB, h]
  | .lwcircstring f pa => by simp only [validGeomB, h]
  | .lwpoly f rings => by simp only [validGeomB, h]
  | .lwcollection t f gs => by
    simp only [validGeomB, h, validChildrenB_refCongr rf rf' t h gs]

theorem validChildrenB_refCongr (rf rf' t0 : Nat) (h : zmOf rf = zmOf rf') :
    ∀ gs, validChildrenB rf t0 gs = validChildrenB rf' t0 gs
  | [] => rfl
  | g :: gs => by
    simp only [validChildrenB, validGeomB_refCongr rf rf' h g,
      validChildrenB_refCongr rf rf' t0 h gs]
end

theorem validGeomB_setRoot (t : LWGEOM) (nf rf : Nat) (hv : validGeomB rf t = true)
    (hnf : nf < 2^8) (hzm : zmOf nf = zmOf rf) :
    validGeomB nf (setGeomFlags t nf) = true := by
  cases t with
  | lwpoint f pa =>
    simp only [validGeomB, Bool.and_eq_true, beq_iff_eq, decide_eq_true_eq] at hv
    obtain ⟨⟨⟨hf8, hzf⟩, hpab⟩, hn1⟩ := hv
    simp only [setGeomFlags, validGeomB, Bool.and_eq_true, beq_iff_eq,
      decide_eq_true_eq]
    refine ⟨⟨⟨hnf, by trivial⟩, validPAB_congr f nf pa (hzm.trans hzf.symm) hpab⟩, hn1⟩
  | lwline f pa =>
    simp only [validGeomB, Bool.and_eq_true, beq_iff_eq, decide_eq_true_eq] at hv
    obtain ⟨⟨hf8, hzf⟩, hpab⟩ := hv
    simp only [setGeomFlags, validGeomB, Bool.and_eq_true, beq_iff_eq,
      decide_eq_true_eq]
    refine ⟨⟨hnf, by trivial⟩, validPAB_congr f nf pa (hzm.trans hzf.symm) hpab⟩
  | lwtriangle f pa =>
    simp only [validGeomB, Bool.and_eq_true, beq_iff_eq, decide_eq_true_eq] at hv
    obtain ⟨⟨hf8, hzf⟩, hpab⟩ := hv
    simp only [setGeomFlags, validGeomB, Bool.and_eq_true, beq_iff_eq,
      decide_eq_true_eq]
    refine ⟨⟨hnf, by trivial⟩, validPAB_congr f nf pa (hzm.trans hzf.symm) hpab⟩
  | lwcircstring f pa =>
    simp only [validGeomB, Bool.and_eq_true, beq_iff_eq, decide_eq_true_eq] at hv
    obtain ⟨⟨hf8, hzf⟩, hpab⟩ := hv
    simp only [setGeomFlags, validGeomB, Bool.and_eq_true, beq_iff_eq,
      decide_eq_true_eq]
    refine ⟨⟨hnf, by trivial⟩, validPAB_congr f nf pa (hzm.trans hzf.symm) hpab⟩
  | lwpoly f rings =>
    simp only [validGeomB, Bool.and_eq_true, beq_iff_eq, decide_eq_true_eq] at hv
    obtain ⟨⟨⟨hf8, hzf⟩, hlen⟩, hall⟩ := hv
    simp only [setGeomFlags, validGeomB, Bool.and_eq_true, beq_iff_eq,
      decide_eq_true_eq]
    refine ⟨⟨⟨hnf, by trivial⟩, hlen⟩, ?_⟩
    rw [List.all_eq_true]
    intro r hr
    exact validPAB_congr f nf r (hzm.trans hzf.symm) (List.all_eq_true.mp hall r hr)
  | lwcollection ct f gs =>
    simp only [validGeomB, Bool.and_eq_true, beq_iff_eq, decide_eq_true_eq] at hv
    obtain ⟨⟨⟨⟨hf8, hzf⟩, hcoll⟩, hlen⟩, hch⟩ := hv
    simp only [setGeomFlags, validGeomB, Bool.and_eq_true, beq_iff_eq,
      decide_eq_true_eq]
    refine ⟨⟨⟨⟨hnf, by trivial⟩, hcoll⟩, hlen⟩, ?_⟩
    rw [← validChildrenB_refCongr rf nf ct hzm.symm gs]
    exact hch

mutual
theorem writerOk (rf : Nat) :
    ∀ t, validGeomB rf t = true → ∃ body, gserialized_from_lwgeom_any t = some body
  | .lwpoint f pa, hv => by
    simp only [validGeomB, Bool.and_eq_true, beq_iff_eq, decide_eq_true_eq] at hv
    have hpa := hv.1.2
    simp only [validPAB, Bool.and_eq_true, beq_iff_eq, decide_eq_true_eq] at hpa
    simp only [gserialized_from_lwgeom_any, gserialized_from_lwpoint]
    rw [if_neg (show ¬ zmOf f ≠ zmOf pa.flags from fun hk => hk hpa.1.1.1.symm)]
    exact ⟨_, rfl⟩
  | .lwline f pa, hv => by
    simp only [validGeomB, Bool.and_eq_true, beq_iff_eq, decide_eq_true_eq] at hv
    have hpa := hv.2
    simp only [validPAB, Bool.and_eq_true, beq_iff_eq, decide_eq_true_eq] at hpa
    simp only [gserialized_from_lwgeom_any, gserialized_from_lwline]
    rw [if_neg (show ¬ flagZ f ≠ flagZ pa.flags from
      fun hk => hk (flagZ_eq_of_zmOf _ _ hpa.1.1.1.symm))]
    exact ⟨_, rfl⟩
  | .lwtriangle f pa, hv => by
    simp only [validGeomB, Bool.and_eq_true, beq_iff_eq, decide_eq_true_eq] at hv
    have hpa := hv.2
    simp only [validPAB, Bool.and_eq_true, beq_iff_eq, decide_eq_true_eq] at hpa
    simp only [gserialized_from_lwgeom_any, gserialized_from_lwtriangle]
    rw [if_neg (show ¬ zmOf f ≠ zmOf pa.flags from fun hk => hk hpa.1.1.1.symm)]
    exact ⟨_, rfl⟩
  | .lwcircstring f pa, hv => by
    simp only [validGeomB, Bool.and_eq_true, beq_iff_eq, decide_eq_true_eq] at hv
    have hpa := hv.2
    simp only [validPAB, Bool.and_eq_true, beq_iff_eq, decide_eq_true_eq] at hpa
    simp only [gserialized_from_lwgeom_any, gserialized_from_lwcircstring]
    rw [if_neg (show ¬ zmOf f ≠ zmOf pa.flags from fun hk => hk hpa.1.1.1.symm)]
    exact ⟨_, rfl⟩
  | .lwpoly f rings, hv => by
    simp only [validGeomB, Bool.and_eq_true, beq_iff_eq, decide_eq_true_eq] at hv
    have hok : polyRingsZMOk f rings = true := by
      unfold polyRingsZMOk
      rw [List.all_eq_true]
      intro r hr
      have hrr := List.all_eq_true.mp hv.2 r hr
      simp only [validPAB, Bool.and_eq_true, beq_iff_eq, decide_eq_true_eq] at hrr
      simp only [beq_iff_eq]
      exact hrr.1.1.1.symm
    simp only [gserialized_from_lwgeom_any, gserialized_from_lwpoly]
    rw [if_pos hok]
    exact ⟨_, rfl⟩
  | .lwcollection t f gs, hv => by
    simp only [validGeomB, Bool.and_eq_true, beq_iff_eq, decide_eq_true_eq] at hv
    obtain ⟨bodies, hw⟩ := writerOkChildren rf t f hv.1.1.1.2 gs hv.2
    simp only [gserialized_from_lwgeom_any]
    rw [if_pos hv.1.1.2, hw]
    exact ⟨_, rfl⟩

theorem writerOkChildren (rf t0 f : Nat) (hzm : zmOf f = zmOf rf) :
    ∀ gs, validChildrenB rf t0 gs = true → ∃ bodies, writeCollChildren f gs = some bodies
  | [], _hv => ⟨[], rfl⟩
  | g :: gs, hv => by
    simp only [validChildrenB, Bool.and_eq_true] at hv
    have hvg : validGeomB rf g = true := hv.1.2
    obtain ⟨b, hwg⟩ := writerOk rf g hvg
    obtain ⟨bs, hwgs⟩ := writerOkChildren rf t0 f hzm gs hv.2
    simp only [writeCollChildren]
    rw [if_neg (show ¬ zmOf f ≠ zmOf (geomFlags g) from
      fun hk => hk (hzm.trans (validGeomB_zm rf g hvg).symm)), hwg, hwgs]
    exact ⟨_, rfl⟩
end

theorem from_gbox_length (env : Env) (b : GBOX) :
    (gserialized_from_gbox env b).length = gbox_serialized_size b.flags := by
  unfold gserialized_from_gbox gbox_serialized_size
  have hz := flagZ_le_one b.flags
  have hm := flagM_le_one b.flags
  by_cases hg : isGeodetic b.flags = true
  · rw [if_pos hg, if_pos hg]
    simp [length_bytesOfU32]
  · rw [if_neg hg, if_neg hg]
    unfold ndims
    by_cases hbz : hasZ b.flags = true
    · have hz1 : flagZ b.flags = 1 := by
        unfold hasZ at hbz
        simp only [bne_iff_ne, ne_eq] at hbz
        omega
      by_cases hbm : hasM b.flags = true
      · have hm1 : flagM b.flags = 1 := by
          unfold hasM at hbm
          simp only [bne_iff_ne, ne_eq] at hbm
          omega
        rw [if_pos hbz, if_pos hbm, hz1, hm1]
        simp [length_bytesOfU32]
      · have hm0 : flagM b.flags = 0 := by
          unfold hasM at hbm
          simp only [bne_iff_ne, ne_eq, Decidable.not_not] at hbm
          omega
        rw [if_pos hbz, if_neg hbm, hz1, hm0]
        simp [length_bytesOfU32]
    · have hz0 : flagZ b.flags = 0 := by
        unfold hasZ at hbz
        simp only [bne_iff_ne, ne_eq, Decidable.not_not] at hbz
        omega
      by_cases hbm : hasM b.flags = true
      · have hm1 : flagM b.flags = 1 := by
          unfold hasM at hbm
          simp only [bne_iff_ne, ne_eq] at hbm
          omega
        rw [if_neg hbz, if_pos hbm, hz0, hm1]
        simp [length_bytesOfU32]
      · have hm0 : flagM b.flags = 0 := by
          unfold hasM at hbm
          simp only [bne_iff_ne, ne_eq, Decidable.not_not] at hbm
          omega
        rw [if_neg hbz, if_neg hbm, hz0, hm0]
        simp [length_bytesOfU32]

theorem gbox_size_congr (a b : Nat) (hz : flagZ a = flagZ b) (hm : flagM a = flagM b)
    (hg : flagGeodetic a = flagGeodetic b) :
    gbox_serialized_size a = gbox_serialized_size b := by
  unfold gbox_serialized_size isGeodetic ndims
  rw [hz, hm, hg]

theorem set_srid_size (g : GSERIALIZED) (s : Int) :
    (gserialized_set_srid g s).size = g.size := rfl

theorem set_srid_data (g : GSERIALIZED) (s : Int) :
    (gserialized_set_srid g s).data = g.data := rfl

theorem add_bbox_geom (env : Env) (G : LWFULL) : (lwgeom_add_bbox env G).geom = G.geom := by
  unfold lwgeom_add_bbox
  split <;> rfl

theorem from_lwgeom_writes_sizeOf (env : Env) (G : LWFULL) (hv : validFullB G = true)
    (hcalc : ∀ t b, env.calcGbox t = some b →
      flagZ b.flags = flagZ (geomFlags t) ∧ flagM b.flags = flagM (geomFlags t) ∧
      flagGeodetic b.flags = flagGeodetic (geomFlags t)) :
    ∃ g, gserialized_from_lwgeom env G = some g ∧
      8 + g.data.length = gserialized_from_lwgeom_size
        (let G1 := if G.bbox.isNone && env.needsBbox G.geom && !(lwgeom_is_empty G.geom)
            then lwgeom_add_bbox env G else G;
         { G1 with geom := setGeomFlags G1.geom (setFlagBBOX (geomFlags G1.geom) G1.bbox.isSome) }) ∧
      g.size = (8 + g.data.length) <<< 2 ∧ SIZE_GET g.size = 8 + g.data.length := by
  simp only [validFullB, Bool.and_eq_true, decide_eq_true_eq] at hv
  obtain ⟨⟨⟨hvG, hs1⟩, hs2⟩, hbx⟩ := hv
  unfold gserialized_from_lwgeom
  dsimp only
  set H : LWFULL := if G.bbox.isNone && env.needsBbox G.geom && !(lwgeom_is_empty G.geom)
    then lwgeom_add_bbox env G else G with hH
  have hHgeom : H.geom = G.geom := by
    rw [hH]
    split
    · exact add_bbox_geom env G
    · rfl
  have hHbox : ∀ b, H.bbox = some b →
      flagZ b.flags = flagZ (geomFlags G.geom) ∧
      flagM b.flags = flagM (geomFlags G.geom) ∧
      flagGeodetic b.flags = flagGeodetic (geomFlags G.geom) := by
    intro b hb
    rw [hH] at hb
    by_cases hc : (G.bbox.isNone && env.needsBbox G.geom && !(lwgeom_is_empty G.geom)) = true
    · rw [if_pos hc] at hb
      unfold lwgeom_add_bbox at hb
      by_cases hbs : G.bbox.isSome = true
      · rw [if_pos hbs] at hb
        rw [hb] at hbx
        simp only [Bool.and_eq_true, beq_iff_eq] at hbx
        exact ⟨hbx.1.1, hbx.1.2, hbx.2⟩
      · rw [if_neg hbs] at hb
        dsimp only at hb
        exact hcalc G.geom b hb
    · rw [if_neg hc] at hb
      rw [hb] at hbx
      simp only [Bool.and_eq_true, beq_iff_eq] at hbx
      exact ⟨hbx.1.1, hbx.1.2, hbx.2⟩
  have hfl8 : geomFlags G.geom < 2^8 := validGeomB_flagLt _ _ hvG
  have hfl8H : geomFlags H.geom < 2^8 := by rw [hHgeom]; exact hfl8
  have hbits := setFlagBBOX_bits (geomFlags H.geom) hfl8H H.bbox.isSome
  have hzmr := setFlagBBOX_zm (geomFlags H.geom) hfl8H H.bbox.isSome
  have hvH : validGeomB (geomFlags H.geom) H.geom = true := by rw [hHgeom]; exact hvG
  have hvGH : validGeomB (setFlagBBOX (geomFlags H.geom) H.bbox.isSome)
      (setGeomFlags H.geom (setFlagBBOX (geomFlags H.geom) H.bbox.isSome)) = true :=
    validGeomB_setRoot H.geom _ (geomFlags H.geom) hvH hbits.2.2.2.2 hzmr
  obtain ⟨body, hbody⟩ := writerOk _ _ hvGH
  have hlen := encodedLen _ _ body hvGH hbody
  simp only [hbody]
  have hexp : gserialized_from_lwgeom_size { srid := H.srid, bbox := H.bbox, geom := setGeomFlags H.geom (setFlagBBOX (geomFlags H.geom) H.bbox.isSome) } =
      8 + (if H.bbox.isSome then
        gbox_serialized_size (setFlagBBOX (geomFlags H.geom) H.bbox.isSome) else 0) +
      gserialized_from_any_size
        (setGeomFlags H.geom (setFlagBBOX (geomFlags H.geom) H.bbox.isSome)) := by
    unfold gserialized_from_lwgeom_size
    dsimp only
    rw [geomFlags_set]
  have hml : (match H.bbox with
      | some b => gserialized_from_gbox env b
      | none => []).length =
      (if H.bbox.isSome then
        gbox_serialized_size (setFlagBBOX (geomFlags H.geom) H.bbox.isSome) else 0) := by
    cases hbb : H.bbox with
    | none => simp
    | some b =>
      simp only [Option.isSome_some, if_true]
      rw [from_gbox_length]
      obtain ⟨hfz, hfm, hfg⟩ := hHbox b hbb
      simp only [hbb, Option.isSome_some] at hbits
      exact gbox_size_congr b.flags (setFlagBBOX (geomFlags H.geom) true)
        (by rw [hfz, ← hHgeom]; exact hbits.1.symm)
        (by rw [hfm, ← hHgeom]; exact hbits.2.1.symm)
        (by rw [hfg, ← hHgeom]; exact hbits.2.2.1.symm)
  rw [hexp, hml]
  have hne : ¬ (8 + (if H.bbox.isSome then
      gbox_serialized_size (setFlagBBOX (geomFlags H.geom) H.bbox.isSome) else 0) +
      body.length ≠
      8 + (if H.bbox.isSome then
        gbox_serialized_size (setFlagBBOX (geomFlags H.geom) H.bbox.isSome) else 0) +
      gserialized_from_any_size
        (setGeomFlags H.geom (setFlagBBOX (geomFlags H.geom) H.bbox.isSome))) := by
    rw [hlen]
    exact fun hk => hk rfl
  rw [if_neg hne]
  refine ⟨_, rfl, ?_, ?_, ?_⟩
  · rw [set_srid_data]
    dsimp only
    simp only [List.length_append]
    rw [hml, hlen]
    omega
  · rw [set_srid_size, set_srid_data]
    dsimp only
    simp only [List.length_append]
    congr 1
    rw [hml]
    omega
  · rw [set_srid_size, set_srid_data]
    dsimp only
    rw [sizeGet_shiftLeft]
    simp only [List.length_append]
    rw [hml]
    omega

/-- C7: for every valid geometry whose box calculator produces boxes agreeing with
the geometry's dimension flags, `gserialized_from_lwgeom` succeeds — the internal
written-bytes check against `gserialized_from_lwgeom_size` (whose failure is the
fatal error) passes — and the produced record holds exactly that many bytes, with
the byte count stored shifted left by 2 in the outer size word.  In particular the
empty point with SRID 4326 encodes to the claimed 16-byte record: size word
`16 <<< 2`, flags 0, SRID bytes `{0x00, 0x10, 0xE6}`, body
`{u32 POINTTYPE, u32 0}`. -/
theorem c7_writer_size (env : Env) (G : LWFULL) (hv : validFullB G = true)
    (hcalc : ∀ t b, env.calcGbox t = some b →
      flagZ b.flags = flagZ (geomFlags t) ∧ flagM b.flags = flagM (geomFlags t) ∧
      flagGeodetic b.flags = flagGeodetic (geomFlags t)) :
    (∃ g, gserialized_from_lwgeom env G = some g ∧
      8 + g.data.length = gserialized_from_lwgeom_size
        (let G1 := if G.bbox.isNone && env.needsBbox G.geom && !(lwgeom_is_empty G.geom)
            then lwgeom_add_bbox env G else G;
         { G1 with geom := setGeomFlags G1.geom (setFlagBBOX (geomFlags G1.geom) G1.bbox.isSome) }) ∧
      g.size = (8 + g.data.length) <<< 2 ∧ SIZE_GET g.size = 8 + g.data.length) ∧
    (gserialized_from_lwgeom env0 tEmptyPoint4326).map
      (fun r => (r.size, r.srid0, r.srid1, r.srid2, r.flags, r.data)) =
      some (16 <<< 2, 0x00, 0x10, 0xE6, 0x00, bytesOfU32 POINTTYPE ++ bytesOfU32 0) :=
  ⟨from_lwgeom_writes_sizeOf env G hv hcalc, by decide⟩

/-- Witness for C7 at the empty point with SRID 4326 under the trivial policy
environment. -/
theorem c7_writer_size_witness :
    validFullB tEmptyPoint4326 = true ∧
    ((∃ g, gserialized_from_lwgeom env0 tEmptyPoint4326 = some g ∧
      8 + g.data.length = gserialized_from_lwgeom_size
        (let G1 := if tEmptyPoint4326.bbox.isNone && env0.needsBbox tEmptyPoint4326.geom &&
            !(lwgeom_is_empty tEmptyPoint4326.geom)
            then lwgeom_add_bbox env0 tEmptyPoint4326 else tEmptyPoint4326;
         { G1 with geom := setGeomFlags G1.geom (setFlagBBOX (geomFlags G1.geom) G1.bbox.isSome) }) ∧
      g.size = (8 + g.data.length) <<< 2 ∧ SIZE_GET g.size = 8 + g.data.length) ∧
    (gserialized_from_lwgeom env0 tEmptyPoint4326).map
      (fun r => (r.size, r.srid0, r.srid1, r.srid2, r.flags, r.data)) =
      some (16 <<< 2, 0x00, 0x10, 0xE6, 0x00, bytesOfU32 POINTTYPE ++ bytesOfU32 0)) :=
  ⟨by decide, c7_writer_size env0 tEmptyPoint4326 (by decide)
    (fun t b h => nomatch h)⟩

theorem byteL_drop (l : List Nat) (n i : Nat) : byteL (l.drop n) i = byteL l (n + i) := by
  unfold byteL
  rw [List.getD_eq_getElem?_getD, List.getD_eq_getElem?_getD, List.getElem?_drop]

theorem readU32_drop (l : List Nat) (off : Nat) :
    readU32 (l.drop off) 0 = readU32 l off := by
  unfold readU32
  rw [byteL_drop, byteL_drop, byteL_drop, byteL_drop]
  norm_num

theorem readU32_of_drop (l : List Nat) (off a : Nat) (y : List Nat)
    (h : l.drop off = bytesOfU32 a ++ y) : readU32 l off = a % 2^32 := by
  rw [← readU32_drop, h, readU32_bytesOfU32]

theorem take_exact {x : List Nat} (y : List Nat) (n : Nat) (h : x.length = n) :
    (x ++ y).take n = x := by
  rw [← h, List.take_left]

theorem lwtypeOf_lt (rf : Nat) (g : LWGEOM) (hv : validGeomB rf g = true) :
    lwtypeOf g < 2^32 := by
  cases g with
  | lwcollection t f gs =>
    simp only [validGeomB, Bool.and_eq_true, beq_iff_eq, decide_eq_true_eq] at hv
    exact lwtype_is_collection_lt t hv.1.1.2
  | lwpoint f pa => exact (by decide : POINTTYPE < 2^32)
  | lwline f pa => exact (by decide : LINETYPE < 2^32)
  | lwtriangle f pa => exact (by decide : TRIANGLETYPE < 2^32)
  | lwcircstring f pa => exact (by decide : CIRCSTRINGTYPE < 2^32)
  | lwpoly f rings => exact (by decide : POLYGONTYPE < 2^32)

theorem coll_tag_ne_leaf (t : Nat) (h : lwtype_is_collection t = true) :
    t ≠ POINTTYPE ∧ t ≠ LINETYPE ∧ t ≠ CIRCSTRINGTYPE ∧ t ≠ POLYGONTYPE ∧
    t ≠ TRIANGLETYPE := by
  simp only [lwtype_is_collection, MULTIPOINTTYPE, MULTILINETYPE, MULTIPOLYGONTYPE,
    COLLECTIONTYPE, CURVEPOLYTYPE, COMPOUNDTYPE, MULTICURVETYPE, MULTISURFACETYPE,
    POLYHEDRALSURFACETYPE, TINTYPE, Bool.or_eq_true, beq_iff_eq] at h
  simp only [POINTTYPE, LINETYPE, CIRCSTRINGTYPE, POLYGONTYPE, TRIANGLETYPE]
  omega

theorem bodyHead (rf : Nat) (t : LWGEOM) (body : List Nat)
    (hv : validGeomB rf t = true) (hb : gserialized_from_lwgeom_any t = some body) :
    ∃ tl, body = bytesOfU32 (lwtypeOf t) ++ tl := by
  obtain ⟨b2, hb2⟩ := writerOk rf t hv
  rw [hb2] at hb
  have hbb := Option.some.inj hb
  subst hbb
  cases t with
  | lwpoint f pa =>
    simp only [gserialized_from_lwgeom_any, gserialized_from_lwpoint] at hb2
    by_cases hc : zmOf f ≠ zmOf pa.flags
    · rw [if_pos hc] at hb2; simp at hb2
    · rw [if_neg hc] at hb2
      have h := (Option.some.inj hb2).symm
      exact ⟨_, by rw [h, lwtypeOf, List.append_assoc]⟩
  | lwline f pa =>
    simp only [gserialized_from_lwgeom_any, gserialized_from_lwline] at hb2
    by_cases hc : flagZ f ≠ flagZ pa.flags
    · rw [if_pos hc] at hb2; simp at hb2
    · rw [if_neg hc] at hb2
      have h := (Option.some.inj hb2).symm
      exact ⟨_, by rw [h, lwtypeOf, List.append_assoc]⟩
  | lwtriangle f pa =>
    simp only [gserialized_from_lwgeom_any, gserialized_from_lwtriangle] at hb2
    by_cases hc : zmOf f ≠ zmOf pa.flags
    · rw [if_pos hc] at hb2; simp at hb2
    · rw [if_neg hc] at hb2
      have h := (Option.some.inj hb2).symm
      exact ⟨_, by rw [h, lwtypeOf, List.append_assoc]⟩
  | lwcircstring f pa =>
    simp only [gserialized_from_lwgeom_any, gserialized_from_lwcircstring] at hb2
    by_cases hc : zmOf f ≠ zmOf pa.flags
    · rw [if_pos hc] at hb2; simp at hb2
    · rw [if_neg hc] at hb2
      have h := (Option.some.inj hb2).symm
      exact ⟨_, by rw [h, lwtypeOf, List.append_assoc]⟩
  | lwpoly f rings =>
    simp only [gserialized_from_lwgeom_any, gserialized_from_lwpoly] at hb2
    by_cases hc : polyRingsZMOk f rings = true
    · rw [if_pos hc] at hb2
      have h := (Option.some.inj hb2).symm
      exact ⟨_, by rw [h, lwtypeOf, List.append_assoc, List.append_assoc, List.append_assoc]⟩
    · rw [if_neg hc] at hb2; simp at hb2
  | lwcollection ct f gs =>
    simp only [validGeomB, Bool.and_eq_true, beq_iff_eq, decide_eq_true_eq] at hv
    simp only [gserialized_from_lwgeom_any] at hb2
    rw [if_pos hv.1.1.2] at hb2
    cases hw : writeCollChildren f gs with
    | none => rw [hw] at hb2; simp at hb2
    | some bodies =>
      rw [hw] at hb2
      have h := (Option.some.inj hb2).symm
      exact ⟨_, by rw [h, lwtypeOf, List.append_assoc]⟩

theorem readPolyRingsRT (gfl f : Nat) (hnd : ndims gfl = ndims f) :
    ∀ (rings : List PTARRAY), rings.all (validPAB f) = true →
    ∀ (l : List Nat) (tblOff ordOff : Nat) (mid rest : List Nat),
      l.drop tblOff = polyRingTable rings ++ mid →
      l.drop ordOff = polyRingData (8 * ndims f) rings ++ rest →
      readPolyRings gfl l rings.length tblOff ordOff =
        (rings.map (fun r =>
          ⟨ptarray_build_flags (hasZ gfl) (hasM gfl) true, r.npoints, r.pdata⟩),
         ordOff + (polyRingData (8 * ndims f) rings).length) := by
  intro rings
  induction rings with
  | nil =>
    intro _ l tblOff ordOff mid rest _ _
    simp [readPolyRings, polyRingData]
  | cons r rs ih =>
    intro hall l tblOff ordOff mid rest htbl hord
    simp only [List.all_cons, Bool.and_eq_true] at hall
    have hr := hall.1
    simp only [validPAB, Bool.and_eq_true, beq_iff_eq, decide_eq_true_eq] at hr
    have hndr : ndims r.flags = ndims f := ndims_eq_of_zmOf _ _ hr.1.1.1
    have hplen : r.pdata.length = r.npoints * (ndims gfl * 8) := by
      rw [hr.1.2, hndr, hnd]
    have htbl' : l.drop tblOff = bytesOfU32 r.npoints ++ (polyRingTable rs ++ mid) := by
      rw [htbl]
      simp [polyRingTable, List.append_assoc]
    have hnp : readU32 l tblOff = r.npoints := by
      rw [readU32_of_drop l tblOff r.npoints _ htbl']
      exact Nat.mod_eq_of_lt (by have := hr.1.1.2; omega)
    have hfull : r.pdata.take (r.npoints * (8 * ndims f)) = r.pdata :=
      List.take_of_length_le (le_of_eq (by rw [hr.1.2, hndr]; ring))
    have hord' : l.drop ordOff = r.pdata ++ (polyRingData (8 * ndims f) rs ++ rest) := by
      rw [hord]
      simp only [polyRingData]
      rw [hfull, List.append_assoc]
    have hslice : (l.drop ordOff).take (r.npoints * (ndims gfl * 8)) = r.pdata := by
      rw [hord']
      exact take_exact _ _ hplen
    have htblrs : l.drop (tblOff + 4) = polyRingTable rs ++ mid := by
      have h2 := drop_append_cancel htbl'
      simpa [length_bytesOfU32] using h2
    have hordrs : l.drop (ordOff + r.npoints * (ndims gfl * 8)) =
        polyRingData (8 * ndims f) rs ++ rest := by
      have h2 := drop_append_cancel hord'
      rw [show ordOff + r.npoints * (ndims gfl * 8) = ordOff + r.pdata.length from
        by rw [hplen]]
      exact h2
    have ihh := ih hall.2 l (tblOff + 4) (ordOff + r.npoints * (ndims gfl * 8)) mid rest
      htblrs hordrs
    simp only [List.length_cons, readPolyRings]
    rw [hnp, hslice, ihh]
    simp only [List.map_cons, polyRingData, List.length_append, hfull, Prod.mk.injEq]
    refine ⟨by trivial, ?_⟩
    rw [hplen]
    omega

theorem drop8_words (a b : Nat) (x : List Nat) :
    (bytesOfU32 a ++ (bytesOfU32 b ++ x)).drop 8 = x := rfl

theorem readCollChildren_cons (rd : Nat → List Nat → Option (LWGEOM × Nat))
    (t gfl2 : Nat) (l : List Nat) (n off : Nat) (c : LWGEOM) (sz : Nat)
    (hadm : lwcollection_allows_subtype t (readU32 l off) = true)
    (hrd : rd gfl2 (l.drop off) = some (c, sz)) :
    readCollChildren rd t gfl2 l (n + 1) off =
      match readCollChildren rd t gfl2 l n (off + sz) with
      | none => none
      | some (rest, fin) => some (c :: rest, fin) := by
  simp only [readCollChildren]
  rw [if_pos hadm, hrd]

mutual
theorem readerRT (rf : Nat) :
    ∀ (t : LWGEOM) (body : List Nat) (gfl : Nat), validGeomB rf t = true →
      gserialized_from_lwgeom_any t = some body →
      zmOf gfl = zmOf rf → gfl < 2^8 →
      ∀ fuel rest, nodeCount t ≤ fuel →
      ∃ t2, lwgeom_from_gserialized_buffer fuel gfl (body ++ rest) =
          some (t2, body.length) ∧
        lwtypeOf t2 = lwtypeOf t ∧ coordShape t2 = coordShape t ∧ geomFlags t2 = gfl
  | .lwpoint f pa, body, gfl, hv, hb, hzm, hfl => by
    intro fuel rest hf
    have hf1 : 1 ≤ fuel := hf
    obtain ⟨fu, rfl⟩ : ∃ fu, fuel = fu + 1 := ⟨fuel - 1, by omega⟩
    simp only [validGeomB, Bool.and_eq_true, beq_iff_eq, decide_eq_true_eq] at hv
    have hpa := hv.1.2
    simp only [validPAB, Bool.and_eq_true, beq_iff_eq, decide_eq_true_eq] at hpa
    have hnd : ndims gfl = ndims pa.flags :=
      ndims_eq_of_zmOf _ _ (hzm.trans (hv.1.1.2.symm.trans hpa.1.1.1.symm))
    simp only [gserialized_from_lwgeom_any, gserialized_from_lwpoint] at hb
    rw [if_neg (show ¬ zmOf f ≠ zmOf pa.flags from fun hk => hk hpa.1.1.1.symm)] at hb
    have hbody := (Option.some.inj hb).symm
    subst hbody
    have hshape : (bytesOfU32 POINTTYPE ++ bytesOfU32 pa.npoints ++
        (if 0 < pa.npoints then pa.pdata.take (ptarray_point_size pa) else [])) ++ rest =
        bytesOfU32 POINTTYPE ++ (bytesOfU32 pa.npoints ++
        ((if 0 < pa.npoints then pa.pdata.take (ptarray_point_size pa) else []) ++ rest)) := by
      simp [List.append_assoc]
    simp only [lwgeom_from_gserialized_buffer]
    rw [hshape, readU32_bytesOfU32,
      (show POINTTYPE % 2^32 = POINTTYPE from by decide), if_pos rfl]
    unfold lwpoint_from_buffer
    dsimp only
    rw [readU32_at4, readU32_bytesOfU32, Nat.mod_eq_of_lt (show pa.npoints < 2^32 from
      by have := hpa.1.1.2; omega)]
    by_cases hn : 0 < pa.npoints
    · have h1 : pa.npoints = 1 := by omega
      have htake : pa.pdata.take (ptarray_point_size pa) = pa.pdata := by
        unfold ptarray_point_size
        exact List.take_of_length_le (le_of_eq (by rw [hpa.1.2, h1]; ring))
      rw [if_pos hn, if_pos hn, htake, drop8_words]
      have hslice : (pa.pdata ++ rest).take (ndims gfl * 8) = pa.pdata :=
        take_exact _ _ (by rw [hpa.1.2, h1, hnd]; ring)
      rw [hslice]
      refine ⟨.lwpoint gfl ⟨ptarray_build_flags (hasZ gfl) (hasM gfl) true, 1, pa.pdata⟩,
        ?_, rfl, ?_, rfl⟩
      · simp only [List.length_append, length_bytesOfU32,
          Option.some.injEq, Prod.mk.injEq]
        refine ⟨by trivial, ?_⟩
        rw [hpa.1.2, h1, hnd]
        ring
      · simp only [coordShape, h1]
    · have h0 : pa.npoints = 0 := by omega
      have hpd : pa.pdata = [] := by
        have := hpa.1.2
        rw [h0] at this
        simp only [Nat.zero_mul] at this
        exact List.eq_nil_of_length_eq_zero this
      rw [if_neg hn, if_neg hn]
      refine ⟨.lwpoint gfl ⟨ptarray_build_flags (hasZ gfl) (hasM gfl) false, 0, []⟩,
        ?_, rfl, ?_, rfl⟩
      · simp only [List.length_append, List.length_nil, length_bytesOfU32,
          Option.some.injEq, Prod.mk.injEq, h0]
        exact ⟨by trivial, by ring⟩
      · simp only [coordShape, h0, hpd]
  | .lwline f pa, body, gfl, hv, hb, hzm, hfl => by
    intro fuel rest hf
    have hf1 : 1 ≤ fuel := hf
    obtain ⟨fu, rfl⟩ : ∃ fu, fuel = fu + 1 := ⟨fuel - 1, by omega⟩
    simp only [validGeomB, Bool.and_eq_true, beq_iff_eq, decide_eq_true_eq] at hv
    have hpa := hv.2
    simp only [validPAB, Bool.and_eq_true, beq_iff_eq, decide_eq_true_eq] at hpa
    have hnd : ndims gfl = ndims pa.flags :=
      ndims_eq_of_zmOf _ _ (hzm.trans (hv.1.2.symm.trans hpa.1.1.1.symm))
    simp only [gserialized_from_lwgeom_any, gserialized_from_lwline] at hb
    rw [if_neg (show ¬ flagZ f ≠ flagZ pa.flags from
      fun hk => hk (flagZ_eq_of_zmOf _ _ hpa.1.1.1.symm))] at hb
    have hbody := (Option.some.inj hb).symm
    subst hbody
    have hshape : (bytesOfU32 LINETYPE ++ bytesOfU32 pa.npoints ++
        (if 0 < pa.npoints then pa.pdata.take (pa.npoints * ptarray_point_size pa) else [])) ++ rest =
        bytesOfU32 LINETYPE ++ (bytesOfU32 pa.npoints ++
        ((if 0 < pa.npoints then pa.pdata.take (pa.npoints * ptarray_point_size pa) else []) ++ rest)) := by
      simp [List.append_assoc]
    simp only [lwgeom_from_gserialized_buffer]
    rw [hshape, readU32_bytesOfU32,
      (show LINETYPE % 2^32 = LINETYPE from by decide),
      if_neg (show ¬ LINETYPE = POINTTYPE from by decide), if_pos rfl]
    unfold lwline_from_buffer
    dsimp only
    rw [readU32_at4, readU32_bytesOfU32, Nat.mod_eq_of_lt (show pa.npoints < 2^32 from
      by have := hpa.1.1.2; omega)]
    by_cases hn : 0 < pa.npoints
    · have htake : pa.pdata.take (pa.npoints * ptarray_point_size pa) = pa.pdata := by
        unfold ptarray_point_size
        exact List.take_of_length_le (le_of_eq (by rw [hpa.1.2]))
      rw [if_pos hn, if_pos hn, htake, drop8_words]
      have hslice : (pa.pdata ++ rest).take (pa.npoints * (ndims gfl * 8)) = pa.pdata :=
        take_exact _ _ (by rw [hpa.1.2, hnd])
      rw [hslice]
      refine ⟨.lwline gfl ⟨ptarray_build_flags (hasZ gfl) (hasM gfl) true, pa.npoints, pa.pdata⟩,
        ?_, rfl, rfl, rfl⟩
      simp only [List.length_append, length_bytesOfU32, Option.some.injEq, Prod.mk.injEq]
      refine ⟨by trivial, ?_⟩
      rw [hpa.1.2, hnd]
      ring
    · have h0 : pa.npoints = 0 := by omega
      have hpd : pa.pdata = [] := by
        have := hpa.1.2
        rw [h0] at this
        simp only [Nat.zero_mul] at this
        exact List.eq_nil_of_length_eq_zero this
      rw [if_neg hn, if_neg hn]
      refine ⟨.lwline gfl ⟨ptarray_build_flags (hasZ gfl) (hasM gfl) false, 0, []⟩,
        ?_, rfl, ?_, rfl⟩
      · simp only [List.length_append, List.length_nil, length_bytesOfU32,
          Option.some.injEq, Prod.mk.injEq, h0]
        exact ⟨by trivial, by ring⟩
      · simp only [coordShape, h0, hpd]
  | .lwtriangle f pa, body, gfl, hv, hb, hzm, hfl => by
    intro fuel rest hf
    have hf1 : 1 ≤ fuel := hf
    obtain ⟨fu, rfl⟩ : ∃ fu, fuel = fu + 1 := ⟨fuel - 1, by omega⟩
    simp only [validGeomB, Bool.and_eq_true, beq_iff_eq, decide_eq_true_eq] at hv
    have hpa := hv.2
    simp only [validPAB, Bool.and_eq_true, beq_iff_eq, decide_eq_true_eq] at hpa
    have hnd : ndims gfl = ndims pa.flags :=
      ndims_eq_of_zmOf _ _ (hzm.trans (hv.1.2.symm.trans hpa.1.1.1.symm))
    simp only [gserialized_from_lwgeom_any, gserialized_from_lwtriangle] at hb
    rw [if_neg (show ¬ zmOf f ≠ zmOf pa.flags from fun hk => hk hpa.1.1.1.symm)] at hb
    have hbody := (Option.some.inj hb).symm
    subst hbody
    have hshape : (bytesOfU32 TRIANGLETYPE ++ bytesOfU32 pa.npoints ++
        (if 0 < pa.npoints then pa.pdata.take (pa.npoints * ptarray_point_size pa) else [])) ++ rest =
        bytesOfU32 TRIANGLETYPE ++ (bytesOfU32 pa.npoints ++
        ((if 0 < pa.npoints then pa.pdata.take (pa.npoints * ptarray_point_size pa) else []) ++ rest)) := by
      simp [List.append_assoc]
    simp only [lwgeom_from_gserialized_buffer]
    rw [hshape, readU32_bytesOfU32,
      (show TRIANGLETYPE % 2^32 = TRIANGLETYPE from by decide),
      if_neg (show ¬ TRIANGLETYPE = POINTTYPE from by decide),
      if_neg (show ¬ TRIANGLETYPE = LINETYPE from by decide),
      if_neg (show ¬ TRIANGLETYPE = CIRCSTRINGTYPE from by decide),
      if_neg (show ¬ TRIANGLETYPE = POLYGONTYPE from by decide), if_pos rfl]
    unfold lwtriangle_from_buffer
    dsimp only
    rw [readU32_at4, readU32_bytesOfU32, Nat.mod_eq_of_lt (show pa.npoints < 2^32 from
      by have := hpa.1.1.2; omega)]
    by_cases hn : 0 < pa.npoints
    · have htake : pa.pdata.take (pa.npoints * ptarray_point_size pa) = pa.pdata := by
        unfold ptarray_point_size
        exact List.take_of_length_le (le_of_eq (by rw [hpa.1.2]))
      rw [if_pos hn, if_pos hn, htake, drop8_words]
      have hslice : (pa.pdata ++ rest).take (pa.npoints * (ndims gfl * 8)) = pa.pdata :=
        take_exact _ _ (by rw [hpa.1.2, hnd])
      rw [hslice]
      refine ⟨.lwtriangle gfl ⟨ptarray_build_flags (hasZ gfl) (hasM gfl) true, pa.npoints, pa.pdata⟩,
        ?_, rfl, rfl, rfl⟩
      simp only [List.length_append, length_bytesOfU32, Option.some.injEq, Prod.mk.injEq]
      refine ⟨by trivial, ?_⟩
      rw [hpa.1.2, hnd]
      ring
    · have h0 : pa.npoints = 0 := by omega
      have hpd : pa.pdata = [] := by
        have := hpa.1.2
        rw [h0] at this
        simp only [Nat.zero_mul] at this
        exact List.eq_nil_of_length_eq_zero this
      rw [if_neg hn, if_neg hn]
      refine ⟨.lwtriangle gfl ⟨ptarray_build_flags (hasZ gfl) (hasM gfl) false, 0, []⟩,
        ?_, rfl, ?_, rfl⟩
      · simp only [List.length_append, List.length_nil, length_bytesOfU32,
          Option.some.injEq, Prod.mk.injEq, h0]
        exact ⟨by trivial, by ring⟩
      · simp only [coordShape, h0, hpd]
  | .lwcircstring f pa, body, gfl, hv, hb, hzm, hfl => by
    intro fuel rest hf
    have hf1 : 1 ≤ fuel := hf
    obtain ⟨fu, rfl⟩ : ∃ fu, fuel = fu + 1 := ⟨fuel - 1, by omega⟩
    simp only [validGeomB, Bool.and_eq_true, beq_iff_eq, decide_eq_true_eq] at hv
    have hpa := hv.2
    simp only [validPAB, Bool.and_eq_true, beq_iff_eq, decide_eq_true_eq] at hpa
    have hnd : ndims gfl = ndims pa.flags :=
      ndims_eq_of_zmOf _ _ (hzm.trans (hv.1.2.symm.trans hpa.1.1.1.symm))
    simp only [gserialized_from_lwgeom_any, gserialized_from_lwcircstring] at hb
    rw [if_neg (show ¬ zmOf f ≠ zmOf pa.flags from fun hk => hk hpa.1.1.1.symm)] at hb
    have hbody := (Option.some.inj hb).symm
    subst hbody
    have hshape : (bytesOfU32 CIRCSTRINGTYPE ++ bytesOfU32 pa.npoints ++
        (if 0 < pa.npoints then pa.pdata.take (pa.npoints * ptarray_point_size pa) else [])) ++ rest =
        bytesOfU32 CIRCSTRINGTYPE ++ (bytesOfU32 pa.npoints ++
        ((if 0 < pa.npoints then pa.pdata.take (pa.npoints * ptarray_point_size pa) else []) ++ rest)) := by
      simp [List.append_assoc]
    simp only [lwgeom_from_gserialized_buffer]
    rw [hshape, readU32_bytesOfU32,
      (show CIRCSTRINGTYPE % 2^32 = CIRCSTRINGTYPE from by decide),
      if_neg (show ¬ CIRCSTRINGTYPE = POINTTYPE from by decide),
      if_neg (show ¬ CIRCSTRINGTYPE = LINETYPE from by decide), if_pos rfl]
    unfold lwcircstring_from_buffer
    dsimp only
    rw [readU32_at4, readU32_bytesOfU32, Nat.mod_eq_of_lt (show pa.npoints < 2^32 from
      by have := hpa.1.1.2; omega)]
    by_cases hn : 0 < pa.npoints
    · have htake : pa.pdata.take (pa.npoints * ptarray_point_size pa) = pa.pdata := by
        unfold ptarray_point_size
        exact List.take_of_length_le (le_of_eq (by rw [hpa.1.2]))
      rw [if_pos hn, if_pos hn, htake, drop8_words]
      have hslice : (pa.pdata ++ rest).take (pa.npoints * (ndims gfl * 8)) = pa.pdata :=
        take_exact _ _ (by rw [hpa.1.2, hnd])
      rw [hslice]
      refine ⟨.lwcircstring gfl ⟨ptarray_build_flags (hasZ gfl) (hasM gfl) true, pa.npoints, pa.pdata⟩,
        ?_, rfl, rfl, rfl⟩
      simp only [List.length_append, length_bytesOfU32, Option.some.injEq, Prod.mk.injEq]
      refine ⟨by trivial, ?_⟩
      rw [hpa.1.2, hnd]
      ring
    · have h0 : pa.npoints = 0 := by omega
      have hpd : pa.pdata = [] := by
        have := hpa.1.2
        rw [h0] at this
        simp only [Nat.zero_mul] at this
        exact List.eq_nil_of_length_eq_zero this
      rw [if_neg hn, if_neg hn]
      refine ⟨.lwcircstring gfl ⟨ptarray_build_flags (hasZ gfl) (hasM gfl) false, 0, []⟩,
        ?_, rfl, ?_, rfl⟩
      · simp only [List.length_append, List.length_nil, length_bytesOfU32,
          Option.some.injEq, Prod.mk.injEq, h0]
        exact ⟨by trivial, by ring⟩
      · simp only [coordShape, h0, hpd]
  | .lwpoly f rings, body, gfl, hv, hb, hzm, hfl => by
    intro fuel rest hf
    have hf1 : 1 ≤ fuel := hf
    obtain ⟨fu, rfl⟩ : ∃ fu, fuel = fu + 1 := ⟨fuel - 1, by omega⟩
    simp only [validGeomB, Bool.and_eq_true, beq_iff_eq, decide_eq_true_eq] at hv
    have hnd : ndims gfl = ndims f := ndims_eq_of_zmOf _ _ (hzm.trans hv.1.1.2.symm)
    have hok : polyRingsZMOk f rings = true := by
      unfold polyRingsZMOk
      rw [List.all_eq_true]
      intro r hr
      have hrr := List.all_eq_true.mp hv.2 r hr
      simp only [validPAB, Bool.and_eq_true, beq_iff_eq, decide_eq_true_eq] at hrr
      simp only [beq_iff_eq]
      exact hrr.1.1.1.symm
    simp only [gserialized_from_lwgeom_any, gserialized_from_lwpoly] at hb
    rw [if_pos hok] at hb
    have hbody := (Option.some.inj hb).symm
    subst hbody
    have hshape : (bytesOfU32 POLYGONTYPE ++ bytesOfU32 rings.length ++ polyRingTable rings ++
        (if rings.length % 2 = 1 then bytesOfU32 0 else []) ++
        polyRingData (8 * ndims f) rings) ++ rest =
        bytesOfU32 POLYGONTYPE ++ (bytesOfU32 rings.length ++
        (polyRingTable rings ++ ((if rings.length % 2 = 1 then bytesOfU32 0 else []) ++
        (polyRingData (8 * ndims f) rings ++ rest)))) := by
      simp [List.append_assoc]
    simp only [lwgeom_from_gserialized_buffer]
    rw [hshape, readU32_bytesOfU32,
      (show POLYGONTYPE % 2^32 = POLYGONTYPE from by decide),
      if_neg (show ¬ POLYGONTYPE = POINTTYPE from by decide),
      if_neg (show ¬ POLYGONTYPE = LINETYPE from by decide),
      if_neg (show ¬ POLYGONTYPE = CIRCSTRINGTYPE from by decide), if_pos rfl]
    unfold lwpoly_from_buffer
    dsimp only
    rw [readU32_at4, readU32_bytesOfU32, Nat.mod_eq_of_lt (show rings.length < 2^32 from
      by have := hv.1.2; omega)]
    set L := bytesOfU32 POLYGONTYPE ++ (bytesOfU32 rings.length ++
      (polyRingTable rings ++ ((if rings.length % 2 = 1 then bytesOfU32 0 else []) ++
      (polyRingData (8 * ndims f) rings ++ rest)))) with hL
    have htbl : L.drop 8 = polyRingTable rings ++
        ((if rings.length % 2 = 1 then bytesOfU32 0 else []) ++
        (polyRingData (8 * ndims f) rings ++ rest)) := by
      rw [hL]
      exact drop8_words _ _ _
    by_cases hn : 0 < rings.length
    · rw [if_pos hn]
      have hord : L.drop (8 + rings.length * 4 + (if rings.length % 2 = 1 then 4 else 0)) =
          polyRingData (8 * ndims f) rings ++ rest := by
        have h1 := drop_append_cancel htbl
        rw [polyRingTable_length] at h1
        have h2 := drop_append_cancel h1
        by_cases hodd : rings.length % 2 = 1
        · rw [if_pos hodd] at h2 ⊢
          rw [length_bytesOfU32] at h2
          rw [show 8 + rings.length * 4 + 4 = 8 + 4 * rings.length + 4 from by ring]
          exact h2
        · rw [if_neg hodd] at h2 ⊢
          simp only [List.length_nil, Nat.add_zero] at h2
          rw [show 8 + rings.length * 4 + 0 = 8 + 4 * rings.length from by ring]
          exact h2
      have hrt := readPolyRingsRT gfl f hnd rings hv.2 L 8
        (8 + rings.length * 4 + (if rings.length % 2 = 1 then 4 else 0))
        ((if rings.length % 2 = 1 then bytesOfU32 0 else []) ++
          (polyRingData (8 * ndims f) rings ++ rest)) rest htbl hord
      rw [hrt]
      refine ⟨.lwpoly gfl (rings.map (fun r =>
        ⟨ptarray_build_flags (hasZ gfl) (hasM gfl) true, r.npoints, r.pdata⟩)),
        ?_, rfl, ?_, rfl⟩
      · simp only [Option.some.injEq, Prod.mk.injEq]
        refine ⟨by trivial, ?_⟩
        have hdl := polyRingData_length f rings hv.2
        simp only [List.length_append, length_bytesOfU32, polyRingTable_length]
        by_cases hodd : rings.length % 2 = 1
        · rw [if_pos hodd, if_pos hodd]
          simp only [length_bytesOfU32]
          omega
        · rw [if_neg hodd, if_neg hodd]
          simp only [List.length_nil]
          omega
      · simp only [coordShape, List.map_map]
        rfl
    · have h0 : rings = [] := by
        cases rings with
        | nil => rfl
        | cons a as => simp at hn
      subst h0
      rw [if_neg hn]
      simp only [List.length_nil, readPolyRings]
      refine ⟨.lwpoly gfl [], ?_, rfl, rfl, rfl⟩
      simp [polyRingTable, polyRingData, length_bytesOfU32]
  | .lwcollection ct f gs, body, gfl, hv, hb, hzm, hfl => by
    intro fuel rest hf
    have hf1 : 1 + nodeCountList gs ≤ fuel := hf
    obtain ⟨fu, rfl⟩ : ∃ fu, fuel = fu + 1 := ⟨fuel - 1, by omega⟩
    simp only [validGeomB, Bool.and_eq_true, beq_iff_eq, decide_eq_true_eq] at hv
    have hcoll : lwtype_is_collection ct = true := hv.1.1.2
    simp only [gserialized_from_lwgeom_any] at hb
    rw [if_pos hcoll] at hb
    cases hw : writeCollChildren f gs with
    | none => rw [hw] at hb; simp at hb
    | some bodies =>
      rw [hw] at hb
      have hbody := (Option.some.inj hb).symm
      subst hbody
      have hne := coll_tag_ne_leaf ct hcoll
      have hshape : (bytesOfU32 ct ++ bytesOfU32 gs.length ++ bodies) ++ rest =
          bytesOfU32 ct ++ (bytesOfU32 gs.length ++ (bodies ++ rest)) := by
        simp [List.append_assoc]
      simp only [lwgeom_from_gserialized_buffer]
      rw [hshape, readU32_bytesOfU32,
        Nat.mod_eq_of_lt (lwtype_is_collection_lt ct hcoll),
        if_neg hne.1, if_neg hne.2.1, if_neg hne.2.2.1, if_neg hne.2.2.2.1,
        if_neg hne.2.2.2.2, if_pos hcoll]
      unfold lwcollection_from_buffer
      dsimp only
      rw [readU32_bytesOfU32, Nat.mod_eq_of_lt (lwtype_is_collection_lt ct hcoll),
        readU32_at4, readU32_bytesOfU32, Nat.mod_eq_of_lt (show gs.length < 2^32 from
          by have := hv.1.2; omega)]
      have hbits2 := setFlagBBOX_bits gfl hfl false
      obtain ⟨gs2, hg1, hg2⟩ := readerRTChildren rf ct f hv.1.1.1.2 gs bodies hv.2 hw
        (setFlagBBOX gfl false) ((setFlagBBOX_zm gfl hfl false).trans hzm)
        hbits2.2.2.2.2 fu
        (bytesOfU32 ct ++ (bytesOfU32 gs.length ++ (bodies ++ rest))) 8 rest
        (drop8_words _ _ _) (by omega)
      rw [hg1]
      refine ⟨.lwcollection ct gfl gs2, ?_, rfl, ?_, rfl⟩
      · simp only [List.length_append, length_bytesOfU32, Option.some.injEq,
          Prod.mk.injEq]
      · simp only [coordShape, hg2]

theorem readerRTChildren (rf t0 f : Nat) (hzmf : zmOf f = zmOf rf) :
    ∀ (gs : List LWGEOM) (bodies : List Nat), validChildrenB rf t0 gs = true →
      writeCollChildren f gs = some bodies →
      ∀ (gfl2 : Nat), zmOf gfl2 = zmOf rf → gfl2 < 2^8 →
      ∀ (fuel : Nat) (l : List Nat) (off : Nat) (rest : List Nat),
        l.drop off = bodies ++ rest → nodeCountList gs ≤ fuel →
        ∃ gs2, readCollChildren (lwgeom_from_gserialized_buffer fuel) t0 gfl2 l
            gs.length off = some (gs2, off + bodies.length) ∧
          coordShapeList gs2 = coordShapeList gs
  | [], bodies, _hv, hb => by
    intro gfl2 _ _ fuel l off rest _hp _hf
    simp only [writeCollChildren] at hb
    have hbody := (Option.some.inj hb).symm
    subst hbody
    exact ⟨[], by simp [readCollChildren], rfl⟩
  | g :: gs, bodies, hv, hb => by
    intro gfl2 hz2 hf2 fuel l off rest hp hfl
    simp only [validChildrenB, Bool.and_eq_true] at hv
    have hvg : validGeomB rf g = true := hv.1.2
    simp only [writeCollChildren] at hb
    rw [if_neg (show ¬ zmOf f ≠ zmOf (geomFlags g) from
      fun hk => hk (hzmf.trans (validGeomB_zm rf g hvg).symm))] at hb
    cases hwg : gserialized_from_lwgeom_any g with
    | none => rw [hwg] at hb; simp at hb
    | some b =>
      rw [hwg] at hb
      cases hwgs : writeCollChildren f gs with
      | none => rw [hwgs] at hb; simp at hb
      | some bs =>
        rw [hwgs] at hb
        have hbody := (Option.some.inj hb).symm
        subst hbody
        have hncc : nodeCount g + nodeCountList gs ≤ fuel := hfl
        have hp2 : l.drop off = b ++ (bs ++ rest) := by
          rw [hp, List.append_assoc]
        obtain ⟨tl, htl⟩ := bodyHead rf g b hvg hwg
        have hsub : readU32 l off = lwtypeOf g := by
          rw [readU32_of_drop l off (lwtypeOf g) (tl ++ (bs ++ rest))
            (by rw [hp2, htl, List.append_assoc])]
          exact Nat.mod_eq_of_lt (lwtypeOf_lt rf g hvg)
        obtain ⟨c2, hc1, hc2, hc3, hc4⟩ := readerRT rf g b gfl2 hvg hwg hz2 hf2 fuel
          (bs ++ rest) (by omega)
        obtain ⟨gs2, hg1, hg2⟩ := readerRTChildren rf t0 f hzmf gs bs hv.2 hwgs gfl2
          hz2 hf2 fuel l (off + b.length) rest (drop_append_cancel hp2) (by omega)
        simp only [List.length_cons]
        rw [readCollChildren_cons (lwgeom_from_gserialized_buffer fuel) t0 gfl2 l
          gs.length off c2 b.length
          (by rw [hsub]; exact hv.1.1) (by rw [hp2]; exact hc1), hg1]
        refine ⟨c2 :: gs2, ?_, ?_⟩
        · simp only [List.length_append, Option.some.injEq, Prod.mk.injEq]
          exact ⟨by trivial, by omega⟩
        · simp only [coordShapeList, hc3, hg2]
end

theorem set_srid_flags (g : GSERIALIZED) (s : Int) :
    (gserialized_set_srid g s).flags = g.flags := rfl

theorem lwtypeOf_setGeomFlags (t : LWGEOM) (nf : Nat) :
    lwtypeOf (setGeomFlags t nf) = lwtypeOf t := by
  cases t <;> rfl

theorem coordShape_setGeomFlags (t : LWGEOM) (nf : Nat) :
    coordShape (setGeomFlags t nf) = coordShape t := by
  cases t <;> rfl

theorem setGeomType_self (t : LWGEOM) : setGeomType t (lwtypeOf t) = t := by
  cases t <;> rfl

theorem setGeomFlags_self (t : LWGEOM) (nf : Nat) (h : geomFlags t = nf) :
    setGeomFlags t nf = t := by
  cases t <;> simp only [geomFlags] at h <;> rw [setGeomFlags, h]

theorem readU32_append_right0 (l1 l2 : List Nat) :
    readU32 (l1 ++ l2) l1.length = readU32 l2 0 := by
  have h := readU32_append_right l1 l2 0
  simpa using h

theorem decode_encoded (env : Env) (RT : Nat) (t1 : LWGEOM) (boxb body : List Nat)
    (w : Nat) (s : Int)
    (hboxlen : (if hasBBOX RT then gbox_serialized_size RT else 0) = boxb.length)
    (hvt : validGeomB RT t1 = true) (hgfl : geomFlags t1 = RT) (hRT : RT < 2^8)
    (hb : gserialized_from_lwgeom_any t1 = some body) :
    ∃ F, lwgeom_from_gserialized env (gserialized_set_srid
      { size := w, srid0 := 0, srid1 := 0, srid2 := 0, flags := RT,
        data := boxb ++ body, beyond := fun _ => 0 } s) = some F ∧
      lwtypeOf F.geom = lwtypeOf t1 ∧ coordShape F.geom = coordShape t1 ∧
      geomFlags F.geom = RT ∧ F.srid = (clamp_srid s).1 := by
  unfold lwgeom_from_gserialized
  dsimp only
  have hfl : (gserialized_set_srid
      { size := w, srid0 := 0, srid1 := 0, srid2 := 0, flags := RT,
        data := boxb ++ body, beyond := fun _ => 0 } s).flags = RT := rfl
  have hdt : (gserialized_set_srid
      { size := w, srid0 := 0, srid1 := 0, srid2 := 0, flags := RT,
        data := boxb ++ body, beyond := fun _ => 0 } s).data = boxb ++ body := rfl
  rw [hfl, hdt]
  have hdrop : (boxb ++ body).drop (if hasBBOX RT then gbox_serialized_size RT else 0)
      = body := by
    rw [hboxlen, List.drop_left]
  rw [hdrop]
  obtain ⟨tl, htl⟩ := bodyHead RT t1 body hvt hb
  have htype : gserialized_get_type (gserialized_set_srid
      { size := w, srid0 := 0, srid1 := 0, srid2 := 0, flags := RT,
        data := boxb ++ body, beyond := fun _ => 0 } s) = lwtypeOf t1 := by
    unfold gserialized_get_type
    rw [hfl, hdt, hboxlen, readU32_append_right0, htl, readU32_bytesOfU32]
    exact Nat.mod_eq_of_lt (lwtypeOf_lt RT t1 hvt)
  have hlen := encodedLen RT t1 body hvt hb
  have hnb := sizeLB RT t1 hvt
  have hfuel : nodeCount t1 ≤ body.length + 1 := by omega
  obtain ⟨t2, hr1, hr2, hr3, hr4⟩ := readerRT RT t1 body RT hvt hb rfl hRT
    (body.length + 1) [] hfuel
  rw [List.append_nil] at hr1
  simp only [hr1]
  rw [htype, ← hr2, setGeomType_self, setGeomFlags_self t2 RT hr4]
  refine ⟨_, rfl, ?_, ?_, ?_, ?_⟩
  · rfl
  · exact hr3
  · exact hr4
  · exact get_set_srid _ s

set_option maxRecDepth 4096 in
theorem setFlagBBOX_clear :
    ∀ f, f < 2^8 → ∀ v : Bool,
      setFlagBBOX (setFlagBBOX f v) false = setFlagBBOX f false := by
  decide

theorem encode_decode (env : Env) (G : LWFULL) (hv : validFullB G = true)
    (hcalc : ∀ t b, env.calcGbox t = some b →
      flagZ b.flags = flagZ (geomFlags t) ∧ flagM b.flags = flagM (geomFlags t) ∧
      flagGeodetic b.flags = flagGeodetic (geomFlags t)) :
    ∃ g F, gserialized_from_lwgeom env G = some g ∧
      lwgeom_from_gserialized env g = some F ∧
      lwtypeOf F.geom = lwtypeOf G.geom ∧
      coordShape F.geom = coordShape G.geom ∧
      flagZ (geomFlags F.geom) = flagZ (geomFlags G.geom) ∧
      flagM (geomFlags F.geom) = flagM (geomFlags G.geom) ∧
      flagGeodetic (geomFlags F.geom) = flagGeodetic (geomFlags G.geom) ∧
      setFlagBBOX (geomFlags F.geom) false = setFlagBBOX (geomFlags G.geom) false ∧
      F.srid = (clamp_srid G.srid).1 := by
  simp only [validFullB, Bool.and_eq_true, decide_eq_true_eq] at hv
  obtain ⟨⟨⟨hvG, hs1⟩, hs2⟩, hbx⟩ := hv
  unfold gserialized_from_lwgeom
  dsimp only
  set H : LWFULL := if G.bbox.isNone && env.needsBbox G.geom && !(lwgeom_is_empty G.geom)
    then lwgeom_add_bbox env G else G with hH
  have hHgeom : H.geom = G.geom := by
    rw [hH]
    split
    · exact add_bbox_geom env G
    · rfl
  have hHbox : ∀ b, H.bbox = some b →
      flagZ b.flags = flagZ (geomFlags G.geom) ∧
      flagM b.flags = flagM (geomFlags G.geom) ∧
      flagGeodetic b.flags = flagGeodetic (geomFlags G.geom) := by
    intro b hb
    rw [hH] at hb
    by_cases hc : (G.bbox.isNone && env.needsBbox G.geom && !(lwgeom_is_empty G.geom)) = true
    · rw [if_pos hc] at hb
      unfold lwgeom_add_bbox at hb
      by_cases hbs : G.bbox.isSome = true
      · rw [if_pos hbs] at hb
        rw [hb] at hbx
        simp only [Bool.and_eq_true, beq_iff_eq] at hbx
        exact ⟨hbx.1.1, hbx.1.2, hbx.2⟩
      · rw [if_neg hbs] at hb
        dsimp only at hb
        exact hcalc G.geom b hb
    · rw [if_neg hc] at hb
      rw [hb] at hbx
      simp only [Bool.and_eq_true, beq_iff_eq] at hbx
      exact ⟨hbx.1.1, hbx.1.2, hbx.2⟩
  have hfl8 : geomFlags G.geom < 2^8 := validGeomB_flagLt _ _ hvG
  have hfl8H : geomFlags H.geom < 2^8 := by rw [hHgeom]; exact hfl8
  have hbits := setFlagBBOX_bits (geomFlags H.geom) hfl8H H.bbox.isSome
  have hzmr := setFlagBBOX_zm (geomFlags H.geom) hfl8H H.bbox.isSome
  have hvH : validGeomB (geomFlags H.geom) H.geom = true := by rw [hHgeom]; exact hvG
  have hvGH : validGeomB (setFlagBBOX (geomFlags H.geom) H.bbox.isSome)
      (setGeomFlags H.geom (setFlagBBOX (geomFlags H.geom) H.bbox.isSome)) = true :=
    validGeomB_setRoot H.geom _ (geomFlags H.geom) hvH hbits.2.2.2.2 hzmr
  obtain ⟨body, hbody⟩ := writerOk _ _ hvGH
  have hlen := encodedLen _ _ body hvGH hbody
  simp only [hbody]
  have hexp : gserialized_from_lwgeom_size { srid := H.srid, bbox := H.bbox, geom := setGeomFlags H.geom (setFlagBBOX (geomFlags H.geom) H.bbox.isSome) } =
      8 + (if H.bbox.isSome then
        gbox_serialized_size (setFlagBBOX (geomFlags H.geom) H.bbox.isSome) else 0) +
      gserialized_from_any_size
        (setGeomFlags H.geom (setFlagBBOX (geomFlags H.geom) H.bbox.isSome)) := by
    unfold gserialized_from_lwgeom_size
    dsimp only
    rw [geomFlags_set]
  have hml : (match H.bbox with
      | some b => gserialized_from_gbox env b
      | none => []).length =
      (if H.bbox.isSome then
        gbox_serialized_size (setFlagBBOX (geomFlags H.geom) H.bbox.isSome) else 0) := by
    cases hbb : H.bbox with
    | none => simp
    | some b =>
      simp only [Option.isSome_some, if_true]
      rw [from_gbox_length]
      obtain ⟨hfz, hfm, hfg⟩ := hHbox b hbb
      simp only [hbb, Option.isSome_some] at hbits
      exact gbox_size_congr b.flags (setFlagBBOX (geomFlags H.geom) true)
        (by rw [hfz, ← hHgeom]; exact hbits.1.symm)
        (by rw [hfm, ← hHgeom]; exact hbits.2.1.symm)
        (by rw [hfg, ← hHgeom]; exact hbits.2.2.1.symm)
  rw [hexp, hml]
  have hne : ¬ (8 + (if H.bbox.isSome then
      gbox_serialized_size (setFlagBBOX (geomFlags H.geom) H.bbox.isSome) else 0) +
      body.length ≠
      8 + (if H.bbox.isSome then
        gbox_serialized_size (setFlagBBOX (geomFlags H.geom) H.bbox.isSome) else 0) +
      gserialized_from_any_size
        (setGeomFlags H.geom (setFlagBBOX (geomFlags H.geom) H.bbox.isSome))) := by
    rw [hlen]
    exact fun hk => hk rfl
  rw [if_neg hne]
  have hbl : (if hasBBOX (setFlagBBOX (geomFlags H.geom) H.bbox.isSome) then
      gbox_serialized_size (setFlagBBOX (geomFlags H.geom) H.bbox.isSome) else 0) =
      (match H.bbox with
        | some b => gserialized_from_gbox env b
        | none => []).length := by
    rw [hml, hbits.2.2.2.1]
  obtain ⟨F, hF1, hF2, hF3, hF4, hF5⟩ := decode_encoded env
    (setFlagBBOX (geomFlags H.geom) H.bbox.isSome)
    (setGeomFlags H.geom (setFlagBBOX (geomFlags H.geom) H.bbox.isSome))
    (match H.bbox with
      | some b => gserialized_from_gbox env b
      | none => [])
    body
    ((8 + (if H.bbox.isSome then
      gbox_serialized_size (setFlagBBOX (geomFlags H.geom) H.bbox.isSome) else 0) +
      body.length) <<< 2)
    H.srid hbl hvGH (geomFlags_set _ _) hbits.2.2.2.2 hbody
  have hHsrid : H.srid = G.srid := by
    rw [hH]
    split
    · unfold lwgeom_add_bbox
      split <;> rfl
    · rfl
  refine ⟨_, F, rfl, hF1, ?_, ?_, ?_, ?_, ?_, ?_, ?_⟩
  · rw [hF2, lwtypeOf_setGeomFlags, hHgeom]
  · rw [hF3, coordShape_setGeomFlags, hHgeom]
  · rw [hF4, hbits.1, hHgeom]
  · rw [hF4, hbits.2.1, hHgeom]
  · rw [hF4, hbits.2.2.1, hHgeom]
  · rw [hF4, setFlagBBOX_clear (geomFlags H.geom) hfl8H H.bbox.isSome, hHgeom]
  · rw [hF5, hHsrid]

/-- C5: decoding the encoding of a valid geometry succeeds and returns a geometry
with the same type tag, the same root flag byte up to the bbox bit — the two flag
bytes are equal once the bbox bit is cleared on both, so Z, M, geodetic, readonly,
solid and every other bit agree — the SRID clamped by `clamp_srid`, and the same
coordinate sequence: the same point counts / ring counts / child structure and
identical ordinate bytes (`coordShape`).  The box-calculator hypothesis states that
computed boxes carry the geometry's dimension flags, as `lwgeom_calculate_gbox`
does. -/
theorem c5_roundtrip (env : Env) (G : LWFULL) (hv : validFullB G = true)
    (hcalc : ∀ t b, env.calcGbox t = some b →
      flagZ b.flags = flagZ (geomFlags t) ∧ flagM b.flags = flagM (geomFlags t) ∧
      flagGeodetic b.flags = flagGeodetic (geomFlags t)) :
    ∃ g F, gserialized_from_lwgeom env G = some g ∧
      lwgeom_from_gserialized env g = some F ∧
      lwtypeOf F.geom = lwtypeOf G.geom ∧
      coordShape F.geom = coordShape G.geom ∧
      flagZ (geomFlags F.geom) = flagZ (geomFlags G.geom) ∧
      flagM (geomFlags F.geom) = flagM (geomFlags G.geom) ∧
      flagGeodetic (geomFlags F.geom) = flagGeodetic (geomFlags G.geom) ∧
      setFlagBBOX (geomFlags F.geom) false = setFlagBBOX (geomFlags G.geom) false ∧
      F.srid = (clamp_srid G.srid).1 :=
  encode_decode env G hv hcalc

/-- Witness for C5 at the one-point MultiPoint with SRID 4326. -/
theorem c5_roundtrip_witness :
    validFullB tMpOnePoint = true ∧
    (∃ g F, gserialized_from_lwgeom env0 tMpOnePoint = some g ∧
      lwgeom_from_gserialized env0 g = some F ∧
      lwtypeOf F.geom = lwtypeOf tMpOnePoint.geom ∧
      coordShape F.geom = coordShape tMpOnePoint.geom ∧
      flagZ (geomFlags F.geom) = flagZ (geomFlags tMpOnePoint.geom) ∧
      flagM (geomFlags F.geom) = flagM (geomFlags tMpOnePoint.geom) ∧
      flagGeodetic (geomFlags F.geom) = flagGeodetic (geomFlags tMpOnePoint.geom) ∧
      setFlagBBOX (geomFlags F.geom) false =
        setFlagBBOX (geomFlags tMpOnePoint.geom) false ∧
      F.srid = (clamp_srid tMpOnePoint.srid).1) :=
  ⟨by decide, c5_roundtrip env0 tMpOnePoint (by decide) (fun t b h => nomatch h)⟩

set_option maxRecDepth 8192 in
/-- C8: the encoded polygon body is the u32 type tag, u32 `nrings`, the table of
`nrings` u32 per-ring point counts, one 4-byte zero padding word exactly when
`nrings` is odd, then the contiguous ordinates; the size function counts exactly
these bytes; the decoder consumes exactly the same bytes back (skipping the padding
word exactly when `nrings` is odd, or it could not reproduce the ring ordinates);
and a 2D polygon with 3 rings of 4 points each has a body of exactly 216 bytes. -/
theorem c8_polygon_layout (f : Nat) (rings : List PTARRAY)
    (hv : validGeomB f (.lwpoly f rings) = true) :
    (∃ body, gserialized_from_lwpoly f rings = some body ∧
      body = bytesOfU32 POLYGONTYPE ++ bytesOfU32 rings.length ++ polyRingTable rings ++
        (if rings.length % 2 = 1 then bytesOfU32 0 else []) ++
        polyRingData (8 * ndims f) rings ∧
      (polyRingTable rings).length = 4 * rings.length ∧
      body.length = gserialized_from_any_size (.lwpoly f rings) ∧
      (∀ rest fuel, 1 ≤ fuel → ∃ t2,
        lwgeom_from_gserialized_buffer fuel f (body ++ rest) = some (t2, body.length) ∧
        coordShape t2 = coordShape (.lwpoly f rings))) ∧
    gserialized_from_any_size tPoly3Rings = 216 ∧
    (gserialized_from_lwgeom_any tPoly3Rings).map List.length = some 216 := by
  have hfl : f < 2^8 := by
    simp only [validGeomB, Bool.and_eq_true, beq_iff_eq, decide_eq_true_eq] at hv
    exact hv.1.1.1
  have hok : polyRingsZMOk f rings = true := by
    simp only [validGeomB, Bool.and_eq_true, beq_iff_eq, decide_eq_true_eq] at hv
    unfold polyRingsZMOk
    rw [List.all_eq_true]
    intro r hr
    have hrr := List.all_eq_true.mp hv.2 r hr
    simp only [validPAB, Bool.and_eq_true, beq_iff_eq, decide_eq_true_eq] at hrr
    simp only [beq_iff_eq]
    exact hrr.1.1.1.symm
  have hw : gserialized_from_lwpoly f rings =
      some (bytesOfU32 POLYGONTYPE ++ bytesOfU32 rings.length ++ polyRingTable rings ++
        (if rings.length % 2 = 1 then bytesOfU32 0 else []) ++
        polyRingData (8 * ndims f) rings) := by
    unfold gserialized_from_lwpoly
    rw [if_pos hok]
  have hany : gserialized_from_lwgeom_any (.lwpoly f rings) =
      some (bytesOfU32 POLYGONTYPE ++ bytesOfU32 rings.length ++ polyRingTable rings ++
        (if rings.length % 2 = 1 then bytesOfU32 0 else []) ++
        polyRingData (8 * ndims f) rings) := by
    simp only [gserialized_from_lwgeom_any]
    exact hw
  refine ⟨⟨_, hw, rfl, polyRingTable_length rings, encodedLen f _ _ hv hany, ?_⟩,
    by decide, by decide⟩
  intro rest fuel hfe
  obtain ⟨t2, h1, _h2, h3, _h4⟩ := readerRT f (.lwpoly f rings) _ f hv hany rfl hfl
    fuel rest hfe
  exact ⟨t2, h1, h3⟩

set_option maxRecDepth 8192 in
/-- Witness for C8 at the 2D polygon with 3 rings of 4 points each. -/
theorem c8_polygon_layout_witness :
    validGeomB 0 (.lwpoly 0 [ring4, ring4, ring4]) = true ∧
    ((∃ body, gserialized_from_lwpoly 0 [ring4, ring4, ring4] = some body ∧
      body = bytesOfU32 POLYGONTYPE ++ bytesOfU32 ([ring4, ring4, ring4] : List PTARRAY).length ++
        polyRingTable [ring4, ring4, ring4] ++
        (if ([ring4, ring4, ring4] : List PTARRAY).length % 2 = 1 then bytesOfU32 0 else []) ++
        polyRingData (8 * ndims 0) [ring4, ring4, ring4] ∧
      (polyRingTable [ring4, ring4, ring4]).length = 4 * ([ring4, ring4, ring4] : List PTARRAY).length ∧
      body.length = gserialized_from_any_size (.lwpoly 0 [ring4, ring4, ring4]) ∧
      (∀ rest fuel, 1 ≤ fuel → ∃ t2,
        lwgeom_from_gserialized_buffer fuel 0 (body ++ rest) = some (t2, body.length) ∧
        coordShape t2 = coordShape (.lwpoly 0 [ring4, ring4, ring4]))) ∧
    gserialized_from_any_size tPoly3Rings = 216 ∧
    (gserialized_from_lwgeom_any tPoly3Rings).map List.length = some 216) :=
  ⟨by decide, c8_polygon_layout 0 [ring4, ring4, ring4] (by decide)⟩

theorem drop12_words (a b c : Nat) (x : List Nat) :
    (bytesOfU32 a ++ (bytesOfU32 b ++ (bytesOfU32 c ++ x))).drop 12 = x := rfl

theorem peek_none_of_flag (env : Env) (g : GSERIALIZED)
    (h : isGeodetic g.flags = true ∨ hasBBOX g.flags = true) :
    gserialized_peek_gbox_p env g = none := by
  unfold gserialized_peek_gbox_p
  dsimp only
  rw [if_pos (show (isGeodetic g.flags || hasBBOX g.flags) = true from by
    cases h with
    | inl h1 => rw [h1]; rfl
    | inr h2 => rw [h2, Bool.or_true])]

theorem peek_rounded (env : Env) (g : GSERIALIZED) (b : GBOX)
    (h : gserialized_peek_gbox_p env g = some b) :
    ∃ b0, b = gbox_float_round env b0 := by
  unfold gserialized_peek_gbox_p at h
  dsimp only at h
  split_ifs at h <;>
    exact ⟨_, (Option.some.inj h).symm⟩

theorem peekableShape_coll_other (ct f : Nat) (gs : List LWGEOM)
    (h4 : ct ≠ MULTIPOINTTYPE) (h5 : ct ≠ MULTILINETYPE) :
    peekableShape (.lwcollection ct f gs) = false := by
  cases gs with
  | nil => rfl
  | cons g1 tl =>
    cases tl with
    | cons g2 tl2 => cases g1 <;> rfl
    | nil =>
      cases g1 with
      | lwpoint f1 pa =>
        simp only [peekableShape, Bool.and_eq_false_iff]
        exact Or.inl (by simpa using h4)
      | lwline f1 pa =>
        simp only [peekableShape, Bool.and_eq_false_iff]
        exact Or.inl (by simpa using h5)
      | lwtriangle f1 pa => rfl
      | lwcircstring f1 pa => rfl
      | lwpoly f1 rs => rfl
      | lwcollection t1 f1 gs1 => rfl

theorem peek_isSome_eq (env : Env) (g : GSERIALIZED) (rf : Nat) (t : LWGEOM)
    (body : List Nat) (hv : validGeomB rf t = true)
    (hb : gserialized_from_lwgeom_any t = some body)
    (hgeo : isGeodetic g.flags = false) (hbb : hasBBOX g.flags = false)
    (hdata : g.data = body) :
    (gserialized_peek_gbox_p env g).isSome = peekableShape t := by
  obtain ⟨tl0, htl0⟩ := bodyHead rf t body hv hb
  have htype : gserialized_get_type g = lwtypeOf t := by
    unfold gserialized_get_type
    rw [hdata, hbb]
    simp only [Bool.false_eq_true, if_false]
    rw [htl0, readU32_bytesOfU32]
    exact Nat.mod_eq_of_lt (lwtypeOf_lt rf t hv)
  have hcond : ¬ ((isGeodetic g.flags || hasBBOX g.flags) = true) := by
    rw [hgeo, hbb]
    simp
  unfold gserialized_peek_gbox_p
  dsimp only
  rw [if_neg hcond, htype]
  cases t with
  | lwpoint f pa =>
    simp only [lwtypeOf]
    rw [if_pos trivial]
    simp only [validGeomB, Bool.and_eq_true, beq_iff_eq, decide_eq_true_eq] at hv
    have hpa := hv.1.2
    simp only [validPAB, Bool.and_eq_true, beq_iff_eq, decide_eq_true_eq] at hpa
    simp only [gserialized_from_lwgeom_any, gserialized_from_lwpoint] at hb
    rw [if_neg (show ¬ zmOf f ≠ zmOf pa.flags from fun hk => hk hpa.1.1.1.symm)] at hb
    have hbody := (Option.some.inj hb).symm
    have hread : readU32 g.data 4 = pa.npoints := by
      rw [hdata, hbody, List.append_assoc, readU32_at4, readU32_bytesOfU32]
      exact Nat.mod_eq_of_lt (by have := hpa.1.1.2; omega)
    rw [hread]
    by_cases hn : pa.npoints = 0
    · rw [if_pos hn]
      simp [peekableShape, hn]
    · rw [if_neg hn]
      simp [peekableShape, hn]
  | lwline f pa =>
    simp only [lwtypeOf]
    rw [if_neg (by decide), if_pos trivial]
    simp only [validGeomB, Bool.and_eq_true, beq_iff_eq, decide_eq_true_eq] at hv
    have hpa := hv.2
    simp only [validPAB, Bool.and_eq_true, beq_iff_eq, decide_eq_true_eq] at hpa
    simp only [gserialized_from_lwgeom_any, gserialized_from_lwline] at hb
    rw [if_neg (show ¬ flagZ f ≠ flagZ pa.flags from
      fun hk => hk (flagZ_eq_of_zmOf _ _ hpa.1.1.1.symm))] at hb
    have hbody := (Option.some.inj hb).symm
    have hread : readU32 g.data 4 = pa.npoints := by
      rw [hdata, hbody, List.append_assoc, readU32_at4, readU32_bytesOfU32]
      exact Nat.mod_eq_of_lt (by have := hpa.1.1.2; omega)
    rw [hread]
    by_cases hn : pa.npoints = 2
    · rw [if_neg (show ¬ pa.npoints ≠ 2 from fun hk => hk hn)]
      simp [peekableShape, hn]
    · rw [if_pos hn]
      simp [peekableShape, hn]
  | lwtriangle f pa =>
    simp only [lwtypeOf]
    rw [if_neg (by decide), if_neg (by decide), if_neg (by decide), if_neg (by decide)]
    rfl
  | lwcircstring f pa =>
    simp only [lwtypeOf]
    rw [if_neg (by decide), if_neg (by decide), if_neg (by decide), if_neg (by decide)]
    rfl
  | lwpoly f rings =>
    simp only [lwtypeOf]
    rw [if_neg (by decide), if_neg (by decide), if_neg (by decide), if_neg (by decide)]
    rfl
  | lwcollection ct f gs =>
    simp only [lwtypeOf]
    simp only [validGeomB, Bool.and_eq_true, beq_iff_eq, decide_eq_true_eq] at hv
    have hcoll : lwtype_is_collection ct = true := hv.1.1.2
    have hcount : gs.length < 2^31 := hv.1.2
    have hch : validChildrenB rf ct gs = true := hv.2
    simp only [gserialized_from_lwgeom_any] at hb
    rw [if_pos hcoll] at hb
    cases hw : writeCollChildren f gs with
    | none => rw [hw] at hb; simp at hb
    | some bodies =>
      rw [hw] at hb
      have hbody := (Option.some.inj hb).symm
      have hreadn : readU32 g.data 4 = gs.length := by
        rw [hdata, hbody, List.append_assoc, readU32_at4, readU32_bytesOfU32]
        exact Nat.mod_eq_of_lt (by omega)
      by_cases h4 : ct = MULTIPOINTTYPE
      · subst h4
        rw [if_neg (by decide), if_neg (by decide), if_pos rfl, hreadn]
        cases gs with
        | nil =>
          rw [if_pos (by simp)]
          rfl
        | cons g1 tl =>
          cases tl with
          | cons g2 tl2 =>
            rw [if_pos (by simp only [List.length_cons]; omega)]
            cases g1 <;> rfl
          | nil =>
            simp only [validChildrenB, Bool.and_eq_true] at hch
            have hallow := hch.1.1
            have hmp : lwcollection_allows_subtype MULTIPOINTTYPE (lwtypeOf g1) =
                (lwtypeOf g1 == POINTTYPE) := rfl
            rw [hmp] at hallow
            have hgt1 : lwtypeOf g1 = POINTTYPE := by simpa using hallow
            have hvg1 := hch.1.2
            cases g1 with
            | lwline f1 pa => simp [lwtypeOf, LINETYPE, POINTTYPE] at hgt1
            | lwtriangle f1 pa => simp [lwtypeOf, TRIANGLETYPE, POINTTYPE] at hgt1
            | lwcircstring f1 pa => simp [lwtypeOf, CIRCSTRINGTYPE, POINTTYPE] at hgt1
            | lwpoly f1 rs => simp [lwtypeOf, POLYGONTYPE, POINTTYPE] at hgt1
            | lwcollection ct1 f1 gs1 =>
              simp only [lwtypeOf] at hgt1
              subst hgt1
              simp only [validGeomB, Bool.and_eq_true, beq_iff_eq,
                decide_eq_true_eq] at hvg1
              have := hvg1.1.1.2
              simp [lwtype_is_collection, POINTTYPE, MULTIPOINTTYPE, MULTILINETYPE,
                MULTIPOLYGONTYPE, COLLECTIONTYPE, CURVEPOLYTYPE, COMPOUNDTYPE,
                MULTICURVETYPE, MULTISURFACETYPE, POLYHEDRALSURFACETYPE,
                TINTYPE] at this
            | lwpoint f1 pa =>
              simp only [List.length_singleton]
              rw [if_neg (show ¬ (1 : Nat) ≠ 1 from fun hk => hk rfl)]
              simp only [validGeomB, Bool.and_eq_true, beq_iff_eq,
                decide_eq_true_eq] at hvg1
              have hpa := hvg1.1.2
              simp only [validPAB, Bool.and_eq_true, beq_iff_eq,
                decide_eq_true_eq] at hpa
              simp only [writeCollChildren] at hw
              rw [if_neg (show ¬ zmOf f ≠ zmOf (geomFlags (LWGEOM.lwpoint f1 pa)) from
                fun hk => hk (hv.1.1.1.2.trans
                  (validGeomB_zm rf (.lwpoint f1 pa) hch.1.2).symm))] at hw
              cases hwg1 : gserialized_from_lwgeom_any (.lwpoint f1 pa) with
              | none => rw [hwg1] at hw; simp at hw
              | some b1 =>
                rw [hwg1] at hw
                have hbs : b1 ++ [] = bodies := Option.some.inj hw
                simp only [gserialized_from_lwgeom_any, gserialized_from_lwpoint] at hwg1
                rw [if_neg (show ¬ zmOf f1 ≠ zmOf pa.flags from
                  fun hk => hk hpa.1.1.1.symm)] at hwg1
                have hb1 := (Option.some.inj hwg1).symm
                have hdrop12 : g.data.drop 12 = bytesOfU32 pa.npoints ++
                    (if 0 < pa.npoints then pa.pdata.take (ptarray_point_size pa)
                     else []) := by
                  rw [hdata, hbody, ← hbs, hb1]
                  simp only [List.append_nil, List.append_assoc]
                  exact drop12_words _ _ _ _
                have hread12 : readU32 g.data 12 = pa.npoints := by
                  rw [readU32_of_drop g.data 12 pa.npoints _ hdrop12]
                  exact Nat.mod_eq_of_lt (by have := hpa.1.1.2; omega)
                rw [hread12]
                by_cases hn : pa.npoints = 1
                · rw [if_neg (show ¬ pa.npoints ≠ 1 from fun hk => hk hn)]
                  simp [peekableShape, hn]
                · rw [if_pos hn]
                  simp [peekableShape, hn]
      · by_cases h5 : ct = MULTILINETYPE
        · subst h5
          rw [if_neg (by decide), if_neg (by decide), if_neg (by decide),
            if_pos rfl, hreadn]
          cases gs with
          | nil =>
            rw [if_pos (by simp)]
            rfl
          | cons g1 tl =>
            cases tl with
            | cons g2 tl2 =>
              rw [if_pos (by simp only [List.length_cons]; omega)]
              cases g1 <;> rfl
            | nil =>
              simp only [validChildrenB, Bool.and_eq_true] at hch
              have hallow := hch.1.1
              have hmp : lwcollection_allows_subtype MULTILINETYPE (lwtypeOf g1) =
                  (lwtypeOf g1 == LINETYPE) := rfl
              rw [hmp] at hallow
              have hgt1 : lwtypeOf g1 = LINETYPE := by simpa using hallow
              have hvg1 := hch.1.2
              cases g1 with
              | lwpoint f1 pa => simp [lwtypeOf, LINETYPE, POINTTYPE] at hgt1
              | lwtriangle f1 pa => simp [lwtypeOf, TRIANGLETYPE, LINETYPE] at hgt1
              | lwcircstring f1 pa => simp [lwtypeOf, CIRCSTRINGTYPE, LINETYPE] at hgt1
              | lwpoly f1 rs => simp [lwtypeOf, POLYGONTYPE, LINETYPE] at hgt1
              | lwcollection ct1 f1 gs1 =>
                simp only [lwtypeOf] at hgt1
                subst hgt1
                simp only [validGeomB, Bool.and_eq_true, beq_iff_eq,
                  decide_eq_true_eq] at hvg1
                have := hvg1.1.1.2
                simp [lwtype_is_collection, LINETYPE, MULTIPOINTTYPE, MULTILINETYPE,
                  MULTIPOLYGONTYPE, COLLECTIONTYPE, CURVEPOLYTYPE, COMPOUNDTYPE,
                  MULTICURVETYPE, MULTISURFACETYPE, POLYHEDRALSURFACETYPE,
                  TINTYPE] at this
              | lwline f1 pa =>
                simp only [List.length_singleton]
                rw [if_neg (show ¬ (1 : Nat) ≠ 1 from fun hk => hk rfl)]
                simp only [validGeomB, Bool.and_eq_true, beq_iff_eq,
                  decide_eq_true_eq] at hvg1
                have hpa := hvg1.2
                simp only [validPAB, Bool.and_eq_true, beq_iff_eq,
                  decide_eq_true_eq] at hpa
                simp only [writeCollChildren] at hw
                rw [if_neg (show ¬ zmOf f ≠ zmOf (geomFlags (LWGEOM.lwline f1 pa)) from
                  fun hk => hk (hv.1.1.1.2.trans
                    (validGeomB_zm rf (.lwline f1 pa) hch.1.2).symm))] at hw
                cases hwg1 : gserialized_from_lwgeom_any (.lwline f1 pa) with
                | none => rw [hwg1] at hw; simp at hw
                | some b1 =>
                  rw [hwg1] at hw
                  have hbs : b1 ++ [] = bodies := Option.some.inj hw
                  simp only [gserialized_from_lwgeom_any, gserialized_from_lwline] at hwg1
                  rw [if_neg (show ¬ flagZ f1 ≠ flagZ pa.flags from
                    fun hk => hk (flagZ_eq_of_zmOf _ _ hpa.1.1.1.symm))] at hwg1
                  have hb1 := (Option.some.inj hwg1).symm
                  have hdrop12 : g.data.drop 12 = bytesOfU32 pa.npoints ++
                      (if 0 < pa.npoints then
                        pa.pdata.take (pa.npoints * ptarray_point_size pa)
                       else []) := by
                    rw [hdata, hbody, ← hbs, hb1]
                    simp only [List.append_nil, List.append_assoc]
                    exact drop12_words _ _ _ _
                  have hread12 : readU32 g.data 12 = pa.npoints := by
                    rw [readU32_of_drop g.data 12 pa.npoints _ hdrop12]
                    exact Nat.mod_eq_of_lt (by have := hpa.1.1.2; omega)
                  rw [hread12]
                  by_cases hn : pa.npoints = 2
                  · rw [if_neg (show ¬ pa.npoints ≠ 2 from fun hk => hk hn)]
                    simp [peekableShape, hn]
                  · rw [if_pos hn]
                    simp [peekableShape, hn]
        · have hne := coll_tag_ne_leaf ct hcoll
          rw [if_neg hne.1, if_neg hne.2.1, if_neg h4, if_neg h5,
            peekableShape_coll_other ct f gs h4 h5]
          rfl

/-- C9: `gserialized_peek_gbox_p` fails on every geodetic record and every record
carrying a serialized bbox; every successful result is widened through
`gbox_float_round`; and on a non-geodetic, box-less record holding a valid
serialized body, it succeeds exactly when the serialized geometry is one of the
four peekable shapes: a non-empty Point, a 2-point LineString, a MultiPoint with
exactly one non-empty Point, or a MultiLineString with exactly one 2-point
LineString (`peekableShape`). -/
theorem c9_peek_contract (env : Env) (g : GSERIALIZED) (rf : Nat) (t : LWGEOM)
    (body : List Nat) (hv : validGeomB rf t = true)
    (hb : gserialized_from_lwgeom_any t = some body) :
    (∀ _ : isGeodetic g.flags = true ∨ hasBBOX g.flags = true,
      gserialized_peek_gbox_p env g = none) ∧
    (∀ b, gserialized_peek_gbox_p env g = some b → ∃ b0, b = gbox_float_round env b0) ∧
    (isGeodetic g.flags = false → hasBBOX g.flags = false → g.data = body →
      (gserialized_peek_gbox_p env g).isSome = peekableShape t) :=
  ⟨fun h => peek_none_of_flag env g h,
   fun b hpb => peek_rounded env g b hpb,
   fun hgeo hbb hdata => peek_isSome_eq env g rf t body hv hb hgeo hbb hdata⟩

set_option maxRecDepth 4096 in
/-- Witness for C9 at the serialized 2-point line record. -/
theorem c9_peek_contract_witness :
    validGeomB 0 tLineTwoPoints = true ∧
    gserialized_from_lwgeom_any tLineTwoPoints = some exLineTwoPoints.data ∧
    ((∀ _ : isGeodetic exLineTwoPoints.flags = true ∨
        hasBBOX exLineTwoPoints.flags = true,
      gserialized_peek_gbox_p env0 exLineTwoPoints = none) ∧
     (∀ b, gserialized_peek_gbox_p env0 exLineTwoPoints = some b →
        ∃ b0, b = gbox_float_round env0 b0) ∧
     (isGeodetic exLineTwoPoints.flags = false →
       hasBBOX exLineTwoPoints.flags = false →
       exLineTwoPoints.data = exLineTwoPoints.data →
       (gserialized_peek_gbox_p env0 exLineTwoPoints).isSome =
         peekableShape tLineTwoPoints)) :=
  ⟨by decide, by decide, c9_peek_contract env0 exLineTwoPoints 0 tLineTwoPoints
    exLineTwoPoints.data (by decide) (by decide)⟩
